import Mathlib

/-!
# PBS Pro control plane: status aggregation, connection registry, scheduler command pump

A shallow embedding of `src/lib/Libifl/int_status.c`, `src/lib/Libnet/net_server.c`
and `src/scheduler/pbs_sched.c`, with the properties of the design document stated
and settled against it.

Conventions of the embedding.
* A C string is a `String`; a `NULL` string and the empty string are identified
  wherever the code treats them alike (every test below is `!p || *p == 0` or
  `p && !strcmp (p, q)` with `q` non-empty).
* `long` is `Int`; `strtol` saturates at `LONG_MIN`/`LONG_MAX` and additions are
  reduced to 64 bits two's complement (`wrap_long`).
* A step that the C standard leaves undefined (a null dereference, a write through
  a freed pointer, a remainder modulo zero) ends the run with a `Fault`.
* Buffer capacities are not tracked: `sprintf` into a caller's buffer is modelled
  as replacing the string.
-/

namespace PbsPro

/-! ## The C library -/

/-- Undefined steps the embedded code can reach. -/
inductive Fault where
  | null_deref
  | use_after_free
  | out_of_bounds
  | div_by_zero
  deriving DecidableEq, Repr

deriving instance DecidableEq for Except

/-- The `isspace` of the C locale: space, and the controls 9 .. 13. -/
def isspace (c : Char) : Bool :=
  c.toNat == 32 || (9 ≤ c.toNat && c.toNat ≤ 13)

/-- The `isdigit` of the C locale. -/
def isdigit (c : Char) : Bool :=
  48 ≤ c.toNat && c.toNat ≤ 57

def LONG_MAX : Int := 9223372036854775807

def LONG_MIN : Int := -9223372036854775808

/-- Reduction of a mathematical integer to a 64-bit two's complement `long`. -/
def wrap_long (x : Int) : Int :=
  (x + 9223372036854775808) % 18446744073709551616 - 9223372036854775808

/-- Saturation as done by `strtol` on overflow. -/
def clamp_long (x : Int) : Int :=
  if x > LONG_MAX then LONG_MAX else if x < LONG_MIN then LONG_MIN else x

/-- Value of a run of decimal digits. -/
def digits_value (ds : List Char) : Nat :=
  ds.foldl (fun acc d => 10 * acc + (d.toNat - 48)) 0

/-- The function `strtol (s, &end, 10)`: leading white space, an optional sign, then
digits. Returns the value and the unread rest; with no digit the value is 0 and the
rest is the whole of `s`. -/
def strtol (s : List Char) : Int × List Char :=
  let t := s.dropWhile isspace
  let neg : Bool := t.head? == some '-'
  let u := match t with
    | c :: r => if c == '-' || c == '+' then r else t
    | [] => t
  let ds := u.takeWhile isdigit
  if ds.isEmpty then (0, s)
  else (clamp_long (if neg then - (digits_value ds : Int) else (digits_value ds : Int)),
        u.dropWhile isdigit)

/-- The rendering of `sprintf (buf, "%ld", x)`. -/
def sprintf_ld (x : Int) : List Char :=
  if x < 0 then '-' :: Nat.toDigits 10 x.natAbs else Nat.toDigits 10 x.natAbs

/-! ## Batch status data (`pbs_ifl.h`) -/

/-- An attribute entry `struct attrl`: name, optional resource, value. -/
structure attrl where
  name : String
  resource : String
  value : String
  deriving DecidableEq, Repr

/-- A status entry `struct batch_status`; the `next` link is the list structure. -/
structure batch_status where
  name : String
  attribs : List attrl
  text : String
  deriving DecidableEq, Repr

/-- Attribute name of the per-state job counts (`ATTR_count`). -/
def ATTR_count : String := "state_count"

/-- Attribute name of the job total (`ATTR_total`). -/
def ATTR_total : String := "total_jobs"

/-- Attribute name of the assigned resources (`ATTR_rescassn`). -/
def ATTR_rescassn : String := "resources_assigned"

/-- Attribute name of the synthetic server index (`ATTR_server_index`). -/
def ATTR_server_index : String := "server_index"

/-- Replace the value of the attribute at position `i`. -/
def set_value : List attrl → Nat → String → List attrl
  | [], _, _ => []
  | a :: l, 0, v => { a with value := v } :: l
  | a :: l, i + 1, v => a :: set_value l i v

/-! ## State counts (`int_status.c`, lines 58-129) -/

def MAX_STATE : Nat := 7

def statename : List String :=
  ["Transit", "Queued", "Held", "Waiting", "Running", "Exiting", "Begun"]

/-- The zero-initialised `long [MAX_STATE]`. -/
def zero_counts : List Int := List.replicate MAX_STATE 0

/-- The pair (text before the first colon, text after it) of `strchr (s, ':')`, if any. -/
def split_colon : List Char → Option (List Char × List Char)
  | [] => none
  | c :: r =>
    if c == ':' then some ([], r)
    else (split_colon r).map (fun p => (c :: p.1, p.2))

/-- The `for` loop over `statename` with `strcmp`. -/
def state_index (s : List Char) : Option Nat :=
  statename.findIdx? (fun n => n.toList == s)

/-- The main `while` loop of `decode_states`; every turn consumes at least the colon
it found, so `fuel` above the length of `c` is never exhausted. -/
def decode_loop : Nat → List Char → List Int → List Int
  | 0, _, count => count
  | fuel + 1, c, count =>
    if c.isEmpty then count
    else
      match split_colon c with
      | none => count
      | some (s, rest) =>
        match state_index s with
        | some i =>
          let r := strtol rest
          decode_loop fuel (r.2.drop 1) (count.set i r.1)
        | none => decode_loop fuel (rest.dropWhile (fun ch => ch != ' ')) count

/-- The function `decode_states (string, count)`. -/
def decode_states (string : List Char) (count : List Int) : List Int :=
  decode_loop (string.length + 1) (string.dropWhile isspace) count

/-- The buffer built by `encode_states` from `cur [i] + nxt [i]`. -/
def encode_states (cur nxt : List Int) : List Char :=
  (List.range MAX_STATE).foldr
    (fun i buf =>
      (statename.getD i "").toList ++ ':' :: sprintf_ld (wrap_long (cur.getD i 0 + nxt.getD i 0))
        ++ ' ' :: buf)
    []

/-! ## Job-count merge (`aggr_job_ct`, lines 202-245) -/

/-- What one attribute loop of `aggr_job_ct` leaves behind: the decoded counts, the
running total, the index of the last `total_jobs` attribute (whose value pointer is
kept in `tot_jobs_attr`), and the loop variable after the loop: the index of the node
at which `found == 2` broke the loop, or `none` when the loop ran off the list. -/
structure job_scan where
  st_ct : List Int
  tot_jobs : Int
  tot_jobs_attr : Option Nat
  cursor : Option Nat
  deriving DecidableEq, Repr

/-- One of the two attribute loops of `aggr_job_ct`. -/
def scan_attribs : List attrl → Nat → Nat → job_scan → job_scan
  | [], _, _, acc => { acc with cursor := none }
  | a :: rest, idx, found, acc =>
    let step : Nat × job_scan :=
      if a.name == ATTR_count then
        (found + 1, { acc with st_ct := decode_states a.value.toList acc.st_ct })
      else if a.name == ATTR_total then
        (found + 1, { acc with tot_jobs := wrap_long (acc.tot_jobs + (strtol a.value.toList).1)
                               tot_jobs_attr := some idx })
      else (found, acc)
    if step.1 == 2 then { step.2 with cursor := some idx }
    else scan_attribs rest (idx + 1) step.1 step.2

/-- The function `aggr_job_ct (cur, nxt)` on the two attribute lists; the result is the
attribute list of `cur`. `encode_states` frees the value of the node the first loop
stopped at and installs the encoded sum there; the total is then printed through the
pointer saved in `tot_jobs_attr`, which is a freed buffer when that node is the last
`total_jobs` attribute. -/
def aggr_job_ct (cur nxt : List attrl) : Except Fault (List attrl) :=
  let sa := scan_attribs cur 0 0 ⟨zero_counts, 0, none, none⟩
  let sb := scan_attribs nxt 0 0 ⟨zero_counts, sa.tot_jobs, none, none⟩
  let enc : Option Nat :=
    match sa.cursor, sb.cursor with
    | some i, some _ => some i
    | _, _ => none
  let cur1 :=
    match enc with
    | some i => set_value cur i (String.mk (encode_states sa.st_ct sb.st_ct))
    | none => cur
  match sa.tot_jobs_attr with
  | none => Except.ok cur1
  | some j =>
    if enc = some j then Except.error Fault.use_after_free
    else Except.ok (set_value cur1 j (String.mk (sprintf_ld sb.tot_jobs)))

/-! ## Resource merge (`assess_type`, `accumulate_values`, `aggr_resc_ct`, lines 247-369) -/

/-- What the embedding takes from outside `src/`: the floating-point and size
arithmetic of the C library and of `libattr`, and the indeterminate content of the
local `char buf [32]` of `accumulate_values` on entry. -/
structure Platform where
  /-- Whether `strtod (val, &pc)` is non-zero. -/
  strtod_nonzero : List Char → Bool
  /-- The unread rest `pc` left by `strtod (val, &pc)`. -/
  strtod_rest : List Char → List Char
  /-- The text `sprintf (buf, "%f", strtod (b) + strtod (cur))`. -/
  sum_double : List Char → List Char → List Char
  /-- The text of `decode_size` on both values, `set_size (INCR)`, `from_size`. -/
  sum_size : List Char → List Char → List Char
  /-- The content of the uninitialised `buf`. -/
  uninit_buf : List Char

/-- The codes `DOUBLE`, `LONG`, `STRING`, `SIZE`, and the initial `-1` of the local
`type` of `accumulate_values`. -/
inductive vtype where
  | DOUBLE
  | LONG
  | STRING
  | SIZE
  | unassigned
  deriving DecidableEq, Repr

/-- The `strcasecmp (pc, u) == 0` test against one unit name. -/
def strcasecmp_eq (pc : List Char) (u : String) : Bool :=
  pc.map Char.toLower == u.toList.map Char.toLower

/-- The function `assess_type (val, &type, &val_double, &val_long)` started with
`type == -1`; returns the type and `val_long`. -/
def assess_type (P : Platform) (val : List Char) : vtype × Int :=
  if val.contains '.' then
    if P.strtod_nonzero val then (vtype.DOUBLE, 0)
    else if !(P.strtod_rest val).isEmpty then (vtype.STRING, 0)
    else (vtype.unassigned, 0)
  else
    let r := strtol val
    if r.1 != 0 then
      if strcasecmp_eq r.2 "kb" || strcasecmp_eq r.2 "mb" || strcasecmp_eq r.2 "gb"
          || strcasecmp_eq r.2 "tb" || strcasecmp_eq r.2 "pb" then (vtype.SIZE, r.1)
      else (vtype.LONG, r.1)
    else if !r.2.isEmpty then (vtype.STRING, 0)
    else (vtype.unassigned, 0)

/-- The first pass of `aggr_resc_ct`: the `attrl_holder` chain, as the positions of the
`resources_assigned` attributes of `st1`. -/
def resc_holder : List attrl → Nat → List Nat
  | [], _ => []
  | a :: rest, idx =>
    if a.name == ATTR_rescassn then idx :: resc_holder rest (idx + 1)
    else resc_holder rest (idx + 1)

/-- The search loop of `accumulate_values`: the first holder whose attribute has the
resource of `b`. -/
def find_holder (attrs : List attrl) (resource : String) : List Nat → Option Nat
  | [] => none
  | i :: rest =>
    if (attrs.get? i).any (fun cur => cur.resource == resource) then some i
    else find_holder attrs resource rest

/-- The text left in `buf` by the `switch (type)` of `accumulate_values`. -/
def accumulated_text (P : Platform) (ty : vtype) (val_long : Int) (bval curval : List Char) :
    List Char :=
  match ty with
  | vtype.DOUBLE => P.sum_double bval curval
  | vtype.LONG => sprintf_ld (wrap_long (val_long + (strtol curval).1))
  | vtype.SIZE => P.sum_size bval curval
  | _ => P.uninit_buf

/-- The function `accumulate_values (a, b, orig)`: `holder` is the chain `a`, `attrs`
the list `orig` (the attributes of `st1`, which the chain points into). -/
def accumulate_values (P : Platform) (holder : List Nat) (b : attrl) (attrs : List attrl) :
    Except Fault (List attrl) :=
  if b.resource.isEmpty || b.value.isEmpty then Except.ok attrs
  else
    let t := assess_type P b.value.toList
    if t.1 == vtype.STRING then Except.ok attrs
    else
      match find_holder attrs b.resource holder with
      | some i =>
        let curval := ((attrs.get? i).map (fun cur => cur.value.toList)).getD []
        Except.ok (set_value attrs i (String.mk (accumulated_text P t.1 t.2 b.value.toList curval)))
      | none =>
        if attrs.isEmpty then Except.error Fault.null_deref
        else Except.ok (attrs ++ [b])

/-- The second loop of `aggr_resc_ct`, over the attributes of `st2`. -/
def resc_loop (P : Platform) (holder : List Nat) : List attrl → List attrl →
    Except Fault (List attrl)
  | [], attrs => Except.ok attrs
  | b :: rest, attrs =>
    if b.name == ATTR_rescassn then
      match accumulate_values P holder b attrs with
      | Except.ok attrs1 => resc_loop P holder rest attrs1
      | Except.error f => Except.error f
    else resc_loop P holder rest attrs

/-- The function `aggr_resc_ct (st1, st2)` on the two attribute lists; the result is
the attribute list of `st1`. -/
def aggr_resc_ct (P : Platform) (st1 st2 : List attrl) : Except Fault (List attrl) :=
  resc_loop P (resc_holder st1 0) st2 st1

/-! ## Per-object merges (`aggregate_svr`, `aggregate_queue`, lines 371-393) -/

/-- The pair of calls `aggr_job_ct (a, b); aggr_resc_ct (a, b);` on two entries. -/
def merge_entry (P : Platform) (a b : batch_status) : Except Fault batch_status :=
  match aggr_job_ct a.attribs b.attribs with
  | Except.error f => Except.error f
  | Except.ok l1 =>
    match aggr_resc_ct P l1 b.attribs with
    | Except.error f => Except.error f
    | Except.ok l2 => Except.ok { a with attribs := l2 }

/-- The function `aggregate_svr (sv1, sv2)`: the heads of the two lists are merged. -/
def aggregate_svr (P : Platform) (sv1 sv2 : List batch_status) :
    Except Fault (List batch_status) :=
  match sv1, sv2 with
  | a :: r, b :: _ =>
    match merge_entry P a b with
    | Except.ok a1 => Except.ok (a1 :: r)
    | Except.error f => Except.error f
  | _, _ => Except.ok sv1

/-- The inner loop of `aggregate_queue`: `b` is merged into the first entry of `sv1`
of the same name (names come from `strdup` and are never `NULL`). -/
def merge_into_first (P : Platform) (b : batch_status) :
    List batch_status → Except Fault (List batch_status)
  | [] => Except.ok []
  | a :: r =>
    if a.name == b.name then
      match merge_entry P a b with
      | Except.ok a1 => Except.ok (a1 :: r)
      | Except.error f => Except.error f
    else
      match merge_into_first P b r with
      | Except.ok r1 => Except.ok (a :: r1)
      | Except.error f => Except.error f

/-- The function `aggregate_queue (sv1, sv2)`; the result is the list `sv1`. -/
def aggregate_queue (P : Platform) : List batch_status → List batch_status →
    Except Fault (List batch_status)
  | sv1, [] => Except.ok sv1
  | sv1, b :: rest =>
    match merge_into_first P b sv1 with
    | Except.ok sv => aggregate_queue P sv rest
    | Except.error f => Except.error f

/-! ## The server connection table and the status request (`int_status.c`, lines 131-200, 520-617) -/

/-- The states of a server endpoint (`libpbs.h`). -/
inductive svr_conn_state where
  | SVR_CONN_STATE_DOWN
  | SVR_CONN_STATE_CONNECTING
  | SVR_CONN_STATE_CONNECTED
  deriving DecidableEq, Repr

/-- One slot `svr_conn_t` of the server connection table; its index is its position. -/
structure svr_conn_t where
  sd : Int
  state : svr_conn_state
  deriving DecidableEq, Repr

/-- The request types that `PBSD_status_get` distinguishes; `other` stands for every
other `PBS_BATCH_*` code. -/
inductive batch_request_type where
  | PBS_BATCH_StatusJob
  | PBS_BATCH_SelStat
  | PBS_BATCH_StatusNode
  | other (code : Nat)
  deriving DecidableEq, Repr

/-- The reply variants that `PBSD_status_get` distinguishes; `other` stands for every
other `BATCH_REPLY_CHOICE_*` code. -/
inductive reply_choice where
  | BATCH_REPLY_CHOICE_NULL
  | BATCH_REPLY_CHOICE_Text
  | BATCH_REPLY_CHOICE_Status
  | other (code : Nat)
  deriving DecidableEq, Repr

/-- A returned status record `struct brp_cmdstat`. -/
structure brp_cmdstat where
  brp_objname : String
  brp_attrl : List attrl
  deriving DecidableEq, Repr

/-- A decoded `struct batch_reply`: the variant tag and the chain of status records
that the code reads through the union member `brp_un.brp_statc`. -/
structure batch_reply where
  brp_choice : reply_choice
  brp_statc : List brp_cmdstat
  deriving DecidableEq, Repr

/-- The objects a request can be about; only `MGR_OBJ_SERVER` and `MGR_OBJ_QUEUE` are
told apart by the aggregation. -/
inductive mgr_obj where
  | MGR_OBJ_SERVER
  | MGR_OBJ_QUEUE
  | other (code : Nat)
  deriving DecidableEq, Repr

/-- The collaborators of the status client that live outside `src/`: each field is the
result of the named call on the given socket. -/
structure Wire where
  /-- The call `pbs_client_thread_init_thread_context ()`. -/
  init_thread_context : Int
  /-- The call `pbs_verify_attributes (c, ...)`. -/
  verify_attributes : Int → Int
  /-- The call `rand_num ()`. -/
  rand_num : Nat
  /-- The call `pbs_client_thread_lock_connection (c)`. -/
  lock_connection : Int → Int
  /-- The call `pbs_client_thread_unlock_connection (c)`. -/
  unlock_connection : Int → Int
  /-- The call `PBSD_status_put (c, ...)`. -/
  status_put : Int → Int
  /-- The call `PBSD_rdrpy (c)`; `none` is `NULL`. -/
  rdrpy : Int → Option batch_reply
  /-- The call `get_conn_errno (c)`. -/
  conn_errno : Int → Int

/-- The function `get_available_conn`: the socket of the first connected endpoint. -/
def get_available_conn : List svr_conn_t → Int
  | [] => -1
  | e :: rest =>
    if e.state == svr_conn_state.SVR_CONN_STATE_CONNECTED then e.sd
    else get_available_conn rest

/-- The function `random_srv_conn`, with `get_num_servers ()` the length of the table
and `r` the value of `rand_num ()`. -/
def random_srv_conn (r : Nat) (svr_connections : List svr_conn_t) : Except Fault Int :=
  if svr_connections.length = 0 then Except.error Fault.div_by_zero
  else
    match svr_connections.get? (r % svr_connections.length) with
    | some e =>
      if e.state == svr_conn_state.SVR_CONN_STATE_CONNECTED then Except.ok e.sd
      else Except.ok (get_available_conn svr_connections)
    | none => Except.ok (get_available_conn svr_connections)

/-- Search of the table for the socket `c`, counting from `i`. -/
def svr_index_from (c : Int) : List svr_conn_t → Nat → Int
  | [], _ => -1
  | e :: rest, i => if e.sd == c then (i : Int) else svr_index_from c rest (i + 1)

/-- Modelled from the spec: `get_svr_index_sock (c, svr_conns)` is not under `src/`; the
design document says the index of an endpoint is its position in the table, and that
`server_index` is the index of the endpoint the reply came from, so this is the position
of the first slot whose socket is `c` (and -1 when there is none). -/
def get_svr_index_sock (c : Int) (svr_conns : List svr_conn_t) : Int :=
  svr_index_from c svr_conns 0

/-- The attribute built by `new_attrl`, `strdup (ATTR_server_index)` and
`sprintf (pat->value, "%d", ...)`. -/
def server_index_attr (c : Int) (svr_conns : List svr_conn_t) : attrl :=
  { name := ATTR_server_index, resource := "",
    value := String.mk (sprintf_ld (get_svr_index_sock c svr_conns)) }

/-- The body of the `while (stp != NULL)` loop of `PBSD_status_get` for one record. -/
def status_entry (c : Int) (type : batch_request_type) (svr_conns : List svr_conn_t)
    (stp : brp_cmdstat) : batch_status :=
  let tagged : Bool :=
    type == batch_request_type.PBS_BATCH_StatusJob
      || type == batch_request_type.PBS_BATCH_SelStat
      || type == batch_request_type.PBS_BATCH_StatusNode
  { name := stp.brp_objname,
    attribs := if tagged then server_index_attr c svr_conns :: stp.brp_attrl else stp.brp_attrl,
    text := "" }

/-- The function `PBSD_status_get (c, type, svr_conns)`; the empty list is `NULL`.
Allocation is taken to succeed, and the error slot `pbs_errno` is not part of the
result. -/
def PBSD_status_get (W : Wire) (c : Int) (type : batch_request_type)
    (svr_conns : List svr_conn_t) : List batch_status :=
  match W.rdrpy c with
  | none => []
  | some reply =>
    if reply.brp_choice != reply_choice.BATCH_REPLY_CHOICE_NULL
        && reply.brp_choice != reply_choice.BATCH_REPLY_CHOICE_Text
        && reply.brp_choice != reply_choice.BATCH_REPLY_CHOICE_Status then []
    else if W.conn_errno c == 0 then
      reply.brp_statc.map (status_entry c type svr_conns)
    else []

/-- The function `PBSD_status`: send the request, then read the reply. -/
def PBSD_status (W : Wire) (c : Int) (function : batch_request_type)
    (svr_conns : List svr_conn_t) : List batch_status :=
  if W.status_put c != 0 then [] else PBSD_status_get W c function svr_conns

/-! ## Aggregation over the endpoints (`PBSD_status_aggregate`, lines 411-470) -/

/-- The `switch (parent_object)` applied when both `ret` and `next` are non-`NULL`. -/
def merge_reply (P : Platform) (parent_object : mgr_obj) (ret next : List batch_status) :
    Except Fault (List batch_status) :=
  match parent_object with
  | mgr_obj.MGR_OBJ_SERVER => aggregate_svr P ret next
  | mgr_obj.MGR_OBJ_QUEUE => aggregate_queue P ret next
  | mgr_obj.other _ => Except.ok (ret ++ next)

/-- The `for` loop of `PBSD_status_aggregate` over the slots still to visit, with the
table `svr_connections` and the accumulated `ret` (`[]` is `NULL`). A failed lock or
unlock returns `NULL` at once. -/
def aggregate_loop (W : Wire) (P : Platform) (cmd : batch_request_type)
    (parent_object : mgr_obj) (svr_connections : List svr_conn_t) :
    List svr_conn_t → List batch_status → Except Fault (List batch_status)
  | [], ret => Except.ok ret
  | e :: rest, ret =>
    if e.state != svr_conn_state.SVR_CONN_STATE_CONNECTED then
      aggregate_loop W P cmd parent_object svr_connections rest ret
    else if W.lock_connection e.sd != 0 then Except.ok []
    else
      let next := PBSD_status W e.sd cmd svr_connections
      let merged : Except Fault (List batch_status) :=
        if next.isEmpty then Except.ok ret
        else if ret.isEmpty then Except.ok next
        else merge_reply P parent_object ret next
      match merged with
      | Except.error f => Except.error f
      | Except.ok ret1 =>
        if W.unlock_connection e.sd != 0 then Except.ok []
        else aggregate_loop W P cmd parent_object svr_connections rest ret1

/-- The function `PBSD_status_aggregate`; `svr_connections` is the result of
`get_conn_servers ()` (`none` is `NULL`), and the result `[]` is `NULL`. -/
def PBSD_status_aggregate (W : Wire) (P : Platform) (svr_connections : Option (List svr_conn_t))
    (cmd : batch_request_type) (parent_object : mgr_obj) : Except Fault (List batch_status) :=
  match svr_connections with
  | none => Except.ok []
  | some table =>
    if W.init_thread_context != 0 then Except.ok []
    else
      match random_srv_conn W.rand_num table with
      | Except.error f => Except.error f
      | Except.ok c =>
        if W.verify_attributes c != 0 then Except.ok []
        else aggregate_loop W P cmd parent_object table table []

/-! ## The connection registry (`net_server.c`) -/

/-- The connection kinds (`enum conn_type`) that the code names. -/
inductive conn_type where
  | Primary
  | Secondary
  | FromClientDIS
  | ChildPipe
  | TppComm
  deriving DecidableEq, Repr

/-- A connection record `conn_t`. The bits `PBS_NET_CONN_AUTHENTICATED`,
`PBS_NET_CONN_FROM_PRIVIL` and `PBS_NET_CONN_NOTIMEOUT` of `cn_authen` are the three
booleans; function pointers are kept by identity, `none` being `NULL`. -/
structure conn_t where
  cn_sock : Int
  cn_active : conn_type
  cn_addr : Nat
  cn_port : Nat
  cn_lasttime : Int
  cn_ready_func : Option Nat
  cn_func : Nat
  cn_oncl : Option Nat
  authenticated : Bool
  from_privil : Bool
  notimeout : Bool
  cn_prio_flag : Bool
  deriving DecidableEq, Repr

/-- What the registry does to the outside world, in order: hook invocations, calls on
the socket, and enrolment in the two event sets (`prio` tells which). The hooks are
external code, taken not to call back into the registry, but for the data hook of a
listener, `accept_conn`, which `net_server.c` defines: `call_cn_func` runs it. -/
inductive net_event where
  | ready_func (sock : Int)
  | func (sock : Int)
  | oncl (sock : Int)
  | dis_destroy_chan (sock : Int)
  | CS_close_socket (sock : Int)
  | closesocket (sock : Int)
  | destroy_connection (sock : Int)
  | em_add_fd (prio : Bool) (sock : Int)
  | em_del_fd (prio : Bool) (sock : Int)
  | em_destroy (prio : Bool)
  deriving DecidableEq, Repr

/-- The file-level state of `net_server.c`. Records live in `heap` under the address
`calloc` gave them; `svr_conn` is the array of record pointers with its size, and
`svr_allconns` the linked list of records, head first. -/
structure net_state where
  svr_conn : Int → Option Nat
  conns_array_size : Int
  heap : Nat → Option conn_t
  next_addr : Nat
  svr_allconns : List Nat
  num_connections : Int
  net_is_initialized : Bool
  last_checked : Int
  trace : List net_event

/-- The state at program start. -/
def net_start : net_state :=
  { svr_conn := fun _ => none, conns_array_size := 0, heap := fun _ => none, next_addr := 0,
    svr_allconns := [], num_connections := 0, net_is_initialized := false, last_checked := 0,
    trace := [] }

def CONNS_ARRAY_INCREMENT : Int := 100

/-- The privileged-port threshold of `netinet/in.h`. -/
def IPPORT_RESERVED : Nat := 1024

/-- The function `conn_find_actual_index`; `none` is the result -1. -/
def conn_find_actual_index (st : net_state) (sd : Int) : Option Int :=
  if 0 ≤ sd ∧ sd < st.conns_array_size then
    match st.svr_conn sd with
    | some _ => some sd
    | none => none
  else none

/-- The function `get_conn`: the record pointer registered for `sd`. -/
def get_conn (st : net_state) (sd : Int) : Option Nat :=
  match conn_find_actual_index st sd with
  | none => none
  | some idx => st.svr_conn idx

/-- The successor `GET_NEXT (cp->cn_link)` of the record `p` in the list. -/
def list_next : List Nat → Nat → Option Nat
  | [], _ => none
  | q :: r, p => if q = p then r.head? else list_next r p

/-- The functions `close_conn (sd)` and `cleanup_conn (idx)`. -/
def close_conn (st : net_state) (sd : Int) : Except Fault net_state :=
  if sd < 0 then Except.ok st
  else
    match conn_find_actual_index st sd with
    | none => Except.ok st
    | some idx =>
      match st.svr_conn idx with
      | none => Except.error Fault.null_deref
      | some p =>
        match st.heap p with
        | none => Except.error Fault.use_after_free
        | some c =>
          let ev_sec : List net_event :=
            if c.cn_active != conn_type.ChildPipe then
              [net_event.dis_destroy_chan sd, net_event.CS_close_socket sd]
            else []
          let ev_oncl : List net_event :=
            if c.cn_oncl.isSome then [net_event.oncl sd] else []
          let ev_clean : List net_event :=
            net_event.em_del_fd false c.cn_sock ::
              (if c.cn_prio_flag then [net_event.em_del_fd true c.cn_sock] else [])
          Except.ok
            { st with
              trace := st.trace ++ ev_sec ++ ev_oncl ++ ev_clean ++ [net_event.closesocket sd]
              svr_allconns := st.svr_allconns.erase p
              heap := Function.update st.heap p none
              svr_conn := Function.update st.svr_conn idx none
              num_connections := st.num_connections - 1 }

/-- The function `add_conn_priority`, with the clock value `now` and the outcomes
`em_ok`, `prio_ok` of the two `tpp_em_add_fd` calls; allocation is taken to succeed.
The result is the returned record pointer (`none` is `NULL`) and the new state. -/
def add_conn_priority (st : net_state) (sd : Int) (type : conn_type) (addr port : Nat)
    (ready_func : Option Nat) (func : Nat) (priority_flag : Bool) (now : Int)
    (em_ok prio_ok : Bool) : Except Fault (Option Nat × net_state) :=
  if sd < 0 then Except.ok (none, st)
  else
    let p := st.next_addr
    let conn : conn_t :=
      { cn_sock := sd, cn_active := type, cn_addr := addr, cn_port := port % 65536,
        cn_lasttime := now, cn_ready_func := ready_func, cn_func := func, cn_oncl := none,
        authenticated := false, from_privil := decide (port < IPPORT_RESERVED),
        notimeout := false, cn_prio_flag := false }
    let st1 : net_state :=
      { st with
        conns_array_size :=
          if sd ≥ st.conns_array_size then sd + CONNS_ARRAY_INCREMENT else st.conns_array_size
        heap := Function.update st.heap p (some conn)
        next_addr := p + 1
        svr_conn := Function.update st.svr_conn sd (some p)
        svr_allconns := st.svr_allconns ++ [p]
        num_connections := st.num_connections + 1
        trace := st.trace ++ [net_event.em_add_fd false sd] }
    if !em_ok then
      match close_conn st1 sd with
      | Except.ok st2 => Except.ok (none, st2)
      | Except.error f => Except.error f
    else if priority_flag then
      let st2 : net_state :=
        { st1 with
          heap := Function.update st1.heap p (some { conn with cn_prio_flag := true })
          trace := st1.trace ++ [net_event.em_add_fd true sd] }
      if !prio_ok then
        match close_conn st2 sd with
        | Except.ok st3 => Except.ok (none, st3)
        | Except.error f => Except.error f
      else Except.ok (some p, st2)
    else Except.ok (some p, st1)

/-- The function `add_conn`: `add_conn_priority` with `priority_flag` 0. -/
def add_conn (st : net_state) (sd : Int) (type : conn_type) (addr port : Nat)
    (ready_func : Option Nat) (func : Nat) (now : Int) (em_ok : Bool) :
    Except Fault (Option Nat × net_state) :=
  add_conn_priority st sd type addr port ready_func func false now em_ok true

/-- The `while (cp)` loop of `net_close`, with the loop variable `cp`; `fuel` bounds the
number of turns by the length of the list at entry. -/
def net_close_walk : Nat → Option Nat → Int → net_state → Except Fault net_state
  | 0, _, _, st => Except.ok st
  | _ + 1, none, _, st => Except.ok st
  | fuel + 1, some p, but, st =>
    match st.heap p with
    | none => Except.error Fault.use_after_free
    | some c =>
      let sock := c.cn_sock
      let next := list_next st.svr_allconns p
      if sock != but then
        if sock < 0 ∨ sock ≥ st.conns_array_size then Except.error Fault.out_of_bounds
        else
          match st.svr_conn sock with
          | none => Except.error Fault.null_deref
          | some q =>
            match st.heap q with
            | none => Except.error Fault.use_after_free
            | some cq =>
              let st1 : net_state :=
                { st with heap := Function.update st.heap q (some { cq with cn_oncl := none }) }
              match close_conn st1 sock with
              | Except.error f => Except.error f
              | Except.ok st2 =>
                net_close_walk fuel next but
                  { st2 with trace := st2.trace ++ [net_event.destroy_connection sock] }
      else net_close_walk fuel next but st

/-- The function `net_close (but)`. -/
def net_close (st : net_state) (but : Int) : Except Fault net_state :=
  if !st.net_is_initialized then Except.ok st
  else
    match net_close_walk st.svr_allconns.length st.svr_allconns.head? but st with
    | Except.error f => Except.error f
    | Except.ok st1 =>
      if but == -1 then
        Except.ok
          { st1 with
            trace := st1.trace ++ [net_event.em_destroy false, net_event.em_destroy true]
            net_is_initialized := false }
      else Except.ok st1

/-- The `while (next_cp)` loop of `connection_idlecheck`, with the loop variable
`next_cp`, the clock value `now` and the limit `PBS_NET_MAXCONNECTIDLE`. -/
def idle_walk (max_idle now : Int) : Nat → Option Nat → net_state → Except Fault net_state
  | 0, _, st => Except.ok st
  | _ + 1, none, st => Except.ok st
  | fuel + 1, some p, st =>
    match st.heap p with
    | none => Except.error Fault.use_after_free
    | some cp =>
      let next := list_next st.svr_allconns p
      if cp.cn_active != conn_type.FromClientDIS then idle_walk max_idle now fuel next st
      else if now - cp.cn_lasttime ≤ max_idle then idle_walk max_idle now fuel next st
      else if cp.notimeout then idle_walk max_idle now fuel next st
      else
        match close_conn st cp.cn_sock with
        | Except.error f => Except.error f
        | Except.ok st1 => idle_walk max_idle now fuel next st1

/-- The function `connection_idlecheck`, run when the clock shows `now`; `max_idle` is
the constant `PBS_NET_MAXCONNECTIDLE` of `net_connect.h`. -/
def connection_idlecheck (max_idle : Int) (st : net_state) (now : Int) :
    Except Fault net_state :=
  if now - st.last_checked < 60 then Except.ok st
  else
    match idle_walk max_idle now st.svr_allconns.length st.svr_allconns.head? st with
    | Except.error f => Except.error f
    | Except.ok st1 => Except.ok { st1 with last_checked := now }

/-- The results of `CS_server_auth` that the code tells apart; `other` is any failure. -/
inductive cs_result where
  | CS_SUCCESS
  | CS_AUTH_CHECK_PORT
  | other (code : Nat)
  deriving DecidableEq, Repr

/-- What one dispatch takes from outside: the clock, the answer of the security library
for a socket, and the value the ready hook returns for the record of a socket. -/
structure NetEnv where
  now : Int
  CS_server_auth : Int → cs_result
  ready_ret : Int → Int

/-- The function `engage_authentication` of `net_server.c`: the return code and the
record with its updated flags. -/
def engage_authentication (E : NetEnv) (pconn : conn_t) : Int × conn_t :=
  if pconn.cn_sock < 0 then (-1, pconn)
  else
    match E.CS_server_auth pconn.cn_sock with
    | cs_result.CS_SUCCESS => (0, { pconn with authenticated := true })
    | cs_result.CS_AUTH_CHECK_PORT =>
      (0, if pconn.from_privil then { pconn with authenticated := true } else pconn)
    | cs_result.other _ => (-1, pconn)

/-- The tail of `process_socket` from the test of `cn_ready_func` on, for the record `c`
registered for `sock`, where the data hook is external code: its call is recorded and
leaves the registry as it is. `dispatch_hooks_full` covers the listener, whose data hook
`accept_conn` registers the accepted connection. -/
def dispatch_hooks (E : NetEnv) (st : net_state) (sock : Int) (c : conn_t) :
    Except Fault (Int × net_state) :=
  match c.cn_ready_func with
  | some _ =>
    let st1 : net_state := { st with trace := st.trace ++ [net_event.ready_func c.cn_sock] }
    let ret := E.ready_ret c.cn_sock
    if ret == -1 then
      match close_conn st1 sock with
      | Except.ok st2 => Except.ok (-1, st2)
      | Except.error f => Except.error f
    else if ret == 0 then Except.ok (0, st1)
    else Except.ok (0, { st1 with trace := st1.trace ++ [net_event.func c.cn_sock] })
  | none => Except.ok (0, { st with trace := st.trace ++ [net_event.func c.cn_sock] })

/-- The function `process_socket (sock)` for a socket whose data hook is external code:
the return code and the new state. `process_socket_full` is the function for every
socket, and the two agree wherever the data hook is not `accept_conn`. -/
def process_socket (E : NetEnv) (st : net_state) (sock : Int) :
    Except Fault (Int × net_state) :=
  match conn_find_actual_index st sock with
  | none => Except.ok (-1, st)
  | some idx =>
    match st.svr_conn idx with
    | none => Except.error Fault.null_deref
    | some p =>
      match st.heap p with
      | none => Except.error Fault.use_after_free
      | some c0 =>
        let c1 : conn_t := { c0 with cn_lasttime := E.now }
        if c1.cn_active != conn_type.Primary && c1.cn_active != conn_type.TppComm
            && c1.cn_active != conn_type.Secondary && !c1.authenticated then
          let r := engage_authentication E c1
          let st1 : net_state := { st with heap := Function.update st.heap p (some r.2) }
          if r.1 == -1 then
            match close_conn st1 sock with
            | Except.ok st2 => Except.ok (-1, st2)
            | Except.error f => Except.error f
          else dispatch_hooks E st1 sock r.2
        else dispatch_hooks E { st with heap := Function.update st.heap p (some c1) } sock c1

/-! ## The scheduler's command channel (`pbs_sched.c`, lines 312-336, 573-751) -/

/-- A slot `struct connect_handle` of the table `connection [NCONNECTS]`. -/
structure connect_handle where
  ch_inuse : Int
  ch_errno : Int
  ch_socket : Int
  ch_errtxt : Option String
  deriving DecidableEq, Repr

/-- What `server_command` does to the outside world, in order. -/
inductive sched_event where
  | badconn (msg : String)
  | close (sd : Int)
  | CS_close_socket (sd : Int)
  | get_sched_cmd (sd : Int)
  deriving DecidableEq, Repr

/-- The globals of `pbs_sched.c` that `server_command` touches, and the record of its
calls. -/
structure sched_state where
  connection : List connect_handle
  connector : Int
  second_connection : Int
  okclients : List Nat
  trace : List sched_event
  deriving DecidableEq, Repr

/-- What one call of `server_command` takes from outside: the results of `accept`,
`set_nodelay`, the table lock, the security library, `get_sched_cmd` (return value and
command) and `select`, and the peer address `saddr` left by each `accept`. -/
structure CmdEnv where
  accept1 : Int
  port1 : Nat
  addr1 : Nat
  set_nodelay : Int → Int
  lock_conntable : Int
  unlock_conntable : Int
  CS_server_auth : Int → cs_result
  get_sched_cmd : Int → Int × Int
  select_ready : Bool
  accept2 : Int
  port2 : Nat
  addr2 : Nat

/-- The error command of `sched_cmds.h`. -/
def SCH_ERROR : Int := -1

/-- The `for` loop of `socket_to_conn` from slot `i` on: the returned index and the
table. -/
def socket_to_conn_from (E : CmdEnv) (sock : Int) :
    List connect_handle → Nat → Int × List connect_handle
  | [], _ => (-1, [])
  | h :: rest, i =>
    if h.ch_inuse == 0 then
      if E.lock_conntable != 0 then (-1, h :: rest)
      else
        let h1 : connect_handle :=
          { ch_inuse := 1, ch_errno := 0, ch_socket := sock, ch_errtxt := none }
        if E.unlock_conntable != 0 then (-1, h1 :: rest) else ((i : Int), h1 :: rest)
    else
      let r := socket_to_conn_from E sock rest (i + 1)
      (r.1, h :: r.2)

/-- The function `socket_to_conn (sock)`. -/
def socket_to_conn (E : CmdEnv) (connection : List connect_handle) (sock : Int) :
    Int × List connect_handle :=
  socket_to_conn_from E sock connection 0

/-- The function `engage_authentication` of `pbs_sched.c` on a table slot. -/
def sched_engage_authentication (E : CmdEnv) (phandle : Option connect_handle) : Int :=
  match phandle with
  | none => -1
  | some h =>
    if h.ch_socket < 0 then -1
    else
      match E.CS_server_auth h.ch_socket with
      | cs_result.CS_SUCCESS => 0
      | cs_result.CS_AUTH_CHECK_PORT => 0
      | cs_result.other _ => -1

/-- Append events to the record of calls. -/
def sched_state.log (st : sched_state) (evs : List sched_event) : sched_state :=
  { st with trace := st.trace ++ evs }

/-- The part of `server_command` after the first command has been read: the attempt to
obtain the second connection. The command `cmd` is returned on every path. -/
def second_channel (E : CmdEnv) (st : sched_state) : sched_state :=
  if !E.select_ready then st
  else
    let st1 : sched_state := { st with second_connection := E.accept2 }
    if E.accept2 == -1 then st1
    else if E.set_nodelay E.accept2 == -1 then st1
    else if E.port2 ≥ IPPORT_RESERVED then
      { (st1.log [sched_event.badconn "second_connection: non-reserved port",
          sched_event.close E.accept2]) with second_connection := -1 }
    else if !st1.okclients.contains E.addr2 then
      { (st1.log [sched_event.badconn "second_connection: unauthorized host",
          sched_event.close E.accept2]) with second_connection := -1 }
    else
      let st2 := st1.log [sched_event.get_sched_cmd E.accept2]
      if (E.get_sched_cmd E.accept2).1 != 1 then
        { (st2.log [sched_event.close E.accept2]) with second_connection := -1 }
      else st2

/-- The function `server_command`: the returned command and the new state. -/
def server_command (E : CmdEnv) (st : sched_state) : Int × sched_state :=
  let new_socket := E.accept1
  if new_socket == -1 then (SCH_ERROR, st)
  else if E.set_nodelay new_socket == -1 then (SCH_ERROR, st)
  else if E.port1 ≥ IPPORT_RESERVED then
    (SCH_ERROR, st.log [sched_event.badconn "non-reserved port", sched_event.close new_socket])
  else if !st.okclients.contains E.addr1 then
    (SCH_ERROR, st.log [sched_event.badconn "unauthorized host", sched_event.close new_socket])
  else
    let r := socket_to_conn E st.connection new_socket
    let st1 : sched_state := { st with connection := r.2, connector := r.1 }
    if r.1 < 0 then (SCH_ERROR, st1.log [sched_event.close new_socket])
    else if sched_engage_authentication E (st1.connection.get? r.1.toNat) == -1 then
      (SCH_ERROR, st1.log [sched_event.CS_close_socket new_socket, sched_event.close new_socket])
    else
      let st2 := st1.log [sched_event.get_sched_cmd new_socket]
      let g := E.get_sched_cmd new_socket
      if g.1 != 1 then
        (SCH_ERROR, st2.log [sched_event.CS_close_socket new_socket, sched_event.close new_socket])
      else (g.2, second_channel E st2)

/-! ## Concrete collaborators for worked examples -/

/-- A platform for worked examples in which no floating-point or size value occurs: every
external text is empty. -/
def example_platform : Platform :=
  { strtod_nonzero := fun _ => false, strtod_rest := fun _ => [],
    sum_double := fun _ _ => [], sum_size := fun _ _ => [], uninit_buf := [] }

/-- A wire for worked examples: every library call succeeds, except that the connection
lock fails on the sockets listed in `lock_fails`; the reply read on a socket is given by
`replies`. -/
def example_wire (replies : Int → Option batch_reply) (lock_fails : List Int) : Wire :=
  { init_thread_context := 0, verify_attributes := fun _ => 0, rand_num := 0,
    lock_connection := fun c => if lock_fails.contains c then -1 else 0,
    unlock_connection := fun _ => 0, status_put := fun _ => 0, rdrpy := replies,
    conn_errno := fun _ => 0 }

/-- Replies for worked examples: socket 10 returns the job `1.svr`, socket 12 the jobs
`7.svr` and `8.svr`, socket 14 a status reply without records, every other socket
nothing. -/
def example_replies (c : Int) : Option batch_reply :=
  if c = 10 then
    some ⟨reply_choice.BATCH_REPLY_CHOICE_Status, [⟨"1.svr", [⟨"job_state", "", "R"⟩]⟩]⟩
  else if c = 12 then
    some ⟨reply_choice.BATCH_REPLY_CHOICE_Status,
      [⟨"7.svr", [⟨"job_state", "", "Q"⟩]⟩, ⟨"8.svr", []⟩]⟩
  else if c = 14 then some ⟨reply_choice.BATCH_REPLY_CHOICE_Status, []⟩
  else none

/-- The endpoint table of scenario S3: endpoints 0, 1, 2 on the sockets 10, 11, 12, with
endpoint 1 disconnected. -/
def example_table : List svr_conn_t :=
  [⟨10, svr_conn_state.SVR_CONN_STATE_CONNECTED⟩, ⟨11, svr_conn_state.SVR_CONN_STATE_DOWN⟩,
   ⟨12, svr_conn_state.SVR_CONN_STATE_CONNECTED⟩]

/-- Whether the visit of slot `e` adds to the aggregate: the endpoint is connected and its
request returns a non-empty reply list. -/
def contributes (W : Wire) (cmd : batch_request_type) (svr_connections : List svr_conn_t)
    (e : svr_conn_t) : Bool :=
  e.state == svr_conn_state.SVR_CONN_STATE_CONNECTED
    && !(PBSD_status W e.sd cmd svr_connections).isEmpty

/-- A command environment for worked examples: the first accepted socket is 7, from the
given peer port and address; every library call succeeds, the command read is 1, and no
second connection is pending. -/
def example_cmd_env (port addr : Nat) : CmdEnv :=
  { accept1 := 7, port1 := port, addr1 := addr, set_nodelay := fun _ => 0,
    lock_conntable := 0, unlock_conntable := 0,
    CS_server_auth := fun _ => cs_result.CS_SUCCESS, get_sched_cmd := fun _ => (1, 1),
    select_ready := false, accept2 := -1, port2 := 0, addr2 := 0 }

/-- A scheduler state for worked examples: two free table slots and the allow-list
[2130706433] (127.0.0.1). -/
def example_sched_state : sched_state :=
  { connection := [⟨0, 0, -1, none⟩, ⟨0, 0, -1, none⟩], connector := 0,
    second_connection := -1, okclients := [2130706433], trace := [] }

/-! ## Sequences of registry calls -/

/-- One call on the registry: `add_conn_priority` (`add_conn` is the case
`priority_flag = false`) with the clock value and the outcomes of the event-set
enrolment, `close_conn`, `net_close`, or `connection_idlecheck` with the clock value. -/
inductive net_op where
  | add (sd : Int) (type : conn_type) (addr port : Nat) (ready_func : Option Nat) (func : Nat)
      (priority_flag : Bool) (now : Int) (em_ok prio_ok : Bool)
  | close (sd : Int)
  | net_close (but : Int)
  | idlecheck (now : Int)
  deriving DecidableEq, Repr

/-- The state after one call. -/
def net_step (max_idle : Int) (st : net_state) : net_op → Except Fault net_state
  | net_op.add sd type addr port ready_func func priority_flag now em_ok prio_ok =>
    match add_conn_priority st sd type addr port ready_func func priority_flag now em_ok
        prio_ok with
    | Except.ok r => Except.ok r.2
    | Except.error f => Except.error f
  | net_op.close sd => close_conn st sd
  | net_op.net_close but => net_close st but
  | net_op.idlecheck now => connection_idlecheck max_idle st now

/-- The state after a sequence of calls, first call first. -/
def net_run (max_idle : Int) : List net_op → net_state → Except Fault net_state
  | [], st => Except.ok st
  | op :: rest, st =>
    match net_step max_idle st op with
    | Except.ok st1 => net_run max_idle rest st1
    | Except.error f => Except.error f

/-- Whether every `add` of the sequence is made for a socket that has no registered
record at that point (as the operating system guarantees for a descriptor it has just
handed out, provided every descriptor is closed through `close_conn`). -/
def fresh_adds (max_idle : Int) : List net_op → net_state → Bool
  | [], _ => true
  | op :: rest, st =>
    (match op with
      | net_op.add sd _ _ _ _ _ _ _ _ _ => (st.svr_conn sd).isNone
      | _ => true)
    && (match net_step max_idle st op with
        | Except.ok st1 => fresh_adds max_idle rest st1
        | Except.error _ => true)

/-- The consistency of array, list and heap: every array slot points to a linked record
of that socket, the list has no record twice, every linked record is the one registered
for its socket, and `next_addr` is above every allocated address. -/
def registry_ok (st : net_state) : Prop :=
  (∀ sd p, st.svr_conn sd = some p →
    0 ≤ sd ∧ sd < st.conns_array_size ∧ p ∈ st.svr_allconns
      ∧ ∃ c, st.heap p = some c ∧ c.cn_sock = sd)
  ∧ st.svr_allconns.Nodup
  ∧ (∀ p ∈ st.svr_allconns, ∃ c, st.heap p = some c ∧ st.svr_conn c.cn_sock = some p)
  ∧ (∀ p c, st.heap p = some c → p < st.next_addr)

/-- What the examples observe of a registry state: the list, the record pointer
registered for a socket, the sockets of the records at the addresses 0 and 1, and the
record of calls. -/
structure registry_view where
  allconns : List Nat
  registered : Option Nat
  sock0 : Option Int
  sock1 : Option Int
  trace : List net_event
  deriving DecidableEq, Repr

/-- The view of the state `st` for the socket `sd`. -/
def observe (sd : Int) (st : net_state) : registry_view :=
  { allconns := st.svr_allconns, registered := get_conn st sd,
    sock0 := (st.heap 0).map (fun c => c.cn_sock),
    sock1 := (st.heap 1).map (fun c => c.cn_sock), trace := st.trace }

/-- The state of a completed run, or the start state when the run faulted. -/
def state_of (r : Except Fault net_state) : net_state :=
  match r with
  | Except.ok st => st
  | Except.error _ => net_start

/-- The record of a client connection on socket 5 that `add_conn` creates at time 100 for
a peer on the unprivileged port 2000, with a data hook and no ready hook. -/
def example_client : conn_t :=
  { cn_sock := 5, cn_active := conn_type.FromClientDIS, cn_addr := 0, cn_port := 2000,
    cn_lasttime := 100, cn_ready_func := none, cn_func := 1, cn_oncl := none,
    authenticated := false, from_privil := false, notimeout := false, cn_prio_flag := false }

/-- The registry after that one `add_conn` from the start state. -/
def example_registry : net_state :=
  state_of (net_run 900
    [net_op.add 5 conn_type.FromClientDIS 0 2000 none 1 false 100 true true] net_start)

/-- Whether the entry `e` of the second list is one that `aggr_resc_ct` appends to the
first list `a`: a `resources_assigned` entry with a resource name and a value, whose
value is not typed `STRING`, and whose resource no `resources_assigned` entry of `a`
has. -/
def appended_from (P : Platform) (a : List attrl) (e : attrl) : Bool :=
  e.name == ATTR_rescassn && !e.resource.isEmpty && !e.value.isEmpty
    && (assess_type P e.value.toList).1 != vtype.STRING
    && !(a.any (fun x => x.name == ATTR_rescassn && x.resource == e.resource))

/-- The name and resource of an attribute: what a merge never changes. -/
def attr_key (x : attrl) : String × String := (x.name, x.resource)

/-! ## Status from one server (`PBSD_status_random`, lines 488-518) -/

/-- The function `PBSD_status_random`; `svr_connections` is the result of
`get_conn_servers ()` (`none` is `NULL`), and the result `[]` is `NULL`. -/
def PBSD_status_random (W : Wire) (svr_connections : Option (List svr_conn_t))
    (cmd : batch_request_type) : Except Fault (List batch_status) :=
  match svr_connections with
  | none => Except.ok []
  | some table =>
    match random_srv_conn W.rand_num table with
    | Except.error f => Except.error f
    | Except.ok c =>
      if c < 0 then Except.ok []
      else if W.init_thread_context != 0 then Except.ok []
      else if W.verify_attributes c != 0 then Except.ok []
      else if W.lock_connection c != 0 then Except.ok []
      else
        let ret := PBSD_status W c cmd table
        if W.unlock_connection c != 0 then Except.ok [] else Except.ok ret

/-- The call `close_conn (sd)` made `k` times in a row. -/
def close_conn_times : Nat → net_state → Int → Except Fault net_state
  | 0, st, _ => Except.ok st
  | k + 1, st, sd =>
    match close_conn st sd with
    | Except.ok st1 => close_conn_times k st1 sd
    | Except.error f => Except.error f

/-- The registry `example_registry` after the owner of socket 5 has installed an on-close
hook (`cn_oncl`) in its record. -/
def example_registry_oncl : net_state :=
  { example_registry with
    heap := Function.update example_registry.heap 0 (some { example_client with cn_oncl := some 9 }) }

/-! ## The idle sweep (`connection_idlecheck`, lines 390-423) -/

/-- The three tests of the loop body of `connection_idlecheck` on the record `cp`: the
record is closed when none of the three `continue` statements is taken. -/
def timed_out (max_idle now : Int) (cp : conn_t) : Bool :=
  cp.cn_active == conn_type.FromClientDIS && decide (max_idle < now - cp.cn_lasttime)
    && !cp.notimeout

/-- Whether the record at the address `p` of the state `st` is one the sweep closes. -/
def sweeps (max_idle now : Int) (st : net_state) (p : Nat) : Bool :=
  match st.heap p with
  | some cp => timed_out max_idle now cp
  | none => false

/-- A registry with a listener on socket 3 (record 0) and three clients: socket 5 last
active at time 100 (record 1), socket 6 last active at time 1500 (record 2), and socket 7
last active at time 100 (record 3). -/
def example_sweep_registry : net_state :=
  state_of (net_run 900
    [net_op.add 3 conn_type.Primary 0 0 none 1 false 100 true true,
     net_op.add 5 conn_type.FromClientDIS 0 2000 none 1 false 100 true true,
     net_op.add 6 conn_type.FromClientDIS 0 2001 none 1 false 1500 true true,
     net_op.add 7 conn_type.FromClientDIS 0 2002 none 1 false 100 true true] net_start)

/-! ## Release of a table slot (`server_disconnect`, `pbs_sched.c`, lines 266-301) -/

/-- The function `server_disconnect (connect)`: the return value and the new state.
`NCONNECTS` is the length of the table `connection`; `lock_connection` is the result of
`pbs_client_thread_lock_connection`. Reading `connection [connect]` past the last slot
is the fault `out_of_bounds`. -/
def server_disconnect (lock_connection : Int → Int) (st : sched_state) (connect : Int) :
    Except Fault (Int × sched_state) :=
  if connect < 0 ∨ connect > st.connection.length then Except.ok (0, st)
  else if lock_connection connect != 0 then Except.ok (0, st)
  else
    match st.connection.get? connect.toNat with
    | none => Except.error Fault.out_of_bounds
    | some h =>
      let evs : List sched_event :=
        if h.ch_socket ≥ 0 then
          [sched_event.CS_close_socket h.ch_socket, sched_event.close h.ch_socket]
        else []
      Except.ok (1,
        { st with
          connection :=
            st.connection.set connect.toNat { h with ch_errtxt := none, ch_errno := 0, ch_inuse := 0 }
          trace := st.trace ++ evs })

/-! ## Restart after a crash (`on_segv`, lines 164-195; `main`, lines 976, 1496-1511) -/

/-- What `on_segv` does, in order. -/
inductive segv_action where
  | pthread_exit
  | abort
  | fork
  | sleep (seconds : Nat)
  | execv
  | exit (code : Int)
  deriving DecidableEq, Repr

/-- The function `on_segv`, from the globals `segv_start_time` and `segv_last_time`, the
result of `pthread_mutex_lock`, the value `fork ()` returns in the process observed, and
whether `execv` fails (it returns only then). The handler does not read the clock. -/
def on_segv (segv_start_time segv_last_time : Int) (ret_lock fork_ret : Int)
    (execv_fails : Bool) : List segv_action :=
  if ret_lock != 0 then [segv_action.pthread_exit]
  else if segv_last_time - segv_start_time < 300 then [segv_action.abort]
  else if fork_ret > 0 then
    [segv_action.fork, segv_action.sleep 10, segv_action.execv]
      ++ (if execv_fails then [segv_action.exit 3] else [])
  else [segv_action.fork, segv_action.abort]

/-- The value of `segv_last_time` in `main` with crash-restart enabled: the start time
(line 976), then the clock value taken before each `schedule` call (lines 1507-1508);
`cycles` lists those clock values, first cycle first. -/
def segv_last_time (segv_start_time : Int) (cycles : List Int) : Int :=
  cycles.foldl (fun _ now => now) segv_start_time

/-! ## Primary or secondary (`are_we_primary`, lines 813-856) -/

/-- The constant `PBS_MAXHOSTNAME` of `pbs_ifl.h`. -/
def PBS_MAXHOSTNAME : Nat := 255

/-- What `are_we_primary` reads: three entries of `pbs_conf` (`none` is `NULL`), the
result of `gethostname` and that of `get_fullhostname` on a name (`none` is -1). -/
structure HostConf where
  pbs_leaf_name : Option String
  pbs_primary : Option String
  pbs_secondary : Option String
  gethostname : Option (List Char)
  get_fullhostname : List Char → Option (List Char)

/-- The first name of `pbs_leaf_name`, as left in `server_host` by `snprintf` and the two
`strchr` cuts at `,` and `:`. -/
def leaf_host (leaf : List Char) : List Char :=
  ((leaf.take PBS_MAXHOSTNAME).takeWhile (fun c => c != ',')).takeWhile (fun c => c != ':')

/-- The content of `server_host` after the first block of `are_we_primary`; `none` when
the block returns -1. -/
def own_host (E : HostConf) : Option (List Char) :=
  match E.pbs_leaf_name with
  | some leaf => some (leaf_host leaf.toList)
  | none =>
    match E.gethostname with
    | none => none
    | some h => E.get_fullhostname h

/-- The function `are_we_primary`. -/
def are_we_primary (E : HostConf) : Int :=
  match own_host E with
  | none => -1
  | some server_host =>
    match E.pbs_secondary, E.pbs_primary with
    | none, none => 1
    | none, some _ => -1
    | some _, none => -1
    | some secondary, some primary =>
      match E.get_fullhostname primary.toList with
      | none => -1
      | some hn1 =>
        if hn1 == server_host then 1
        else
          match E.get_fullhostname secondary.toList with
          | none => -1
          | some hn2 => if hn2 == server_host then 0 else -1

/-! ## The clients file (`addclient`, `read_config`, lines 343-451) -/

def CONF_LINE_LEN : Nat := 120

/-- The characters `fgets` stores from the stream `s` when `k` more fit: up to and
including the first newline. The result is the stored text and the unread rest. -/
def fgets_take : Nat → List Char → List Char × List Char
  | 0, s => ([], s)
  | _ + 1, [] => ([], [])
  | k + 1, c :: r =>
    if c == '\n' then ([c], r)
    else
      let p := fgets_take k r
      (c :: p.1, p.2)

/-- The call `fgets (line, n, conf)`: `none` is `NULL` at the end of the file. -/
def fgets (n : Nat) (s : List Char) : Option (List Char × List Char) :=
  if s.isEmpty then none else some (fgets_take (n - 1) s)

/-- The delimiters `" \t"` given to `strtok`. -/
def is_delim (c : Char) : Bool := c == ' ' || c == '\t'

/-- One call of `strtok` on the text still to scan: the token and the text after the
delimiter that ended it; `none` is `NULL`, when only delimiters are left. -/
def strtok (s : List Char) : Option (List Char × List Char) :=
  let t := s.dropWhile is_delim
  if t.isEmpty then none
  else some (t.takeWhile (fun c => !is_delim c), (t.dropWhile (fun c => !is_delim c)).drop 1)

/-- The function `addclient (name)` with the resolver `gethostbyname` (`none` is `NULL`,
otherwise the address list): the new `okclients`, or `none` for the result -1.
Allocation is taken to succeed. -/
def addclient (gethostbyname : List Char → Option (List Nat)) (name : List Char)
    (okclients : List Nat) : Option (List Nat) :=
  match gethostbyname name with
  | none => none
  | some addrs => some (okclients ++ addrs)

/-- The body of the `while (fgets (...))` loop of `read_config` for one stored line:
`some` of the new `okclients` when the loop goes on, `none` when the function returns
-1. Applying `strlen` to the `NULL` that `strtok` returns is the fault `null_deref`. -/
def config_line (gethostbyname : List Char → Option (List Nat)) (line : List Char)
    (okclients : List Nat) : Except Fault (Option (List Nat)) :=
  if line.head? == some '#' || line.head? == some '\n' then Except.ok (some okclients)
  else if line.head? == some '$' then
    match strtok line with
    | none => Except.ok (some okclients)
    | some (token, rest) =>
      if token.drop 1 != "clienthost".toList then Except.ok (some okclients)
      else
        match strtok rest with
        | none => Except.error Fault.null_deref
        | some (name, _) =>
          let name1 := if name.getLast? == some '\n' then name.dropLast else name
          Except.ok (addclient gethostbyname name1 okclients)
  else Except.ok none

/-- The loop of `read_config` on the unread content of the file; every `fgets` takes at
least one character, so `fuel` above the length of the content is never exhausted. -/
def read_config_loop (gethostbyname : List Char → Option (List Nat)) :
    Nat → List Char → List Nat → Except Fault (Int × List Nat)
  | 0, _, okclients => Except.ok (0, okclients)
  | fuel + 1, conf, okclients =>
    match fgets CONF_LINE_LEN conf with
    | none => Except.ok (0, okclients)
    | some (line, rest) =>
      match config_line gethostbyname line okclients with
      | Except.error f => Except.error f
      | Except.ok none => Except.ok (-1, okclients)
      | Except.ok (some okclients1) => read_config_loop gethostbyname fuel rest okclients1

/-- The function `read_config` on a file with the content `conf` that passes the
security check and opens: the return value and the list `okclients`. -/
def read_config (gethostbyname : List Char → Option (List Nat)) (conf : List Char)
    (okclients : List Nat) : Except Fault (Int × List Nat) :=
  read_config_loop gethostbyname (conf.length + 1) conf okclients

/-- A resolver for worked examples: `hostA` has the address 167772161, `hostB` the
addresses 167772162 and 167772163, no other name resolves. -/
def example_resolver (name : List Char) : Option (List Nat) :=
  if name == "hostA".toList then some [167772161]
  else if name == "hostB".toList then some [167772162, 167772163]
  else none

/-! ## The command pump (`main`, lines 1452-1532) -/

/-- The calls of one turn of the loop that leave the process. -/
inductive main_call where
  | update_svr_schedobj (connector cmd : Int)
  | schedule (cmd connector : Int)
  deriving DecidableEq, Repr

/-- What one turn of the loop takes from outside, once `select` has shown `server_sock`
readable: the inputs of `server_command`, the result of the connection lock in
`server_disconnect`, and the value `schedule (cmd, connector, runjobid)` returns. -/
structure MainEnv where
  cmd : CmdEnv
  lock_connection : Int → Int
  schedule : Int → Int → Int

/-- The globals and the locals of `main` that the loop uses: the state of the command
channel, the static `update_svr`, and the loop variable `go`. -/
structure main_state where
  sched : sched_state
  update_svr : Bool
  go : Bool
  deriving DecidableEq, Repr

/-- The state in which `main` enters the loop: the table `connection` and `connector`
are objects of static storage without initialiser, so every field is zero;
`second_connection` is -1, `update_svr` is 1 and `go` is 1. The table has `n` slots. -/
def main_start (n : Nat) (okclients : List Nat) : main_state :=
  { sched :=
      { connection := List.replicate n ⟨0, 0, 0, none⟩, connector := 0,
        second_connection := -1, okclients := okclients, trace := [] },
    update_svr := true, go := true }

/-- One turn of the `for (go = 1; go;)` loop of `main` in which `server_sock` is
readable: the calls made and the new state. -/
def main_iteration (M : MainEnv) (ms : main_state) :
    List main_call × Except Fault main_state :=
  let r := server_command M.cmd ms.sched
  let cmd := r.1
  let st := r.2
  if st.connector ≥ 0 then
    let c1 : List main_call :=
      if ms.update_svr then [main_call.update_svr_schedobj st.connector cmd] else []
    let go1 : Bool := if M.schedule cmd st.connector != 0 then false else ms.go
    let st1 : sched_state :=
      if st.second_connection != -1 then
        { (st.log [sched_event.close st.second_connection]) with second_connection := -1 }
      else st
    (c1 ++ [main_call.schedule cmd st.connector],
      match server_disconnect M.lock_connection st1 st1.connector with
      | Except.error f => Except.error f
      | Except.ok d =>
        Except.ok
          { sched := if d.1 != 0 then { d.2 with connector := -1 } else d.2,
            update_svr := false, go := go1 })
  else ([], Except.ok { ms with sched := st })

/-- The library calls of the client routines, in the order made. A lock call carries its
result. -/
inductive ifl_call where
  | init_thread_context
  | verify_object_name
  | verify_attributes (c : Int)
  | lock_connection (c : Int) (rc : Int)
  | unlock_connection (c : Int)
  | set_new_shard_context (c : Int)
  | mgr_put (c : Int)
  | status_put (c : Int)
  | rdrpy (c : Int)
  deriving DecidableEq, Repr

/-- The manager commands; only `MGR_CMD_CREATE` is told apart. -/
inductive mgr_cmd where
  | MGR_CMD_CREATE
  | other (code : Nat)
  deriving DecidableEq, Repr

/-- The collaborators of `PBSD_manager`: those of the status client, the result of
`pbs_verify_object_name (objtype, objname)`, the result of `PBSD_mgr_put (c, ...)`, and
the value of the per-thread `pbs_errno` when it is returned. -/
structure MgrWire where
  wire : Wire
  verify_object_name : Int
  mgr_put : Int → Int
  pbs_errno : Int

/-- The function `PBSD_manager`: the return value and the library calls made. -/
def PBSD_manager (W : MgrWire) (c : Int) (command : mgr_cmd) : Int × List ifl_call :=
  if W.wire.init_thread_context != 0 then (W.pbs_errno, [ifl_call.init_thread_context])
  else if command == mgr_cmd.MGR_CMD_CREATE && W.verify_object_name != 0 then
    (W.pbs_errno, [ifl_call.init_thread_context, ifl_call.verify_object_name])
  else
    let t1 : List ifl_call :=
      ifl_call.init_thread_context ::
        ((if command == mgr_cmd.MGR_CMD_CREATE then [ifl_call.verify_object_name] else [])
          ++ [ifl_call.verify_attributes c])
    if W.wire.verify_attributes c != 0 then (W.pbs_errno, t1)
    else if W.wire.lock_connection c != 0 then
      (W.pbs_errno, t1 ++ [ifl_call.lock_connection c (W.wire.lock_connection c)])
    else
      let t2 : List ifl_call :=
        t1 ++ [ifl_call.lock_connection c (W.wire.lock_connection c),
          ifl_call.set_new_shard_context c, ifl_call.mgr_put c]
      if W.mgr_put c != 0 then (W.mgr_put c, t2 ++ [ifl_call.unlock_connection c])
      else if W.wire.unlock_connection c != 0 then
        (W.pbs_errno, t2 ++ [ifl_call.rdrpy c, ifl_call.unlock_connection c])
      else (W.wire.conn_errno c, t2 ++ [ifl_call.rdrpy c, ifl_call.unlock_connection c])

/-- The library calls of `PBSD_status (c, ...)`: the request is sent, and the reply is
read by `PBSD_status_get` if the send succeeded. -/
def PBSD_status_calls (W : Wire) (c : Int) : List ifl_call :=
  if W.status_put c != 0 then [ifl_call.status_put c]
  else [ifl_call.status_put c, ifl_call.rdrpy c]

/-- The function `PBSD_status_random` with the library calls it makes. -/
def PBSD_status_random_calls (W : Wire) (svr_connections : Option (List svr_conn_t))
    (cmd : batch_request_type) : List ifl_call × Except Fault (List batch_status) :=
  match svr_connections with
  | none => ([], Except.ok [])
  | some table =>
    match random_srv_conn W.rand_num table with
    | Except.error f => ([], Except.error f)
    | Except.ok c =>
      if c < 0 then ([], Except.ok [])
      else if W.init_thread_context != 0 then ([ifl_call.init_thread_context], Except.ok [])
      else if W.verify_attributes c != 0 then
        ([ifl_call.init_thread_context, ifl_call.verify_attributes c], Except.ok [])
      else if W.lock_connection c != 0 then
        ([ifl_call.init_thread_context, ifl_call.verify_attributes c,
          ifl_call.lock_connection c (W.lock_connection c)], Except.ok [])
      else
        let ret := PBSD_status W c cmd table
        ([ifl_call.init_thread_context, ifl_call.verify_attributes c,
            ifl_call.lock_connection c (W.lock_connection c)]
          ++ PBSD_status_calls W c ++ [ifl_call.unlock_connection c],
          if W.unlock_connection c != 0 then Except.ok [] else Except.ok ret)

/-- The `for` loop of `PBSD_status_aggregate` with the library calls it makes; on a fault
in a merge the calls are those made up to it. -/
def aggregate_loop_calls (W : Wire) (P : Platform) (cmd : batch_request_type)
    (parent_object : mgr_obj) (svr_connections : List svr_conn_t) :
    List svr_conn_t → List batch_status → List ifl_call × Except Fault (List batch_status)
  | [], ret => ([], Except.ok ret)
  | e :: rest, ret =>
    if e.state != svr_conn_state.SVR_CONN_STATE_CONNECTED then
      aggregate_loop_calls W P cmd parent_object svr_connections rest ret
    else if W.lock_connection e.sd != 0 then
      ([ifl_call.lock_connection e.sd (W.lock_connection e.sd)], Except.ok [])
    else
      let next := PBSD_status W e.sd cmd svr_connections
      let io : List ifl_call :=
        ifl_call.lock_connection e.sd (W.lock_connection e.sd) :: PBSD_status_calls W e.sd
      let merged : Except Fault (List batch_status) :=
        if next.isEmpty then Except.ok ret
        else if ret.isEmpty then Except.ok next
        else merge_reply P parent_object ret next
      match merged with
      | Except.error f => (io, Except.error f)
      | Except.ok ret1 =>
        if W.unlock_connection e.sd != 0 then
          (io ++ [ifl_call.unlock_connection e.sd], Except.ok [])
        else
          let r := aggregate_loop_calls W P cmd parent_object svr_connections rest ret1
          (io ++ ifl_call.unlock_connection e.sd :: r.1, r.2)

/-- The function `PBSD_status_aggregate` with the library calls it makes. -/
def PBSD_status_aggregate_calls (W : Wire) (P : Platform)
    (svr_connections : Option (List svr_conn_t)) (cmd : batch_request_type)
    (parent_object : mgr_obj) : List ifl_call × Except Fault (List batch_status) :=
  match svr_connections with
  | none => ([], Except.ok [])
  | some table =>
    if W.init_thread_context != 0 then ([ifl_call.init_thread_context], Except.ok [])
    else
      match random_srv_conn W.rand_num table with
      | Except.error f => ([ifl_call.init_thread_context], Except.error f)
      | Except.ok c =>
        if W.verify_attributes c != 0 then
          ([ifl_call.init_thread_context, ifl_call.verify_attributes c], Except.ok [])
        else
          let r := aggregate_loop_calls W P cmd parent_object table table []
          (ifl_call.init_thread_context :: ifl_call.verify_attributes c :: r.1, r.2)

/-- The effect of one call on the connection lock held (`none`: no lock held): a
successful lock needs no lock held and takes it, an unlock needs the lock of that
connection and gives it up, and a send or a read on a connection needs the lock of that
connection. The result `none` is a breach of this discipline. -/
def lock_step (held : Option Int) : ifl_call → Option (Option Int)
  | ifl_call.lock_connection c rc =>
    if rc != 0 then some held
    else
      match held with
      | none => some (some c)
      | some _ => none
  | ifl_call.unlock_connection c => if held == some c then some none else none
  | ifl_call.mgr_put c => if held == some c then some held else none
  | ifl_call.status_put c => if held == some c then some held else none
  | ifl_call.rdrpy c => if held == some c then some held else none
  | _ => some held

/-- The lock held after a sequence of calls started with `held`, or `none` on a breach. -/
def lock_discipline : Option Int → List ifl_call → Option (Option Int)
  | held, [] => some held
  | held, e :: rest =>
    match lock_step held e with
    | none => none
    | some h => lock_discipline h rest

/-- A manager wire for worked examples on top of `example_wire`: every call succeeds,
except that the object name is rejected when `name_bad` and the attributes when
`attr_bad`; `pbs_errno` is 15001. -/
def example_mgr_wire (name_bad attr_bad : Bool) : MgrWire :=
  { wire := { example_wire example_replies [] with
      verify_attributes := fun _ => if attr_bad then 1 else 0 },
    verify_object_name := if name_bad then 1 else 0, mgr_put := fun _ => 0,
    pbs_errno := 15001 }

/-! ## Closing all connections but one (`net_close`, lines 1005-1030) -/

/-- Whether the record at the address `p` of the state `st` is one that `net_close (but)`
closes: its socket is not `but`. -/
def not_spared (but : Int) (st : net_state) (p : Nat) : Bool :=
  match st.heap p with
  | some cp => cp.cn_sock != but
  | none => false

/-- The registry `example_sweep_registry` with the network initialised and an on-close
hook installed in the record of socket 5. -/
def example_close_registry : net_state :=
  { example_sweep_registry with
    net_is_initialized := true
    heap := Function.update example_sweep_registry.heap 1
      (some ⟨5, conn_type.FromClientDIS, 0, 2000, 100, none, 1, some 9, false, false, false,
        false⟩) }

/-! ## The listeners (`connection_init`, `init_network_add`, lines 223-240, 325-383) -/

/-- The statics of `net_server.c` that `init_network_add` uses besides the registry: its
own `initialized`, the table `read_func [2]` and `ready_read_func`. -/
structure init_state where
  net : net_state
  initialized : Nat
  read_func : List (Option Nat)
  ready_read_func : Option Nat

/-- The state at program start. -/
def init_start : init_state :=
  { net := net_start, initialized := 0, read_func := [none, none], ready_read_func := none }

/-- The identity of the function `accept_conn`, the data hook of a listener. -/
def accept_conn : Nat := 0

/-- The `while (cp)` loop of `connection_init`, with the loop variable `cp`. -/
def connection_init_walk : Nat → Option Nat → net_state → Except Fault net_state
  | 0, _, st => Except.ok st
  | _ + 1, none, st => Except.ok st
  | fuel + 1, some p, st =>
    match st.heap p with
    | none => Except.error Fault.use_after_free
    | some c =>
      let next := list_next st.svr_allconns p
      match close_conn st c.cn_sock with
      | Except.error f => Except.error f
      | Except.ok st1 => connection_init_walk fuel next st1

/-- The function `connection_init`: every linked record is closed and the list head is
cleared. -/
def connection_init (st : net_state) : Except Fault net_state :=
  match connection_init_walk st.svr_allconns.length st.svr_allconns.head? st with
  | Except.error f => Except.error f
  | Except.ok st1 => Except.ok { st1 with svr_allconns := [] }

/-- The function `init_network_add (sd, readyreadfunc, readfunc)`, with the clock value
and the outcomes of `init_poll_context`, of the event-set enrolment in `add_conn`, and of
`listen`: the return value and the new state. The `close (sd)` of the two error paths is
the event `closesocket`. -/
def init_network_add (ls : init_state) (sd : Int) (readyreadfunc : Option Nat)
    (readfunc : Nat) (poll_ok em_ok listen_ok : Bool) (now : Int) :
    Except Fault (Int × init_state) :=
  let rest (net0 : net_state) (type : conn_type) : Except Fault (Int × init_state) :=
    let net1 : net_state := { net0 with net_is_initialized := true }
    if sd == -1 then Except.ok (-1, { ls with net := net1 })
    else
      let ls1 : init_state :=
        { ls with
          ready_read_func := readyreadfunc
          read_func := ls.read_func.set ls.initialized (some readfunc)
          initialized := ls.initialized + 1 }
      match add_conn net1 sd type 0 0 none accept_conn now em_ok with
      | Except.error f => Except.error f
      | Except.ok (none, net2) =>
        Except.ok (-1,
          { ls1 with net := { net2 with trace := net2.trace ++ [net_event.closesocket sd] } })
      | Except.ok (some _, net2) =>
        if !listen_ok then
          Except.ok (-1,
            { ls1 with net := { net2 with trace := net2.trace ++ [net_event.closesocket sd] } })
        else Except.ok (0, { ls1 with net := net2 })
  if ls.initialized = 0 then
    match connection_init ls.net with
    | Except.error f => Except.error f
    | Except.ok net0 =>
      if !poll_ok then Except.ok (-1, { ls with net := net0 })
      else rest net0 conn_type.Primary
  else if ls.initialized = 1 then rest ls.net conn_type.Secondary
  else Except.ok (-1, ls)

/-- One call of `init_network_add` in a sequence: the socket and the outcomes of
`init_poll_context`, the event-set enrolment and `listen`. -/
structure listener_call where
  sd : Int
  poll_ok : Bool
  em_ok : Bool
  listen_ok : Bool
  deriving DecidableEq, Repr

/-- A sequence of `init_network_add` calls, first call first: the return values and the
final state. -/
def init_network_add_seq : List listener_call → init_state → Except Fault (List Int × init_state)
  | [], ls => Except.ok ([], ls)
  | k :: rest, ls =>
    match init_network_add ls k.sd none 1 k.poll_ok k.em_ok k.listen_ok 100 with
    | Except.error f => Except.error f
    | Except.ok r =>
      match init_network_add_seq rest r.2 with
      | Except.error f => Except.error f
      | Except.ok q => Except.ok (r.1 :: q.1, q.2)

/-- The kind of the record registered for the socket `sd`, if there is one. -/
def listener_kind (ls : init_state) (sd : Int) : Option conn_type :=
  match get_conn ls.net sd with
  | none => none
  | some p => (ls.net.heap p).map (fun c => c.cn_active)

/-! ## The listener's data hook (`accept_conn`, lines 664-706) -/

/-- What `accept_conn` takes from outside: the clock; the descriptor that
`accept (sd, ...)` returns (-1 on failure), which depends on what the process did before
and so is a function of the state at the call; the peer address and port reported for the
new descriptor, in host byte order; the result of `set_nodelay`; the outcome of the
event-set enrolment in `add_conn`; and the two statics that `init_network_add` sets,
`ready_read_func` and `read_func`, the latter as the pointer that the code reads at
`read_func [(int) kind]` (the values of `enum conn_type` are defined outside these
sources). -/
structure AcceptEnv where
  now : Int
  accept : net_state → Int → Int
  from_addr : Int → Nat
  from_port : Int → Nat
  set_nodelay : Int → Int
  em_ok : Int → Bool
  ready_read_func : Option Nat
  read_func : conn_type → Nat

/-- The function `accept_conn (sd)` itself (the name `accept_conn` stands for its
identity as a hook). The `close (newsock)` of the `set_nodelay` error path is the event
`closesocket`. -/
def accept_conn_call (A : AcceptEnv) (st : net_state) (sd : Int) : Except Fault net_state :=
  match conn_find_actual_index st sd with
  | none => Except.ok st
  | some idx =>
    match st.svr_conn idx with
    | none => Except.error Fault.null_deref
    | some p =>
      match st.heap p with
      | none => Except.error Fault.use_after_free
      | some c =>
        let st1 : net_state :=
          { st with heap := Function.update st.heap p (some { c with cn_lasttime := A.now }) }
        let newsock := A.accept st1 sd
        if newsock == -1 then Except.ok st1
        else if A.set_nodelay newsock == -1 then
          Except.ok { st1 with trace := st1.trace ++ [net_event.closesocket newsock] }
        else
          match add_conn st1 newsock conn_type.FromClientDIS (A.from_addr newsock)
              (A.from_port newsock) A.ready_read_func (A.read_func c.cn_active) A.now
              (A.em_ok newsock) with
          | Except.error f => Except.error f
          | Except.ok r => Except.ok r.2

/-- The statement `svr_conn[idx]->cn_func (svr_conn[idx]->cn_sock)` of `process_socket`
for the record `c`: the call is recorded, and where the hook is `accept_conn`, the one
data hook that `net_server.c` defines, it is run. Every other data hook is external code,
taken not to call back into the registry. -/
def call_cn_func (A : AcceptEnv) (st : net_state) (c : conn_t) : Except Fault net_state :=
  let st1 : net_state := { st with trace := st.trace ++ [net_event.func c.cn_sock] }
  if c.cn_func = accept_conn then accept_conn_call A st1 c.cn_sock else Except.ok st1

/-- The tail of `process_socket` from the test of `cn_ready_func` on, as `dispatch_hooks`
but with the data hook run by `call_cn_func`. -/
def dispatch_hooks_full (A : AcceptEnv) (E : NetEnv) (st : net_state) (sock : Int)
    (c : conn_t) : Except Fault (Int × net_state) :=
  match c.cn_ready_func with
  | some _ =>
    let st1 : net_state := { st with trace := st.trace ++ [net_event.ready_func c.cn_sock] }
    let ret := E.ready_ret c.cn_sock
    if ret == -1 then
      match close_conn st1 sock with
      | Except.ok st2 => Except.ok (-1, st2)
      | Except.error f => Except.error f
    else if ret == 0 then Except.ok (0, st1)
    else
      match call_cn_func A st1 c with
      | Except.ok st2 => Except.ok (0, st2)
      | Except.error f => Except.error f
  | none =>
    match call_cn_func A st c with
    | Except.ok st2 => Except.ok (0, st2)
    | Except.error f => Except.error f

/-- The function `process_socket (sock)` with the data hook run by `call_cn_func`: the
return code and the new state. It is `process_socket` wherever the data hook reached is
not `accept_conn`. -/
def process_socket_full (A : AcceptEnv) (E : NetEnv) (st : net_state) (sock : Int) :
    Except Fault (Int × net_state) :=
  match conn_find_actual_index st sock with
  | none => Except.ok (-1, st)
  | some idx =>
    match st.svr_conn idx with
    | none => Except.error Fault.null_deref
    | some p =>
      match st.heap p with
      | none => Except.error Fault.use_after_free
      | some c0 =>
        let c1 : conn_t := { c0 with cn_lasttime := E.now }
        if c1.cn_active != conn_type.Primary && c1.cn_active != conn_type.TppComm
            && c1.cn_active != conn_type.Secondary && !c1.authenticated then
          let r := engage_authentication E c1
          let st1 : net_state := { st with heap := Function.update st.heap p (some r.2) }
          if r.1 == -1 then
            match close_conn st1 sock with
            | Except.ok st2 => Except.ok (-1, st2)
            | Except.error f => Except.error f
          else dispatch_hooks_full A E st1 sock r.2
        else
          dispatch_hooks_full A E { st with heap := Function.update st.heap p (some c1) } sock c1

/-- What `tpp_em_pwait` gives back: the descriptors `EM_GET_FD (events, i)` for
`i < nfds` in that order, or a negative result together with the value of `errno`. -/
inductive wait_outcome where
  | ready (fds : List Int)
  | failed (errno : Int)
  deriving DecidableEq, Repr

/-- The value of `EINTR` in `errno.h`. -/
def EINTR : Int := 4

/-- The value of `EAGAIN` in `errno.h`. -/
def EAGAIN : Int := 11

/-- What one `wait_request` takes from outside: the collaborators of `process_socket`
and of `accept_conn`, the idle limit, the outcome of the wait on `poll_context`, whether
the argument `priority_context` is non-NULL, the outcome of the zero-timeout wait on it,
and whether one of SIGCHLD, SIGHUP, SIGINT, SIGTERM is pending at the start of turn `i`
of the second loop. -/
structure WaitEnv where
  net : NetEnv
  acc : AcceptEnv
  max_idle : Int
  primary : wait_outcome
  priority_context : Bool
  priority : wait_outcome
  signal_pending : Nat → Bool

/-- The descriptors the first loop visits: none without a priority context, none when
`pnfds` is negative. -/
def priority_fds (W : WaitEnv) : List Int :=
  if W.priority_context then
    match W.priority with
    | wait_outcome.ready fds => fds
    | wait_outcome.failed _ => []
  else []

/-- The descriptors reported by the wait on `poll_context`; none when it failed. -/
def primary_fds (W : WaitEnv) : List Int :=
  match W.primary with
  | wait_outcome.ready fds => fds
  | wait_outcome.failed _ => []

/-- The loop `for (i = 0; i < pnfds; i++)` over the priority events: the final value of
`prio_sock_processed` and the state. -/
def priority_pass (A : AcceptEnv) (E : NetEnv) :
    List Int → net_state → Bool → Except Fault (Bool × net_state)
  | [], st, prio_sock_processed => Except.ok (prio_sock_processed, st)
  | em_pfd :: rest, st, prio_sock_processed =>
    match process_socket_full A E st em_pfd with
    | Except.error f => Except.error f
    | Except.ok r =>
      priority_pass A E rest r.2 (if r.1 == -1 then prio_sock_processed else true)

/-- The loop `for (i = 0; i < nfds; i++)` over the primary events from turn `i` on. The
boolean of the result tells whether the loop left the function through the `return (0)`
of the pending-signal test. -/
def primary_pass (A : AcceptEnv) (E : NetEnv) (signal_pending : Nat → Bool)
    (prio_sock_processed : Bool) :
    Nat → List Int → net_state → Except Fault (Bool × net_state)
  | _, [], st => Except.ok (false, st)
  | i, em_fd :: rest, st =>
    if signal_pending i then Except.ok (true, st)
    else if prio_sock_processed then
      match conn_find_actual_index st em_fd with
      | none => primary_pass A E signal_pending prio_sock_processed (i + 1) rest st
      | some idx =>
        match st.svr_conn idx with
        | none => Except.error Fault.null_deref
        | some p =>
          match st.heap p with
          | none => Except.error Fault.use_after_free
          | some c =>
            if c.cn_prio_flag then
              primary_pass A E signal_pending prio_sock_processed (i + 1) rest st
            else
              match process_socket_full A E st em_fd with
              | Except.error f => Except.error f
              | Except.ok r =>
                primary_pass A E signal_pending prio_sock_processed (i + 1) rest r.2
    else
      match process_socket_full A E st em_fd with
      | Except.error f => Except.error f
      | Except.ok r => primary_pass A E signal_pending prio_sock_processed (i + 1) rest r.2

/-- The end of `wait_request`: `connection_idlecheck ()` and `return (0)`. -/
def wait_request_tail (W : WaitEnv) (st : net_state) : Except Fault (Int × net_state) :=
  match connection_idlecheck W.max_idle st W.net.now with
  | Except.error f => Except.error f
  | Except.ok st1 => Except.ok (0, st1)

/-- The function `wait_request`: the return code and the new state. -/
def wait_request (W : WaitEnv) (st : net_state) : Except Fault (Int × net_state) :=
  match W.primary with
  | wait_outcome.failed err =>
    if !(err == EINTR || err == EAGAIN || err == 0) then Except.ok (-1, st)
    else wait_request_tail W st
  | wait_outcome.ready events =>
    match priority_pass W.acc W.net (priority_fds W) st false with
    | Except.error f => Except.error f
    | Except.ok pr =>
      match primary_pass W.acc W.net W.signal_pending pr.1 0 events pr.2 with
      | Except.error f => Except.error f
      | Except.ok qr => if qr.1 then Except.ok (0, qr.2) else wait_request_tail W qr.2

/-- A registry with a listener on socket 3 (record 0), whose data hook is `accept_conn`,
a plain client on socket 5 (record 1) and a priority client on socket 6 (record 2), both
clients with a data hook and no ready hook. -/
def example_priority_registry : net_state :=
  state_of (net_run 900
    [net_op.add 3 conn_type.Primary 0 0 none accept_conn false 100 true true,
     net_op.add 5 conn_type.FromClientDIS 0 2000 none 1 false 100 true true,
     net_op.add 6 conn_type.FromClientDIS 0 2001 none 1 true 100 true true] net_start)

/-- A listener side on which `accept` hands out descriptor 8 while it is not registered
and fails otherwise; the peer is on port 2002 and the new connection gets the data hook
1 and no ready hook. -/
def example_accept : AcceptEnv :=
  { now := 101, accept := fun st _ => if (st.svr_conn 8).isNone then 8 else -1,
    from_addr := fun _ => 0, from_port := fun _ => 2002, set_nodelay := fun _ => 0,
    em_ok := fun _ => true, ready_read_func := none, read_func := fun _ => 1 }

/-- One wait in which the primary set reports the sockets 3, 5 and 6 and the priority
set reports socket 6; the security library accepts every peer and no signal is pending. -/
def example_wait : WaitEnv :=
  { net := ⟨101, fun _ => cs_result.CS_SUCCESS, fun _ => 1⟩, acc := example_accept,
    max_idle := 900, primary := wait_outcome.ready [3, 5, 6], priority_context := true,
    priority := wait_outcome.ready [6], signal_pending := fun _ => false }

/-! ## The queue merge as the amended statement describes it -/

/-- Following the statement, not the code: the accumulator queue `a` folded, in the
order of the later reply, with every later queue of its name (`merge_entry` is the pair
`aggr_job_ct`, `aggr_resc_ct`); `none` when one of the folds faults. -/
def spec_folded_entry (P : Platform) : batch_status → List batch_status → Option batch_status
  | a, [] => some a
  | a, b :: rest =>
    if a.name == b.name then
      match merge_entry P a b with
      | Except.ok a1 => spec_folded_entry P a1 rest
      | Except.error _ => none
    else spec_folded_entry P a rest

/-- Following the statement, not the code: the merged queue reply has the accumulator's
queues in their order; a queue that is the first of its name in the accumulator (its name
is not among the names `seen` before it) is folded with the later queues of that name,
and every other accumulator queue is left as it is. Later queues are never appended. -/
def spec_queue_merge (P : Platform) (sv2 : List batch_status) :
    List String → List batch_status → Option (List batch_status)
  | _, [] => some []
  | seen, a :: r =>
    if seen.contains a.name then (spec_queue_merge P sv2 seen r).map (fun t => a :: t)
    else
      match spec_folded_entry P a sv2 with
      | none => none
      | some a1 => (spec_queue_merge P sv2 (a.name :: seen) r).map (fun t => a1 :: t)

/-! # Properties -/

/-! ## Job-count and resource merges -/

/-- The design document's scenario S1 with `total_jobs` listed before `state_count` on
both sides: the counts and the total are merged as described. -/
theorem S1_total_before_count :
    aggr_job_ct
        [⟨ATTR_total, "", "8"⟩, ⟨ATTR_count, "", "Queued:3 Running:5"⟩]
        [⟨ATTR_total, "", "7"⟩, ⟨ATTR_count, "", "Queued:1 Held:2 Running:4"⟩]
      = Except.ok
        [⟨ATTR_total, "", "15"⟩,
         ⟨ATTR_count, "", "Transit:0 Queued:4 Held:2 Waiting:0 Running:9 Exiting:0 Begun:0 "⟩] := by
  decide

/-- C1: two server entries that carry `state_count` (here "Queued:3 Running:5" and
"Queued:1 Held:2 Running:4") and no `total_jobs`: after `aggregate_svr` the value of the
first entry is still "Queued:3 Running:5", whereas the canonical encoding of the summed
vectors is "Transit:0 Queued:4 Held:2 Waiting:0 Running:9 Exiting:0 Begun:0 ". -/
theorem C1_state_count_left_unmerged (P : Platform) :
    aggregate_svr P
        [⟨"svr", [⟨ATTR_count, "", "Queued:3 Running:5"⟩], ""⟩]
        [⟨"svr", [⟨ATTR_count, "", "Queued:1 Held:2 Running:4"⟩], ""⟩]
      = Except.ok [⟨"svr", [⟨ATTR_count, "", "Queued:3 Running:5"⟩], ""⟩]
    ∧ String.mk (encode_states (decode_states "Queued:3 Running:5".toList zero_counts)
        (decode_states "Queued:1 Held:2 Running:4".toList zero_counts))
      = "Transit:0 Queued:4 Held:2 Waiting:0 Running:9 Exiting:0 Begun:0 " := by
  constructor
  · with_unfolding_all rfl
  · decide

/-- C2: `ncpus=4` merged with `ncpus=0`: the value "0" is left without a type by
`assess_type`, no case of the `switch` fills `buf`, and the value of `ncpus` becomes
the content of the uninitialised buffer instead of "4". -/
theorem C2_zero_value_copies_uninitialised_buffer (P : Platform) :
    aggr_resc_ct P [⟨ATTR_rescassn, "ncpus", "4"⟩] [⟨ATTR_rescassn, "ncpus", "0"⟩]
      = Except.ok [⟨ATTR_rescassn, "ncpus", String.mk P.uninit_buf⟩] := by
  with_unfolding_all rfl

/-- The example of the claim C2 for non-zero values: `ncpus=4` merged with `ncpus=2`
gives `ncpus=6`. -/
theorem resc_sum_example (P : Platform) :
    aggr_resc_ct P [⟨ATTR_rescassn, "ncpus", "4"⟩] [⟨ATTR_rescassn, "ncpus", "2"⟩]
      = Except.ok [⟨ATTR_rescassn, "ncpus", "6"⟩] := by
  with_unfolding_all rfl

/-- C3: an entry without attributes merged with an entry that carries the numeric
resource `scratch=1gb`: the walk to the tail of the empty list dereferences `NULL`
instead of appending a copy. -/
theorem C3_append_to_empty_list_faults (P : Platform) :
    aggr_resc_ct P [] [⟨ATTR_rescassn, "scratch", "1gb"⟩] = Except.error Fault.null_deref := by
  with_unfolding_all rfl

/-! ## Queue aggregation -/

theorem merge_entry_name (P : Platform) (a b a1 : batch_status)
    (h : merge_entry P a b = Except.ok a1) : a1.name = a.name := by
  unfold merge_entry at h
  split at h
  · cases h
  · split at h
    · cases h
    · cases h; rfl

theorem merge_into_first_names (P : Platform) (b : batch_status) :
    ∀ (l r : List batch_status), merge_into_first P b l = Except.ok r →
      r.map (fun x => x.name) = l.map (fun x => x.name) := by
  intro l
  induction l with
  | nil => intro r h; simp [merge_into_first] at h; subst h; rfl
  | cons a t ih =>
    intro r h
    unfold merge_into_first at h
    split at h
    · split at h
      · rename_i a1 h1
        cases h
        simp [merge_entry_name P a b a1 h1]
      · cases h
    · split at h
      · rename_i r1 h1
        cases h
        simp [ih r1 h1]
      · cases h

theorem merge_into_first_no_match (P : Platform) (b : batch_status) :
    ∀ (l : List batch_status), (∀ x ∈ l, x.name ≠ b.name) →
      merge_into_first P b l = Except.ok l := by
  intro l
  induction l with
  | nil => intro _; rfl
  | cons a t ih =>
    intro h
    have ha : a.name ≠ b.name := h a (List.mem_cons_self _ _)
    have ht := ih (fun x hx => h x (List.mem_cons_of_mem _ hx))
    unfold merge_into_first
    simp [ha, ht]

theorem merge_into_first_at (P : Platform) (b a : batch_status) (post : List batch_status) :
    ∀ (pre : List batch_status), (∀ x ∈ pre, x.name ≠ b.name) → a.name = b.name →
      merge_into_first P b (pre ++ a :: post)
        = (merge_entry P a b).map (fun a1 => pre ++ a1 :: post) := by
  intro pre
  induction pre with
  | nil =>
    intro _ hab
    simp only [List.nil_append]
    unfold merge_into_first
    simp only [hab, beq_self_eq_true, if_true]
    cases merge_entry P a b <;> rfl
  | cons x t ih =>
    intro h hab
    have hx : x.name ≠ b.name := h x (List.mem_cons_self _ _)
    have ht := ih (fun y hy => h y (List.mem_cons_of_mem _ hy)) hab
    simp only [List.cons_append]
    unfold merge_into_first
    simp only [beq_iff_eq, hx, if_false, ht]
    cases merge_entry P a b <;> rfl

theorem aggregate_queue_names (P : Platform) :
    ∀ (sv2 sv1 r : List batch_status), aggregate_queue P sv1 sv2 = Except.ok r →
      r.map (fun x => x.name) = sv1.map (fun x => x.name) := by
  intro sv2
  induction sv2 with
  | nil => intro sv1 r h; simp [aggregate_queue] at h; subst h; rfl
  | cons b rest ih =>
    intro sv1 r h
    unfold aggregate_queue at h
    split at h
    · rename_i sv hsv
      rw [ih sv r h, merge_into_first_names P b sv1 sv hsv]
    · cases h

theorem aggregate_queue_disjoint (P : Platform) :
    ∀ (sv2 sv1 : List batch_status),
      (∀ b ∈ sv2, ∀ a ∈ sv1, a.name ≠ b.name) → aggregate_queue P sv1 sv2 = Except.ok sv1 := by
  intro sv2
  induction sv2 with
  | nil => intro sv1 _; cases sv1 <;> rfl
  | cons b rest ih =>
    intro sv1 h
    unfold aggregate_queue
    rw [merge_into_first_no_match P b sv1 (h b (List.mem_cons_self _ _))]
    exact ih sv1 (fun b1 hb1 => h b1 (List.mem_cons_of_mem _ hb1))

theorem spec_queue_merge_nil (P : Platform) :
    ∀ (l : List batch_status) (seen : List String), spec_queue_merge P [] seen l = some l := by
  intro l
  induction l with
  | nil => intro seen; rfl
  | cons a t ih =>
    intro seen
    unfold spec_queue_merge
    by_cases hs : seen.contains a.name = true
    · simp only [hs, if_true, ih, Option.map_some']
    · simp only [hs, Bool.false_eq_true, if_false, spec_folded_entry, ih, Option.map_some']

/-- One later queue `b` taken off the later reply: the described merge with `b :: rest`
is the code's merge of `b` into the first queue of its name, unless a queue of that name
came before, followed by the described merge with `rest`. -/
theorem spec_queue_merge_step (P : Platform) (b : batch_status) (rest : List batch_status) :
    ∀ (l : List batch_status) (seen : List String),
      spec_queue_merge P (b :: rest) seen l
        = (if seen.contains b.name then some l
            else (merge_into_first P b l).toOption).bind
            (fun l1 => spec_queue_merge P rest seen l1) := by
  intro l
  induction l with
  | nil =>
    intro seen
    by_cases hb : seen.contains b.name = true
    · simp only [hb, if_true, Option.some_bind, spec_queue_merge]
    · simp only [hb, Bool.false_eq_true, if_false, merge_into_first, Except.toOption,
        Option.some_bind, spec_queue_merge]
  | cons a t ih =>
    intro seen
    by_cases hs : seen.contains a.name = true
    · have hl : spec_queue_merge P (b :: rest) seen (a :: t)
          = (spec_queue_merge P (b :: rest) seen t).map (fun t1 => a :: t1) := by
        conv_lhs => unfold spec_queue_merge
        simp only [hs, if_true]
      rw [hl, ih seen]
      by_cases hb : seen.contains b.name = true
      · simp only [hb, if_true, Option.some_bind]
        conv_rhs => unfold spec_queue_merge
        simp only [hs, if_true]
      · simp only [hb, Bool.false_eq_true, if_false]
        have hne : (a.name == b.name) = false := by
          rw [beq_eq_false_iff_ne]
          intro h
          rw [h] at hs
          exact hb hs
        conv_rhs => unfold merge_into_first
        simp only [hne, Bool.false_eq_true, if_false]
        cases hm : merge_into_first P b t with
        | error f => simp [Except.toOption]
        | ok t1 =>
          simp only [Except.toOption, Option.some_bind]
          conv_rhs => unfold spec_queue_merge
          simp only [hs, if_true]
    · have hl : spec_queue_merge P (b :: rest) seen (a :: t)
          = match spec_folded_entry P a (b :: rest) with
            | none => none
            | some a1 =>
              (spec_queue_merge P (b :: rest) (a.name :: seen) t).map (fun t1 => a1 :: t1) := by
        conv_lhs => unfold spec_queue_merge
        simp only [hs, Bool.false_eq_true, if_false]
      rw [hl, ih (a.name :: seen)]
      by_cases hab : (a.name == b.name) = true
      · have hab2 : a.name = b.name := by simpa using hab
        have hb : ¬ seen.contains b.name = true := by
          rw [← hab2]
          exact hs
        have hb2 : (a.name :: seen).contains b.name = true := by
          simp [hab2]
        simp only [hb, hb2, Bool.false_eq_true, if_false, if_true, Option.some_bind]
        conv_lhs => unfold spec_folded_entry
        conv_rhs => unfold merge_into_first
        simp only [hab, if_true]
        cases hme : merge_entry P a b with
        | error f => simp [Except.toOption]
        | ok a1 =>
          have hn : a1.name = a.name := merge_entry_name P a b a1 hme
          simp only [Except.toOption, Option.some_bind]
          conv_rhs => unfold spec_queue_merge
          have hs1 : ¬ seen.contains a1.name = true := by
            rw [hn]
            exact hs
          simp only [hn, hs, Bool.false_eq_true, if_false]
      · have hab2 : a.name ≠ b.name := by simpa using hab
        have hcont : (a.name :: seen).contains b.name = seen.contains b.name := by
          simp [List.contains_cons, Ne.symm hab2]
        have hfe : spec_folded_entry P a (b :: rest) = spec_folded_entry P a rest := by
          conv_lhs => unfold spec_folded_entry
          simp only [hab, Bool.false_eq_true, if_false]
        rw [hfe, hcont]
        by_cases hb : seen.contains b.name = true
        · simp only [hb, if_true, Option.some_bind]
          conv_rhs => unfold spec_queue_merge
          simp only [hs, Bool.false_eq_true, if_false]
        · simp only [hb, Bool.false_eq_true, if_false]
          conv_rhs => unfold merge_into_first
          simp only [hab, Bool.false_eq_true, if_false]
          cases hm : merge_into_first P b t with
          | error f =>
            simp only [Except.toOption, Option.none_bind, Option.map_none']
            cases spec_folded_entry P a rest <;> rfl
          | ok t1 =>
            simp only [Except.toOption, Option.some_bind]
            conv_rhs => unfold spec_queue_merge
            simp only [hs, Bool.false_eq_true, if_false]

/-- The code's queue merge completes exactly when the described merge does, with the same
list. -/
theorem aggregate_queue_spec (P : Platform) :
    ∀ (sv2 sv1 : List batch_status),
      (aggregate_queue P sv1 sv2).toOption = spec_queue_merge P sv2 [] sv1 := by
  intro sv2
  induction sv2 with
  | nil =>
    intro sv1
    rw [spec_queue_merge_nil]
    cases sv1 <;> rfl
  | cons b rest ih =>
    intro sv1
    rw [spec_queue_merge_step]
    unfold aggregate_queue
    cases hm : merge_into_first P b sv1 with
    | error f => simp [Except.toOption]
    | ok sv =>
      simp only [List.contains_nil, Bool.false_eq_true, if_false, Except.toOption,
        Option.some_bind]
      exact ih sv

/-- C4, as the claim states it, fails: the accumulator holds the queue `workq`, the later
reply holds only `expressq`; the merged reply is the accumulator unchanged, so the name
`expressq` returned by the later server is missing from it. -/
theorem C4_later_only_queue_is_dropped :
    aggregate_queue example_platform
        [⟨"workq", [⟨ATTR_total, "", "3"⟩], ""⟩]
        [⟨"expressq", [⟨ATTR_total, "", "2"⟩], ""⟩]
      = Except.ok [⟨"workq", [⟨ATTR_total, "", "3"⟩], ""⟩] := by
  decide

/-- C4, amended: a completed queue merge returns exactly the accumulator's queues, under
their names and in their original order; a later queue is folded into the first
accumulator queue of its name (the queues before and after it are untouched); later
queues whose names do not occur in the accumulator are dropped, not appended: with no
common name the result is the accumulator itself; and for every later reply, of any
length, the merge completes with a list exactly when the described merge does, with that
list: every accumulator queue that is the first of its name is folded, in the order of
the later reply, with each later queue of that name, and every other accumulator queue is
left as it is. -/
theorem C4_queue_merge_keeps_accumulator (P : Platform) (sv1 sv2 : List batch_status) :
    (∀ r, aggregate_queue P sv1 sv2 = Except.ok r →
        r.map (fun x => x.name) = sv1.map (fun x => x.name))
    ∧ (∀ pre a post b, sv1 = pre ++ a :: post → (∀ x ∈ pre, x.name ≠ b.name) →
        a.name = b.name →
        aggregate_queue P sv1 [b] = (merge_entry P a b).map (fun a1 => pre ++ a1 :: post))
    ∧ ((∀ b ∈ sv2, ∀ a ∈ sv1, a.name ≠ b.name) → aggregate_queue P sv1 sv2 = Except.ok sv1)
    ∧ (∀ r, aggregate_queue P sv1 sv2 = Except.ok r ↔ spec_queue_merge P sv2 [] sv1 = some r) := by
  refine ⟨fun r h => aggregate_queue_names P sv2 sv1 r h, ?_, aggregate_queue_disjoint P sv2 sv1,
    ?_⟩
  · intro pre a post b hsv hpre hab
    subst hsv
    unfold aggregate_queue
    rw [merge_into_first_at P b a post pre hpre hab]
    cases merge_entry P a b <;> rfl
  · intro r
    have h := aggregate_queue_spec P sv2 sv1
    constructor
    · intro hr
      rw [← h, hr]
      rfl
    · intro hs
      rw [← h] at hs
      cases hagg : aggregate_queue P sv1 sv2 with
      | error f =>
        rw [hagg] at hs
        simp [Except.toOption] at hs
      | ok r1 =>
        rw [hagg] at hs
        simp only [Except.toOption, Option.some.injEq] at hs
        rw [hs]

/-- C4 at a concrete input: the accumulator [`workq`, `expressq`] merged with a later
reply of four queues. The two later `workq` entries are folded into `workq` in turn
(3 + 2 + 10 jobs), the later `expressq` into `expressq` (1 + 4 jobs), and `slowq`, which
only the later server returned, is dropped. -/
theorem C4_queue_merge_witness :
    aggregate_queue example_platform
        [⟨"workq", [⟨ATTR_total, "", "3"⟩, ⟨ATTR_count, "", "Queued:3 "⟩], ""⟩,
         ⟨"expressq", [⟨ATTR_total, "", "1"⟩], ""⟩]
        [⟨"slowq", [⟨ATTR_total, "", "9"⟩], ""⟩,
         ⟨"workq", [⟨ATTR_total, "", "2"⟩, ⟨ATTR_count, "", "Queued:2 "⟩], ""⟩,
         ⟨"expressq", [⟨ATTR_total, "", "4"⟩], ""⟩,
         ⟨"workq", [⟨ATTR_total, "", "10"⟩, ⟨ATTR_count, "", "Queued:10 "⟩], ""⟩]
      = Except.ok
        [⟨"workq", [⟨ATTR_total, "", "15"⟩,
            ⟨ATTR_count, "",
              "Transit:0 Queued:15 Held:0 Waiting:0 Running:0 Exiting:0 Begun:0 "⟩], ""⟩,
         ⟨"expressq", [⟨ATTR_total, "", "5"⟩], ""⟩] :=
  ((C4_queue_merge_keeps_accumulator example_platform _ _).2.2.2 _).mpr (by decide)

/-! ## Decoding a status reply -/

theorem svr_index_from_eq (c : Int) :
    ∀ (l : List svr_conn_t) (k i : Nat) (e : svr_conn_t), l.get? i = some e → e.sd = c →
      (∀ j e1, j < i → l.get? j = some e1 → e1.sd ≠ c) →
      svr_index_from c l k = ((k + i : Nat) : Int) := by
  intro l
  induction l with
  | nil => intro k i e h; simp at h
  | cons x t ih =>
    intro k i e h hc hlt
    cases i with
    | zero =>
      simp at h
      subst h
      simp [svr_index_from, hc]
    | succ n =>
      have hx : x.sd ≠ c := hlt 0 x (Nat.succ_pos n) rfl
      have ht := ih (k + 1) n e (by simpa using h) hc
        (fun j e1 hj hj1 => hlt (j + 1) e1 (Nat.succ_lt_succ hj) (by simpa using hj1))
      simp only [svr_index_from, beq_iff_eq, hx, if_false, ht]
      congr 1
      omega

/-- C6: for a reply that was read (`PBSD_rdrpy` gave a reply of the NULL, Text or Status
variant and the connection shows no error) with the status records `reply.brp_statc`,
where `c` is the socket of the endpoint at position `i` of the server table (and of no
earlier one): `PBSD_status_get` returns one entry per record, in reply order, carrying
the records' names; for the request types job status, selected status and node status
each attribute list is the record's list with the attribute `server_index`, valued the
decimal text of `i`, put in front; for every other request type each attribute list is
the record's list. -/
theorem C6_status_get_entries (W : Wire) (c : Int) (type : batch_request_type)
    (svr_conns : List svr_conn_t) (reply : batch_reply) (i : Nat) (e : svr_conn_t)
    (hreply : W.rdrpy c = some reply)
    (hchoice : reply.brp_choice = reply_choice.BATCH_REPLY_CHOICE_NULL
      ∨ reply.brp_choice = reply_choice.BATCH_REPLY_CHOICE_Text
      ∨ reply.brp_choice = reply_choice.BATCH_REPLY_CHOICE_Status)
    (herrno : W.conn_errno c = 0)
    (hslot : svr_conns.get? i = some e) (hsock : e.sd = c)
    (hfirst : ∀ j e1, j < i → svr_conns.get? j = some e1 → e1.sd ≠ c) :
    (PBSD_status_get W c type svr_conns).length = reply.brp_statc.length
    ∧ (PBSD_status_get W c type svr_conns).map (fun b => b.name)
        = reply.brp_statc.map (fun s => s.brp_objname)
    ∧ ((type = batch_request_type.PBS_BATCH_StatusJob
          ∨ type = batch_request_type.PBS_BATCH_SelStat
          ∨ type = batch_request_type.PBS_BATCH_StatusNode) →
        (PBSD_status_get W c type svr_conns).map (fun b => b.attribs)
          = reply.brp_statc.map
              (fun s => ⟨ATTR_server_index, "", toString i⟩ :: s.brp_attrl))
    ∧ (¬ (type = batch_request_type.PBS_BATCH_StatusJob
          ∨ type = batch_request_type.PBS_BATCH_SelStat
          ∨ type = batch_request_type.PBS_BATCH_StatusNode) →
        (PBSD_status_get W c type svr_conns).map (fun b => b.attribs)
          = reply.brp_statc.map (fun s => s.brp_attrl)) := by
  have hget : PBSD_status_get W c type svr_conns
      = reply.brp_statc.map (status_entry c type svr_conns) := by
    unfold PBSD_status_get
    rw [hreply]
    rcases hchoice with h | h | h <;> simp [h, herrno]
  have hidx : get_svr_index_sock c svr_conns = (i : Int) := by
    unfold get_svr_index_sock
    rw [svr_index_from_eq c svr_conns 0 i e hslot hsock hfirst]
    simp
  have hattr : server_index_attr c svr_conns = ⟨ATTR_server_index, "", toString i⟩ := by
    unfold server_index_attr
    rw [hidx]
    have : sprintf_ld (i : Int) = Nat.toDigits 10 i := by
      unfold sprintf_ld
      have h0 : ¬ ((i : Int) < 0) := by omega
      simp [h0]
    rw [this]
    rfl
  rw [hget]
  refine ⟨by simp, ?_, ?_, ?_⟩
  · simp [List.map_map, Function.comp_def, status_entry]
  · intro ht
    simp only [List.map_map, Function.comp_def, status_entry, hattr]
    rcases ht with h | h | h <;> simp [h]
  · intro ht
    simp only [List.map_map, Function.comp_def, status_entry]
    have h1 : type ≠ batch_request_type.PBS_BATCH_StatusJob := fun h => ht (Or.inl h)
    have h2 : type ≠ batch_request_type.PBS_BATCH_SelStat := fun h => ht (Or.inr (Or.inl h))
    have h3 : type ≠ batch_request_type.PBS_BATCH_StatusNode := fun h => ht (Or.inr (Or.inr h))
    simp [h1, h2, h3]

/-- C6 at a concrete input: the job reply of two records read on socket 12, the socket of
endpoint 2 of the table of scenario S3. -/
theorem C6_status_get_witness :
    (PBSD_status_get (example_wire example_replies []) 12
        batch_request_type.PBS_BATCH_StatusJob example_table).map (fun b => b.attribs)
      = [[⟨ATTR_server_index, "", "2"⟩, ⟨"job_state", "", "Q"⟩], [⟨ATTR_server_index, "", "2"⟩]] :=
  (C6_status_get_entries (example_wire example_replies []) 12
      batch_request_type.PBS_BATCH_StatusJob example_table
      ⟨reply_choice.BATCH_REPLY_CHOICE_Status,
        [⟨"7.svr", [⟨"job_state", "", "Q"⟩]⟩, ⟨"8.svr", []⟩]⟩
      2 ⟨12, svr_conn_state.SVR_CONN_STATE_CONNECTED⟩ rfl (Or.inr (Or.inr rfl)) rfl rfl rfl
      (by
        intro j e1 hj h
        have hj2 : j = 0 ∨ j = 1 := by omega
        rcases hj2 with h0 | h1
        · subst h0
          simp [example_table] at h
          subst h
          decide
        · subst h1
          simp [example_table] at h
          subst h
          decide)).2.2.1 (Or.inl rfl)

/-! ## Aggregation over the endpoints -/

theorem aggregate_loop_other (W : Wire) (P : Platform) (cmd : batch_request_type) (code : Nat)
    (table : List svr_conn_t) :
    ∀ (slots : List svr_conn_t) (ret : List batch_status),
      (∀ e ∈ slots, e.state = svr_conn_state.SVR_CONN_STATE_CONNECTED →
        W.lock_connection e.sd = 0 ∧ W.unlock_connection e.sd = 0) →
      aggregate_loop W P cmd (mgr_obj.other code) table slots ret
        = Except.ok (ret ++ List.flatten
            ((slots.filter (fun e => e.state == svr_conn_state.SVR_CONN_STATE_CONNECTED)).map
              (fun e => PBSD_status W e.sd cmd table))) := by
  intro slots
  induction slots with
  | nil => intro ret _; simp [aggregate_loop]
  | cons e rest ih =>
    intro ret h
    have hrest := fun r => ih r (fun x hx => h x (List.mem_cons_of_mem _ hx))
    unfold aggregate_loop
    by_cases hc : e.state = svr_conn_state.SVR_CONN_STATE_CONNECTED
    · obtain ⟨hl, hu⟩ := h e (List.mem_cons_self _ _) hc
      simp only [hc, bne_self_eq_false, Bool.false_eq_true, if_false, hl, hu, merge_reply]
      by_cases hn : (PBSD_status W e.sd cmd table).isEmpty = true
      · have hn2 : PBSD_status W e.sd cmd table = [] := List.isEmpty_iff.mp hn
        simp [hn2, hrest, hc]
      · by_cases hr : ret.isEmpty = true
        · have hr2 : ret = [] := List.isEmpty_iff.mp hr
          simp [hn, hr2, hrest, hc]
        · simp [hn, hr, hrest, hc]
    · simp [hc, hrest]

/-- C5, as the claim states it, fails. On the table of scenario S3 with the lock of socket
12 failing, endpoint 0 has already replied with the job `1.svr`, yet the result is nil
and not the entries of endpoint 0; and on the empty table the function faults in the
verification step, where `random_srv_conn` takes a remainder modulo the server count 0. -/
theorem C5_lock_failure_discards_replies :
    PBSD_status_aggregate (example_wire example_replies [12]) example_platform
        (some example_table) batch_request_type.PBS_BATCH_StatusJob (mgr_obj.other 2)
      = Except.ok []
    ∧ PBSD_status (example_wire example_replies [12]) 10
        batch_request_type.PBS_BATCH_StatusJob example_table
      = [⟨"1.svr", [⟨ATTR_server_index, "", "0"⟩, ⟨"job_state", "", "R"⟩], ""⟩]
    ∧ PBSD_status_aggregate (example_wire example_replies []) example_platform
        (some []) batch_request_type.PBS_BATCH_StatusJob (mgr_obj.other 2)
      = Except.error Fault.div_by_zero := by
  refine ⟨by decide, by decide, by decide⟩

/-- C5, amended: for a non-empty endpoint table and a parent object other than Server and
Queue, when the thread context is initialised, the attribute verification passes and the
lock and unlock of every Connected endpoint succeed, the result of
`PBSD_status_aggregate` is the concatenation of the reply lists of the Connected
endpoints in ascending index, each list in its own order; endpoints that are not
Connected contribute nothing. -/
theorem C5_concatenation_in_endpoint_order (W : Wire) (P : Platform)
    (table : List svr_conn_t) (cmd : batch_request_type) (code : Nat)
    (hne : table ≠ [])
    (hinit : W.init_thread_context = 0)
    (hverify : ∀ c, random_srv_conn W.rand_num table = Except.ok c → W.verify_attributes c = 0)
    (hlock : ∀ e ∈ table, e.state = svr_conn_state.SVR_CONN_STATE_CONNECTED →
      W.lock_connection e.sd = 0 ∧ W.unlock_connection e.sd = 0) :
    PBSD_status_aggregate W P (some table) cmd (mgr_obj.other code)
      = Except.ok (List.flatten
          ((table.filter (fun e => e.state == svr_conn_state.SVR_CONN_STATE_CONNECTED)).map
            (fun e => PBSD_status W e.sd cmd table))) := by
  unfold PBSD_status_aggregate
  simp only [hinit, bne_self_eq_false, Bool.false_eq_true, if_false]
  have hlen : table.length ≠ 0 := by
    intro h
    exact hne (List.length_eq_zero.mp h)
  have hr : ∃ c, random_srv_conn W.rand_num table = Except.ok c := by
    unfold random_srv_conn
    simp only [hlen, if_false]
    split
    · split <;> exact ⟨_, rfl⟩
    · exact ⟨_, rfl⟩
  obtain ⟨c, hc⟩ := hr
  rw [hc]
  simp only [hverify c hc, bne_self_eq_false, Bool.false_eq_true, if_false]
  rw [aggregate_loop_other W P cmd code table table [] hlock]
  simp

/-- C5 at a concrete input, scenario S3: endpoints 0, 1, 2 with endpoint 1 disconnected
yield the job of endpoint 0 followed by the two jobs of endpoint 2, each carrying the
index of its endpoint. -/
theorem C5_concatenation_witness :
    PBSD_status_aggregate (example_wire example_replies []) example_platform
        (some example_table) batch_request_type.PBS_BATCH_StatusJob (mgr_obj.other 2)
      = Except.ok
        [⟨"1.svr", [⟨ATTR_server_index, "", "0"⟩, ⟨"job_state", "", "R"⟩], ""⟩,
         ⟨"7.svr", [⟨ATTR_server_index, "", "2"⟩, ⟨"job_state", "", "Q"⟩], ""⟩,
         ⟨"8.svr", [⟨ATTR_server_index, "", "2"⟩], ""⟩] := by
  rw [C5_concatenation_in_endpoint_order (example_wire example_replies []) example_platform
    example_table batch_request_type.PBS_BATCH_StatusJob 2 (by decide) rfl
    (fun _ _ => rfl) (fun _ _ _ => ⟨rfl, rfl⟩)]
  decide

theorem aggregate_loop_skip (W : Wire) (P : Platform) (cmd : batch_request_type)
    (obj : mgr_obj) (table : List svr_conn_t) :
    ∀ (slots : List svr_conn_t) (ret : List batch_status),
      (∀ e ∈ slots, e.state = svr_conn_state.SVR_CONN_STATE_CONNECTED →
        W.lock_connection e.sd = 0 ∧ W.unlock_connection e.sd = 0) →
      aggregate_loop W P cmd obj table slots ret
        = aggregate_loop W P cmd obj table (slots.filter (contributes W cmd table)) ret := by
  intro slots
  induction slots with
  | nil => intro ret _; rfl
  | cons e rest ih =>
    intro ret h
    have hrest := fun r => ih r (fun x hx => h x (List.mem_cons_of_mem _ hx))
    by_cases hc : e.state = svr_conn_state.SVR_CONN_STATE_CONNECTED
    · obtain ⟨hl, hu⟩ := h e (List.mem_cons_self _ _) hc
      by_cases hn : (PBSD_status W e.sd cmd table).isEmpty = true
      · have hk : contributes W cmd table e = false := by simp [contributes, hn]
        rw [List.filter_cons_of_neg (by simp [hk])]
        rw [← hrest ret]
        conv => lhs; unfold aggregate_loop
        simp [hc, hl, hu, hn]
      · have hk : contributes W cmd table e = true := by simp [contributes, hn, hc]
        rw [List.filter_cons_of_pos hk]
        conv => lhs; unfold aggregate_loop
        conv => rhs; unfold aggregate_loop
        simp only [hc, bne_self_eq_false, Bool.false_eq_true, if_false, hl, hu, hn]
        split
        · rfl
        · exact hrest _
    · have hk : contributes W cmd table e = false := by simp [contributes, hc]
      rw [List.filter_cons_of_neg (by simp [hk])]
      rw [← hrest ret]
      conv => lhs; unfold aggregate_loop
      simp [hc]

theorem merge_reply_nonempty (P : Platform) (obj : mgr_obj) (ret next r : List batch_status)
    (hret : ret ≠ []) (h : merge_reply P obj ret next = Except.ok r) : r ≠ [] := by
  cases obj with
  | MGR_OBJ_SERVER =>
    simp only [merge_reply] at h
    unfold aggregate_svr at h
    split at h
    · split at h
      · cases h; simp
      · cases h
    · cases h; exact hret
  | MGR_OBJ_QUEUE =>
    simp only [merge_reply] at h
    have hn := aggregate_queue_names P next ret r h
    intro hr
    subst hr
    simp at hn
    exact hret hn
  | other code =>
    simp only [merge_reply] at h
    cases h
    simp [hret]

theorem aggregate_loop_nil_iff (W : Wire) (P : Platform) (cmd : batch_request_type)
    (obj : mgr_obj) (table : List svr_conn_t) :
    ∀ (slots : List svr_conn_t) (ret r : List batch_status),
      (∀ e ∈ slots, e.state = svr_conn_state.SVR_CONN_STATE_CONNECTED →
        W.lock_connection e.sd = 0 ∧ W.unlock_connection e.sd = 0) →
      aggregate_loop W P cmd obj table slots ret = Except.ok r →
      (r = [] ↔ ret = [] ∧ ∀ e ∈ slots, contributes W cmd table e = false) := by
  intro slots
  induction slots with
  | nil =>
    intro ret r _ h
    simp [aggregate_loop] at h
    subst h
    simp
  | cons e rest ih =>
    intro ret r h hr
    have hrest := fun r0 => ih r0 r (fun x hx => h x (List.mem_cons_of_mem _ hx))
    unfold aggregate_loop at hr
    by_cases hc : e.state = svr_conn_state.SVR_CONN_STATE_CONNECTED
    · obtain ⟨hl, hu⟩ := h e (List.mem_cons_self _ _) hc
      simp only [hc, bne_self_eq_false, Bool.false_eq_true, if_false, hl, hu] at hr
      by_cases hn : (PBSD_status W e.sd cmd table).isEmpty = true
      · have hk : contributes W cmd table e = false := by simp [contributes, hn]
        simp only [hn, if_true] at hr
        rw [hrest ret hr]
        simp [hk]
      · have hk : contributes W cmd table e = true := by simp [contributes, hn, hc]
        have hnext : PBSD_status W e.sd cmd table ≠ [] := by
          intro h0
          exact hn (by simp [h0])
        simp only [hn, Bool.false_eq_true, if_false] at hr
        split at hr
        · cases hr
        · rename_i ret1 hm
          have hret1 : ret1 ≠ [] := by
            by_cases hre : ret.isEmpty = true
            · simp only [hre, if_true] at hm
              cases hm
              exact hnext
            · simp only [hre, Bool.false_eq_true, if_false] at hm
              have hret : ret ≠ [] := by
                intro h0
                exact hre (by simp [h0])
              exact merge_reply_nonempty P obj ret _ ret1 hret hm
          rw [hrest ret1 hr]
          simp [hret1, hk]
    · have hk : contributes W cmd table e = false := by simp [contributes, hc]
      simp only [hc] at hr
      simp only [bne_iff_ne, ne_eq, hc, not_false_eq_true, if_true] at hr
      rw [hrest ret hr]
      simp [hk]

/-- C7, as the claim states it, fails. With endpoints on the sockets 10 and 12, both
Connected, the request on socket 10 succeeds with the job `1.svr`, the lock of socket 12
fails, and the aggregate is aborted: the result is nil. And a single endpoint whose
request succeeds with a reply of zero records (socket 14) also yields nil, although an
endpoint succeeded. -/
theorem C7_lock_failure_aborts_aggregate :
    PBSD_status_aggregate (example_wire example_replies [12]) example_platform
        (some [⟨10, svr_conn_state.SVR_CONN_STATE_CONNECTED⟩,
               ⟨12, svr_conn_state.SVR_CONN_STATE_CONNECTED⟩])
        batch_request_type.PBS_BATCH_StatusJob (mgr_obj.other 2)
      = Except.ok []
    ∧ (PBSD_status (example_wire example_replies [12]) 10
        batch_request_type.PBS_BATCH_StatusJob
        [⟨10, svr_conn_state.SVR_CONN_STATE_CONNECTED⟩,
         ⟨12, svr_conn_state.SVR_CONN_STATE_CONNECTED⟩]).map (fun b => b.name) = ["1.svr"]
    ∧ PBSD_status_aggregate (example_wire example_replies []) example_platform
        (some [⟨14, svr_conn_state.SVR_CONN_STATE_CONNECTED⟩])
        batch_request_type.PBS_BATCH_StatusJob (mgr_obj.other 2)
      = Except.ok []
    ∧ (example_wire example_replies []).rdrpy 14
      = some ⟨reply_choice.BATCH_REPLY_CHOICE_Status, []⟩
    ∧ (example_wire example_replies []).conn_errno 14 = 0 := by
  refine ⟨by decide, by decide, by decide, by decide, by decide⟩

/-- C7, amended: for a non-empty endpoint table, when the thread context is initialised,
the attribute verification passes and the lock and unlock of every Connected endpoint
succeed, a request that fails or returns no record at one endpoint does not abort the
aggregate: `PBSD_status_aggregate` returns what the loop returns when it visits only the
Connected endpoints whose request returned a non-empty reply list (the table itself, and
with it the endpoint indices, unchanged), and a completed aggregate is nil exactly when
no endpoint returned a non-empty reply list. A failed lock of a Connected endpoint, on
the other hand, ends the loop with nil whatever has been gathered. -/
theorem C7_failed_requests_are_skipped (W : Wire) (P : Platform)
    (table : List svr_conn_t) (cmd : batch_request_type) (obj : mgr_obj)
    (hne : table ≠ [])
    (hinit : W.init_thread_context = 0)
    (hverify : ∀ c, random_srv_conn W.rand_num table = Except.ok c → W.verify_attributes c = 0)
    (hlock : ∀ e ∈ table, e.state = svr_conn_state.SVR_CONN_STATE_CONNECTED →
      W.lock_connection e.sd = 0 ∧ W.unlock_connection e.sd = 0) :
    PBSD_status_aggregate W P (some table) cmd obj
      = aggregate_loop W P cmd obj table (table.filter (contributes W cmd table)) []
    ∧ (∀ r, PBSD_status_aggregate W P (some table) cmd obj = Except.ok r →
        (r = [] ↔ ∀ e ∈ table, contributes W cmd table e = false))
    ∧ (∀ e rest ret, e.state = svr_conn_state.SVR_CONN_STATE_CONNECTED →
        W.lock_connection e.sd ≠ 0 →
        aggregate_loop W P cmd obj table (e :: rest) ret = Except.ok []) := by
  have hlen : table.length ≠ 0 := by
    intro h
    exact hne (List.length_eq_zero.mp h)
  have hr : ∃ c, random_srv_conn W.rand_num table = Except.ok c := by
    unfold random_srv_conn
    simp only [hlen, if_false]
    split
    · split <;> exact ⟨_, rfl⟩
    · exact ⟨_, rfl⟩
  obtain ⟨c, hc⟩ := hr
  have hagg : PBSD_status_aggregate W P (some table) cmd obj
      = aggregate_loop W P cmd obj table table [] := by
    unfold PBSD_status_aggregate
    simp only [hinit, bne_self_eq_false, Bool.false_eq_true, if_false]
    rw [hc]
    simp only [hverify c hc, bne_self_eq_false, Bool.false_eq_true, if_false]
  refine ⟨?_, ?_, ?_⟩
  · rw [hagg]
    exact aggregate_loop_skip W P cmd obj table table [] hlock
  · intro r h
    rw [hagg] at h
    have := aggregate_loop_nil_iff W P cmd obj table table [] r hlock h
    simpa using this
  · intro e rest ret hcon hl
    unfold aggregate_loop
    simp [hcon, hl]

/-- C7 at a concrete input: the request on socket 11 of a Connected endpoint 1 fails (no
reply); the aggregate is the one over the endpoints 0 and 2 alone, with their indices. -/
theorem C7_failed_requests_witness :
    PBSD_status_aggregate (example_wire example_replies []) example_platform
        (some [⟨10, svr_conn_state.SVR_CONN_STATE_CONNECTED⟩,
               ⟨11, svr_conn_state.SVR_CONN_STATE_CONNECTED⟩,
               ⟨12, svr_conn_state.SVR_CONN_STATE_CONNECTED⟩])
        batch_request_type.PBS_BATCH_StatusJob (mgr_obj.other 2)
      = Except.ok
        [⟨"1.svr", [⟨ATTR_server_index, "", "0"⟩, ⟨"job_state", "", "R"⟩], ""⟩,
         ⟨"7.svr", [⟨ATTR_server_index, "", "2"⟩, ⟨"job_state", "", "Q"⟩], ""⟩,
         ⟨"8.svr", [⟨ATTR_server_index, "", "2"⟩], ""⟩] := by
  rw [(C7_failed_requests_are_skipped (example_wire example_replies []) example_platform
    [⟨10, svr_conn_state.SVR_CONN_STATE_CONNECTED⟩,
     ⟨11, svr_conn_state.SVR_CONN_STATE_CONNECTED⟩,
     ⟨12, svr_conn_state.SVR_CONN_STATE_CONNECTED⟩]
    batch_request_type.PBS_BATCH_StatusJob (mgr_obj.other 2) (by decide) rfl
    (fun _ _ => rfl) (fun _ _ _ => ⟨rfl, rfl⟩)).1]
  decide

/-! ## The scheduler's command channel -/

theorem socket_to_conn_from_slot (E : CmdEnv) (sock : Int) :
    ∀ (l : List connect_handle) (k : Nat), 0 ≤ (socket_to_conn_from E sock l k).1 →
      ∃ j : Nat, (socket_to_conn_from E sock l k).1 = ((k + j : Nat) : Int)
        ∧ (socket_to_conn_from E sock l k).2.get? j = some ⟨1, 0, sock, none⟩ := by
  intro l
  induction l with
  | nil => intro k h; simp [socket_to_conn_from] at h
  | cons h t ih =>
    intro k hk
    unfold socket_to_conn_from at hk ⊢
    by_cases hu : (h.ch_inuse == 0) = true
    · simp only [hu, if_true] at hk ⊢
      by_cases hl : (E.lock_conntable != 0) = true
      · simp [hl] at hk
      · simp only [hl, Bool.false_eq_true, if_false] at hk ⊢
        by_cases hul : (E.unlock_conntable != 0) = true
        · simp [hul] at hk
        · simp only [hul, Bool.false_eq_true, if_false] at hk ⊢
          exact ⟨0, by simp, by simp⟩
    · simp only [hu, Bool.false_eq_true, if_false] at hk ⊢
      obtain ⟨j, hj1, hj2⟩ := ih (k + 1) hk
      refine ⟨j + 1, ?_, ?_⟩
      · rw [hj1]
        congr 1
        omega
      · simpa using hj2

/-- C8: `server_command` returns a command other than `SCH_ERROR` only if the first
accepted peer's port is below `IPPORT_RESERVED`, its address is an entry of the
allow-list, the security library accepted the connection and the command was read; and
whenever the port check or the allow-list check is reached and fails, the result is
`SCH_ERROR` and all the call does is log the bad connection and close the accepted
socket: no command is read from it. -/
theorem C8_server_command_gate (E : CmdEnv) (st : sched_state) :
    ((server_command E st).1 ≠ SCH_ERROR →
      E.port1 < IPPORT_RESERVED ∧ E.addr1 ∈ st.okclients
      ∧ (E.CS_server_auth E.accept1 = cs_result.CS_SUCCESS
          ∨ E.CS_server_auth E.accept1 = cs_result.CS_AUTH_CHECK_PORT)
      ∧ (E.get_sched_cmd E.accept1).1 = 1)
    ∧ (E.accept1 ≠ -1 → E.set_nodelay E.accept1 ≠ -1 →
        (IPPORT_RESERVED ≤ E.port1 ∨ E.addr1 ∉ st.okclients) →
        (server_command E st).1 = SCH_ERROR
        ∧ ∃ msg, (server_command E st).2.trace
            = st.trace ++ [sched_event.badconn msg, sched_event.close E.accept1]) := by
  constructor
  · intro h
    unfold server_command at h
    dsimp only at h
    split_ifs at h with h1 h2 h3 h4 h5 h6 h7
    all_goals first | exact absurd rfl h | skip
    refine ⟨by omega, by simpa using h4, ?_, by simpa using h7⟩
    obtain ⟨j, hj1, hj2⟩ := socket_to_conn_from_slot E E.accept1 st.connection 0
      (by unfold socket_to_conn at h5; omega)
    have hidx : (socket_to_conn E st.connection E.accept1).1.toNat = j := by
      unfold socket_to_conn
      rw [hj1]
      simp
    rw [hidx] at h6
    unfold socket_to_conn at h6
    rw [hj2] at h6
    simp only [sched_engage_authentication] at h6
    by_cases hneg : E.accept1 < 0
    · simp [hneg] at h6
    · simp only [hneg, if_false] at h6
      cases hcs : E.CS_server_auth E.accept1 with
      | CS_SUCCESS => exact Or.inl rfl
      | CS_AUTH_CHECK_PORT => exact Or.inr rfl
      | other code => simp [hcs] at h6
  · intro h1 h2 h
    unfold server_command
    have h1b : (E.accept1 == -1) = false := by simpa using h1
    have h2b : (E.set_nodelay E.accept1 == -1) = false := by simpa using h2
    simp only [h1b, h2b, Bool.false_eq_true, if_false]
    by_cases h3 : E.port1 ≥ IPPORT_RESERVED
    · simp only [h3, if_true]
      exact ⟨trivial, _, rfl⟩
    · have h4 : E.addr1 ∉ st.okclients := by
        rcases h with h | h
        · exact absurd h h3
        · exact h
      have h4b : (!st.okclients.contains E.addr1) = true := by simpa using h4
      simp only [h3, if_false, h4b, if_true]
      exact ⟨trivial, _, rfl⟩

/-- C8 at concrete inputs: a peer on the allow-list that connects from port 3000 is
turned away with `SCH_ERROR`, its socket closed and nothing read; the same peer from port
1023 has its command returned. -/
theorem C8_server_command_witness :
    ((server_command (example_cmd_env 3000 2130706433) example_sched_state).1 = SCH_ERROR
      ∧ ∃ msg, (server_command (example_cmd_env 3000 2130706433) example_sched_state).2.trace
          = example_sched_state.trace ++ [sched_event.badconn msg, sched_event.close 7])
    ∧ (1023 < IPPORT_RESERVED ∧ 2130706433 ∈ example_sched_state.okclients) :=
  ⟨(C8_server_command_gate (example_cmd_env 3000 2130706433) example_sched_state).2
      (by decide) (by decide) (Or.inl (by decide)),
   ((C8_server_command_gate (example_cmd_env 1023 2130706433) example_sched_state).1
      (by decide)).1,
   ((C8_server_command_gate (example_cmd_env 1023 2130706433) example_sched_state).1
      (by decide)).2.1⟩

/-! ## The connection registry -/

theorem get_conn_some (st : net_state) (sd : Int) (p : Nat) (h : get_conn st sd = some p) :
    conn_find_actual_index st sd = some sd ∧ st.svr_conn sd = some p
      ∧ 0 ≤ sd ∧ sd < st.conns_array_size := by
  unfold get_conn at h
  unfold conn_find_actual_index at h ⊢
  by_cases hb : 0 ≤ sd ∧ sd < st.conns_array_size
  · cases hs : st.svr_conn sd with
    | none => simp [hb, hs] at h
    | some q =>
      simp only [hb, and_self, if_true, hs] at h
      refine ⟨by simp [hb], ?_, hb.1, hb.2⟩
      rw [← h]
  · simp [hb] at h

theorem get_conn_of_slot (st : net_state) (sd : Int) (p : Nat) (h : st.svr_conn sd = some p)
    (h0 : 0 ≤ sd) (h1 : sd < st.conns_array_size) : get_conn st sd = some p := by
  unfold get_conn conn_find_actual_index
  simp [h0, h1, h]

/-- The events of one `close_conn` on the record `c`. -/
theorem close_conn_registered (st : net_state) (sd : Int) (p : Nat) (c : conn_t)
    (hreg : get_conn st sd = some p) (hheap : st.heap p = some c) :
    ∃ evs, close_conn st sd = Except.ok
        { st with
          trace := st.trace ++ evs
          svr_allconns := st.svr_allconns.erase p
          heap := Function.update st.heap p none
          svr_conn := Function.update st.svr_conn sd none
          num_connections := st.num_connections - 1 }
      ∧ ∀ s, net_event.ready_func s ∉ evs ∧ net_event.func s ∉ evs := by
  obtain ⟨hidx, hslot, h0, _⟩ := get_conn_some st sd p hreg
  unfold close_conn
  have hneg : ¬ sd < 0 := by omega
  simp only [hneg, if_false, hidx, hslot, hheap]
  refine ⟨(if c.cn_active != conn_type.ChildPipe then
        [net_event.dis_destroy_chan sd, net_event.CS_close_socket sd] else [])
      ++ ((if c.cn_oncl.isSome then [net_event.oncl sd] else [])
      ++ (net_event.em_del_fd false c.cn_sock ::
            (if c.cn_prio_flag then [net_event.em_del_fd true c.cn_sock] else [])
      ++ [net_event.closesocket sd])), ?_, ?_⟩
  · simp only [List.append_assoc]
  · intro s
    constructor <;> intro hm <;> split_ifs at hm <;> simp at hm

theorem get_conn_heap_update (st : net_state) (h : Nat → Option conn_t) (sd : Int) :
    get_conn { st with heap := h } sd = get_conn st sd := rfl

/-- The tail of `process_socket` on a registered record starts with a hook: the ready hook
when one is set, the data hook otherwise. -/
theorem dispatch_hooks_first (E : NetEnv) (st : net_state) (sock : Int) (p : Nat) (c : conn_t)
    (hreg : get_conn st sock = some p) (hheap : st.heap p = some c) (hsock : c.cn_sock = sock) :
    ∃ rc st1 evs, dispatch_hooks E st sock c = Except.ok (rc, st1)
      ∧ st1.trace = st.trace
          ++ (if c.cn_ready_func.isSome then net_event.ready_func sock else net_event.func sock)
            :: evs
      ∧ (∀ c1, st1.heap p = some c1 → c1 = c) := by
  unfold dispatch_hooks
  cases hr : c.cn_ready_func with
  | none =>
    refine ⟨0, _, [], rfl, ?_, ?_⟩
    · simp [hsock]
    · intro c1 h1
      simp only [hheap] at h1
      cases h1
      rfl
  | some f =>
    simp only [hsock]
    by_cases h1 : (E.ready_ret sock == -1) = true
    · simp only [h1, if_true]
      obtain ⟨evs, hclose, _⟩ := close_conn_registered
        { st with trace := st.trace ++ [net_event.ready_func sock] } sock p c hreg hheap
      rw [hclose]
      refine ⟨-1, _, evs, rfl, ?_, ?_⟩
      · simp
      · intro c1 hc1
        simp at hc1
    · simp only [h1, Bool.false_eq_true, if_false]
      by_cases h2 : (E.ready_ret sock == 0) = true
      · simp only [h2, if_true]
        refine ⟨0, _, [], rfl, by simp, ?_⟩
        intro c1 hc1
        simp only [hheap] at hc1
        cases hc1
        rfl
      · simp only [h2, Bool.false_eq_true, if_false]
        refine ⟨0, _, [net_event.func sock], rfl, by simp, ?_⟩
        intro c1 hc1
        simp only [hheap] at hc1
        cases hc1
        rfl

/-- C9, as the claim states it, fails: a client connection on socket 5 from the
unprivileged port 2000, not yet authenticated, for which the security library asks for
the reserved-port check. `process_socket` returns 0, the data hook has been invoked, and
the record is still registered. -/
theorem C9_check_port_unprivileged_reaches_hook :
    ((net_run 900
        [net_op.add 5 conn_type.FromClientDIS 0 2000 none 1 false 100 true true] net_start).bind
        (fun st => process_socket ⟨101, fun _ => cs_result.CS_AUTH_CHECK_PORT, fun _ => 1⟩ st 5)).map
        (fun r => (r.1, observe 5 r.2))
      = Except.ok (0, ⟨[0], some 0, some 5, none,
          [net_event.em_add_fd false 5, net_event.func 5]⟩) := by
  decide

/-- C9, amended: for a registered connection whose kind is not a listener or transport
peer and that is not yet authenticated: when the security library reports failure,
`process_socket` returns -1, the connection is closed and neither the ready hook nor the
data hook is invoked; when the library reports success or asks for the reserved-port
check, the connection is kept and the dispatch goes on to the hooks (the ready hook
first when one is set, else the data hook) whether or not the record is tagged
`from_privil`, and the record is marked authenticated on success, and on the
reserved-port answer exactly when it is tagged `from_privil`. -/
theorem C9_authentication_gate (E : NetEnv) (st : net_state) (sock : Int) (p : Nat)
    (c : conn_t)
    (hreg : get_conn st sock = some p) (hheap : st.heap p = some c)
    (hsock : c.cn_sock = sock)
    (hkind : c.cn_active ≠ conn_type.Primary ∧ c.cn_active ≠ conn_type.Secondary
      ∧ c.cn_active ≠ conn_type.TppComm)
    (hunauth : c.authenticated = false) :
    (∀ code, E.CS_server_auth sock = cs_result.other code →
      ∃ st1 evs, process_socket E st sock = Except.ok (-1, st1)
        ∧ get_conn st1 sock = none
        ∧ st1.trace = st.trace ++ evs
        ∧ ∀ s, net_event.ready_func s ∉ evs ∧ net_event.func s ∉ evs)
    ∧ ((E.CS_server_auth sock = cs_result.CS_SUCCESS
          ∨ E.CS_server_auth sock = cs_result.CS_AUTH_CHECK_PORT) →
      ∃ rc st1 evs, process_socket E st sock = Except.ok (rc, st1)
        ∧ st1.trace = st.trace
            ++ (if c.cn_ready_func.isSome then net_event.ready_func sock
                else net_event.func sock) :: evs
        ∧ ∀ c1, st1.heap p = some c1 →
            c1.authenticated
              = (decide (E.CS_server_auth sock = cs_result.CS_SUCCESS) || c.from_privil)) := by
  subst hsock
  obtain ⟨hidx, hslot, h0, h1⟩ := get_conn_some st c.cn_sock p hreg
  obtain ⟨hk1, hk2, hk3⟩ := hkind
  have hneg : ¬ c.cn_sock < 0 := by omega
  have hgate : (c.cn_active != conn_type.Primary && c.cn_active != conn_type.TppComm
      && c.cn_active != conn_type.Secondary && !c.authenticated) = true := by
    simp [hk1, hk2, hk3, hunauth]
  constructor
  · intro code hcs
    unfold process_socket
    simp only [hidx, hslot, hheap, hgate, if_true, engage_authentication, hneg, if_false,
      hcs, beq_self_eq_true]
    obtain ⟨evs, hclose, hev⟩ := close_conn_registered
      { st with heap := Function.update st.heap p (some { c with cn_lasttime := E.now }) }
      c.cn_sock p { c with cn_lasttime := E.now } hreg (by simp)
    rw [hclose]
    refine ⟨_, evs, rfl, ?_, rfl, hev⟩
    unfold get_conn conn_find_actual_index
    simp [h0, h1]
  · intro hcs
    unfold process_socket
    simp only [hidx, hslot, hheap, hgate, if_true, engage_authentication, hneg, if_false]
    have hne : ((0 : Int) == -1) = false := by decide
    have key : ∀ (c2 : conn_t) (b : Bool), c2.cn_sock = c.cn_sock →
        c2.cn_ready_func = c.cn_ready_func → c2.authenticated = b →
        ∃ rc st1 evs,
          dispatch_hooks E { st with heap := Function.update st.heap p (some c2) } c.cn_sock c2
            = Except.ok (rc, st1)
          ∧ st1.trace = st.trace
              ++ (if c.cn_ready_func.isSome then net_event.ready_func c.cn_sock
                  else net_event.func c.cn_sock) :: evs
          ∧ ∀ c1, st1.heap p = some c1 → c1.authenticated = b := by
      intro c2 b hs2 hr2 ha2
      obtain ⟨rc, st1, evs, hd, htr, hh⟩ := dispatch_hooks_first E
        { st with heap := Function.update st.heap p (some c2) } c.cn_sock p c2 hreg (by simp) hs2
      refine ⟨rc, st1, evs, hd, ?_, ?_⟩
      · rw [htr, hr2]
      · intro c1 hc1
        rw [hh c1 hc1]
        exact ha2
    rcases hcs with hcs | hcs
    · simp only [hcs, hne, Bool.false_eq_true, if_false]
      apply key
      · rfl
      · rfl
      · simp [hcs]
    · simp only [hcs, hne, Bool.false_eq_true, if_false]
      by_cases hp : c.from_privil = true
      · simp only [hp, if_true]
        apply key
        · rfl
        · rfl
        · simp [hcs, hp]
      · simp only [hp, Bool.false_eq_true, if_false]
        apply key
        · rfl
        · rfl
        · simp [hcs, hunauth, hp]

/-- C9 at a concrete input: the client of socket 5 on the unprivileged port 2000 is closed
without a hook call when the security library reports failure. -/
theorem C9_authentication_witness :
    ∃ st1 evs,
      process_socket ⟨101, fun _ => cs_result.other 1, fun _ => 1⟩ example_registry 5
        = Except.ok (-1, st1)
      ∧ get_conn st1 5 = none
      ∧ st1.trace = example_registry.trace ++ evs
      ∧ ∀ s, net_event.ready_func s ∉ evs ∧ net_event.func s ∉ evs :=
  (C9_authentication_gate ⟨101, fun _ => cs_result.other 1, fun _ => 1⟩ example_registry 5 0
    example_client (by decide) (by decide) rfl (by decide) rfl).1 1 rfl

/-! ## The registry invariant -/

theorem list_next_mem : ∀ (l : List Nat) (p q : Nat), list_next l p = some q → q ∈ l := by
  intro l
  induction l with
  | nil => intro p q h; simp [list_next] at h
  | cons x r ih =>
    intro p q h
    unfold list_next at h
    by_cases hx : x = p
    · simp only [hx, if_true] at h
      cases r with
      | nil => simp at h
      | cons y t =>
        simp at h
        subst h
        simp
    · simp only [hx, if_false] at h
      exact List.mem_cons_of_mem _ (ih p q h)

theorem list_next_ne : ∀ (l : List Nat) (p q : Nat), l.Nodup → list_next l p = some q → q ≠ p := by
  intro l
  induction l with
  | nil => intro p q _ h; simp [list_next] at h
  | cons x r ih =>
    intro p q hnd h
    unfold list_next at h
    rw [List.nodup_cons] at hnd
    by_cases hx : x = p
    · simp only [hx, if_true] at h
      cases r with
      | nil => simp at h
      | cons y t =>
        simp at h
        subst h
        subst hx
        intro hq
        apply hnd.1
        rw [hq]
        simp
    · simp only [hx, if_false] at h
      exact ih p q hnd.2 h

theorem conn_find_actual_index_some (st : net_state) (sd idx : Int)
    (h : conn_find_actual_index st sd = some idx) :
    idx = sd ∧ ∃ p, st.svr_conn sd = some p := by
  unfold conn_find_actual_index at h
  by_cases hb : 0 ≤ sd ∧ sd < st.conns_array_size
  · simp only [hb, and_self, if_true] at h
    cases hs : st.svr_conn sd with
    | none => simp [hs] at h
    | some q =>
      simp only [hs] at h
      cases h
      exact ⟨rfl, q, rfl⟩
  · simp [hb] at h

theorem registry_ok_start (b : Bool) :
    registry_ok { net_start with net_is_initialized := b } := by
  refine ⟨?_, ?_, ?_, ?_⟩
  · intro sd p h
    simp [net_start] at h
  · simp [net_start]
  · intro p hp
    simp [net_start] at hp
  · intro p c h
    simp [net_start] at h

/-- Rewriting a live record without changing its socket keeps the registry consistent. -/
theorem registry_ok_heap_update (st : net_state) (p : Nat) (c c2 : conn_t)
    (hok : registry_ok st) (hheap : st.heap p = some c) (hs : c2.cn_sock = c.cn_sock) :
    registry_ok { st with heap := Function.update st.heap p (some c2) } := by
  obtain ⟨h1, h2, h3, h4⟩ := hok
  refine ⟨?_, h2, ?_, ?_⟩
  · intro sd q hq
    obtain ⟨a, b, hm, c0, hc0, hs0⟩ := h1 sd q hq
    refine ⟨a, b, hm, ?_⟩
    by_cases hqp : q = p
    · subst hqp
      rw [hheap] at hc0
      cases hc0
      exact ⟨c2, by simp, by rw [hs, hs0]⟩
    · exact ⟨c0, by simp [Function.update, hqp, hc0], hs0⟩
  · intro q hq
    obtain ⟨c0, hc0, hslot⟩ := h3 q hq
    by_cases hqp : q = p
    · subst hqp
      rw [hheap] at hc0
      cases hc0
      exact ⟨c2, by simp, by rw [hs]; exact hslot⟩
    · exact ⟨c0, by simp [Function.update, hqp, hc0], hslot⟩
  · intro q c0 hq
    by_cases hqp : q = p
    · subst hqp
      exact h4 q c hheap
    · simp [Function.update, hqp] at hq
      exact h4 q c0 hq

/-- The registry fields of a state with another record of calls. -/
theorem registry_ok_trace (st : net_state) (t : List net_event) (hok : registry_ok st) :
    registry_ok { st with trace := t } := hok

/-- Closing a socket keeps the registry consistent, never faults, and removes from the
list at most the record registered for that socket. -/
theorem close_conn_ok (st : net_state) (sd : Int) (hok : registry_ok st) :
    ∃ st1, close_conn st sd = Except.ok st1 ∧ registry_ok st1
      ∧ st1.conns_array_size = st.conns_array_size
      ∧ st1.net_is_initialized = st.net_is_initialized
      ∧ st1.last_checked = st.last_checked
      ∧ ((st1.svr_allconns = st.svr_allconns ∧ get_conn st sd = none)
          ∨ ∃ p, get_conn st sd = some p ∧ st1.svr_allconns = st.svr_allconns.erase p) := by
  cases hg : get_conn st sd with
  | none =>
    refine ⟨st, ?_, hok, rfl, rfl, rfl, Or.inl ⟨rfl, rfl⟩⟩
    unfold close_conn
    by_cases hneg : sd < 0
    · simp [hneg]
    · simp only [hneg, if_false]
      unfold get_conn at hg
      cases hi : conn_find_actual_index st sd with
      | none => rfl
      | some idx =>
        simp only [hi] at hg
        obtain ⟨hidx, q, hq⟩ := conn_find_actual_index_some st sd idx hi
        subst hidx
        rw [hq] at hg
        cases hg
  | some p =>
    obtain ⟨h1, h2, h3, h4⟩ := hok
    obtain ⟨hidx, hslot, hb0, hb1⟩ := get_conn_some st sd p hg
    obtain ⟨_, _, hmem, c, hc, hcs⟩ := h1 sd p hslot
    obtain ⟨evs, hclose, _⟩ := close_conn_registered st sd p c hg hc
    refine ⟨_, hclose, ?_, rfl, rfl, rfl, Or.inr ⟨p, rfl, rfl⟩⟩
    refine ⟨?_, ?_, ?_, ?_⟩
    · intro sd2 q hq
      by_cases hsd : sd2 = sd
      · subst hsd
        simp at hq
      · simp only [Function.update, hsd, dite_false] at hq
        obtain ⟨a, b, hm, c0, hc0, hs0⟩ := h1 sd2 q hq
        have hqp : q ≠ p := by
          intro h
          subst h
          rw [hc] at hc0
          cases hc0
          exact hsd (hs0.symm.trans hcs)
        exact ⟨a, b, (List.mem_erase_of_ne hqp).mpr hm, c0,
          by simp [Function.update, hqp, hc0], hs0⟩
    · exact h2.erase p
    · intro q hq
      have hqm : q ∈ st.svr_allconns := List.mem_of_mem_erase hq
      have hqp : q ≠ p := by
        intro h
        subst h
        exact (List.Nodup.not_mem_erase h2) hq
      obtain ⟨c0, hc0, hs0⟩ := h3 q hqm
      have hsd : c0.cn_sock ≠ sd := by
        intro h
        rw [h, hslot] at hs0
        cases hs0
        exact hqp rfl
      exact ⟨c0, by simp [Function.update, hqp, hc0], by simp [Function.update, hsd, hs0]⟩
    · intro q c0 hq
      by_cases hqp : q = p
      · subst hqp
        exact h4 q c hc
      · simp [Function.update, hqp] at hq
        exact h4 q c0 hq

/-- Registering a socket that has no record keeps the registry consistent. -/
theorem add_conn_priority_ok (st : net_state) (sd : Int) (type : conn_type) (addr port : Nat)
    (ready_func : Option Nat) (func : Nat) (priority_flag : Bool) (now : Int)
    (em_ok prio_ok : Bool) (hok : registry_ok st) (hfresh : st.svr_conn sd = none) :
    ∃ r, add_conn_priority st sd type addr port ready_func func priority_flag now em_ok prio_ok
        = Except.ok r ∧ registry_ok r.2 := by
  unfold add_conn_priority
  by_cases hneg : sd < 0
  · simp only [hneg, if_true]
    exact ⟨_, rfl, hok⟩
  simp only [hneg, if_false]
  obtain ⟨h1, h2, h3, h4⟩ := hok
  have hpnone : st.heap st.next_addr = none := by
    cases hh : st.heap st.next_addr with
    | none => rfl
    | some c => exact absurd (h4 _ c hh) (Nat.lt_irrefl _)
  have hpmem : st.next_addr ∉ st.svr_allconns := by
    intro hm
    obtain ⟨c, hc, _⟩ := h3 _ hm
    rw [hpnone] at hc
    cases hc
  have hne : ∀ q c, st.heap q = some c → q ≠ st.next_addr := by
    intro q c hq h
    exact absurd (h ▸ h4 q c hq) (Nat.lt_irrefl _)
  have hst1 : ∀ (conn : conn_t) (t : List net_event), conn.cn_sock = sd →
      registry_ok
        { st with
          conns_array_size :=
            if sd ≥ st.conns_array_size then sd + CONNS_ARRAY_INCREMENT else st.conns_array_size
          heap := Function.update st.heap st.next_addr (some conn)
          next_addr := st.next_addr + 1
          svr_conn := Function.update st.svr_conn sd (some st.next_addr)
          svr_allconns := st.svr_allconns ++ [st.next_addr]
          num_connections := st.num_connections + 1
          trace := t } := by
    intro conn t hcs
    refine ⟨?_, ?_, ?_, ?_⟩
    · intro sd2 q hq
      by_cases hsd : sd2 = sd
      · subst hsd
        simp only [Function.update_same, Option.some.injEq] at hq
        subst hq
        refine ⟨by omega, ?_, by simp, conn, by simp, hcs⟩
        simp only [CONNS_ARRAY_INCREMENT]
        split <;> omega
      · simp only [Function.update, hsd, dite_false] at hq
        obtain ⟨a, b, hm, c0, hc0, hs0⟩ := h1 sd2 q hq
        refine ⟨a, ?_, by simp [hm], c0, ?_, hs0⟩
        · simp only [CONNS_ARRAY_INCREMENT]
          split <;> omega
        · simp [Function.update, hne q c0 hc0, hc0]
    · rw [List.nodup_append]
      refine ⟨h2, by simp, ?_⟩
      intro a ha hb
      simp at hb
      subst hb
      exact hpmem ha
    · intro q hq
      simp only [List.mem_append, List.mem_singleton] at hq
      rcases hq with hq | hq
      · obtain ⟨c0, hc0, hs0⟩ := h3 q hq
        have hsd : c0.cn_sock ≠ sd := by
          intro h
          rw [h, hfresh] at hs0
          cases hs0
        exact ⟨c0, by simp [Function.update, hne q c0 hc0, hc0],
          by simp [Function.update, hsd, hs0]⟩
      · subst hq
        refine ⟨conn, by simp, ?_⟩
        rw [hcs]
        simp
    · intro q c0 hq
      by_cases hqp : q = st.next_addr
      · subst hqp
        exact Nat.lt_succ_self _
      · simp only [Function.update, hqp, dite_false] at hq
        exact Nat.lt_succ_of_lt (h4 q c0 hq)
  by_cases hem : em_ok = true
  · simp only [hem, Bool.not_true, Bool.false_eq_true, if_false]
    by_cases hpf : priority_flag = true
    · simp only [hpf, if_true]
      have hst2 := hst1
        { cn_sock := sd, cn_active := type, cn_addr := addr, cn_port := port % 65536,
          cn_lasttime := now, cn_ready_func := ready_func, cn_func := func, cn_oncl := none,
          authenticated := false, from_privil := decide (port < IPPORT_RESERVED),
          notimeout := false, cn_prio_flag := true }
        (st.trace ++ [net_event.em_add_fd false sd] ++ [net_event.em_add_fd true sd]) rfl
      simp only [Function.update_idem] at hst2 ⊢
      by_cases hpo : prio_ok = true
      · simp only [hpo, Bool.not_true, Bool.false_eq_true, if_false]
        exact ⟨_, rfl, hst2⟩
      · simp only [hpo, Bool.not_false, if_true]
        obtain ⟨st3, hc3, hok3, _⟩ := close_conn_ok _ sd hst2
        rw [hc3]
        exact ⟨_, rfl, hok3⟩
    · simp only [hpf, Bool.false_eq_true, if_false]
      refine ⟨_, rfl, ?_⟩
      apply hst1
      rfl
  · simp only [hem, Bool.not_false, if_true]
    have hst0 := hst1
      { cn_sock := sd, cn_active := type, cn_addr := addr, cn_port := port % 65536,
        cn_lasttime := now, cn_ready_func := ready_func, cn_func := func, cn_oncl := none,
        authenticated := false, from_privil := decide (port < IPPORT_RESERVED),
        notimeout := false, cn_prio_flag := false }
      (st.trace ++ [net_event.em_add_fd false sd]) rfl
    obtain ⟨st3, hc3, hok3, _⟩ := close_conn_ok _ sd hst0
    rw [hc3]
    exact ⟨_, rfl, hok3⟩

/-- After closing the socket of the linked record `p`, the saved successor is still
linked. -/
theorem next_after_close (st st1 : net_state) (p : Nat) (c : conn_t) (hok : registry_ok st)
    (hp : p ∈ st.svr_allconns) (hc : st.heap p = some c)
    (hl : (st1.svr_allconns = st.svr_allconns ∧ get_conn st c.cn_sock = none)
      ∨ ∃ q, get_conn st c.cn_sock = some q ∧ st1.svr_allconns = st.svr_allconns.erase q) :
    ∀ q, list_next st.svr_allconns p = some q → q ∈ st1.svr_allconns := by
  obtain ⟨h1, h2, h3, _⟩ := hok
  obtain ⟨c0, hc0, hslot⟩ := h3 p hp
  rw [hc] at hc0
  cases hc0
  obtain ⟨hb0, hb1, _, _⟩ := h1 _ p hslot
  have hg : get_conn st c.cn_sock = some p := get_conn_of_slot st _ p hslot hb0 hb1
  intro q hq
  rcases hl with ⟨_, hnone⟩ | ⟨r, hr, hlist⟩
  · rw [hg] at hnone
    cases hnone
  · rw [hg] at hr
    cases hr
    rw [hlist]
    exact (List.mem_erase_of_ne (list_next_ne _ p q h2 hq)).mpr (list_next_mem _ p q hq)

theorem net_close_walk_ok (but : Int) :
    ∀ (fuel : Nat) (cp : Option Nat) (st : net_state), registry_ok st →
      (∀ p, cp = some p → p ∈ st.svr_allconns) →
      ∃ st1, net_close_walk fuel cp but st = Except.ok st1 ∧ registry_ok st1 := by
  intro fuel
  induction fuel with
  | zero => intro cp st hok _; exact ⟨st, by simp [net_close_walk], hok⟩
  | succ n ih =>
    intro cp st hok hcp
    cases cp with
    | none => exact ⟨st, by simp [net_close_walk], hok⟩
    | some p =>
      have hp := hcp p rfl
      obtain ⟨c, hc, hslot⟩ := hok.2.2.1 p hp
      obtain ⟨hb0, hb1, _, _⟩ := hok.1 _ p hslot
      unfold net_close_walk
      simp only [hc]
      by_cases hbut : (c.cn_sock != but) = true
      · have hrange : ¬ (c.cn_sock < 0 ∨ c.cn_sock ≥ st.conns_array_size) := by omega
        simp only [hbut, if_true, hrange, if_false, hslot, hc]
        have hok1 := registry_ok_heap_update st p c { c with cn_oncl := none } hok hc rfl
        obtain ⟨st2, hclose, hok2, _, _, _, hl⟩ := close_conn_ok _ c.cn_sock hok1
        rw [hclose]
        simp only
        apply ih
        · exact registry_ok_trace st2 _ hok2
        · intro q hq
          have := next_after_close
            { st with heap := Function.update st.heap p (some { c with cn_oncl := none }) }
            st2 p { c with cn_oncl := none } hok1 hp (by simp) hl q hq
          exact this
      · simp only [hbut, Bool.false_eq_true, if_false]
        apply ih _ _ hok
        intro q hq
        exact list_next_mem _ p q hq

theorem idle_walk_ok (max_idle now : Int) :
    ∀ (fuel : Nat) (cp : Option Nat) (st : net_state), registry_ok st →
      (∀ p, cp = some p → p ∈ st.svr_allconns) →
      ∃ st1, idle_walk max_idle now fuel cp st = Except.ok st1 ∧ registry_ok st1 := by
  intro fuel
  induction fuel with
  | zero => intro cp st hok _; exact ⟨st, by simp [idle_walk], hok⟩
  | succ n ih =>
    intro cp st hok hcp
    cases cp with
    | none => exact ⟨st, by simp [idle_walk], hok⟩
    | some p =>
      have hp := hcp p rfl
      obtain ⟨c, hc, hslot⟩ := hok.2.2.1 p hp
      have hkeep : ∃ st1, idle_walk max_idle now n (list_next st.svr_allconns p) st
          = Except.ok st1 ∧ registry_ok st1 :=
        ih _ _ hok (fun q hq => list_next_mem _ p q hq)
      unfold idle_walk
      simp only [hc]
      split_ifs
      · exact hkeep
      · exact hkeep
      · exact hkeep
      · obtain ⟨st2, hclose, hok2, _, _, _, hl⟩ := close_conn_ok st c.cn_sock hok
        rw [hclose]
        simp only
        apply ih _ _ hok2
        intro q hq
        exact next_after_close st st2 p c hok hp hc hl q hq

theorem head_mem (l : List Nat) : ∀ p, l.head? = some p → p ∈ l := by
  intro p h
  cases l with
  | nil => simp at h
  | cons x r =>
    simp at h
    subst h
    simp

/-- Every call keeps the registry consistent and does not fault, provided an `add` is
made for a socket without a record. -/
theorem net_step_ok (max_idle : Int) (st : net_state) (op : net_op) (hok : registry_ok st)
    (hfresh : ∀ sd type addr port rf f pf now e1 e2,
      op = net_op.add sd type addr port rf f pf now e1 e2 → st.svr_conn sd = none) :
    ∃ st1, net_step max_idle st op = Except.ok st1 ∧ registry_ok st1 := by
  cases op with
  | add sd type addr port rf f pf now e1 e2 =>
    obtain ⟨r, hr, hokr⟩ := add_conn_priority_ok st sd type addr port rf f pf now e1 e2 hok
      (hfresh sd type addr port rf f pf now e1 e2 rfl)
    exact ⟨r.2, by simp [net_step, hr], hokr⟩
  | close sd =>
    obtain ⟨st1, h1, hok1, _⟩ := close_conn_ok st sd hok
    exact ⟨st1, h1, hok1⟩
  | net_close but =>
    simp only [net_step, net_close]
    by_cases hi : st.net_is_initialized = true
    · simp only [hi, Bool.not_true, Bool.false_eq_true, if_false]
      obtain ⟨st1, h1, hok1⟩ := net_close_walk_ok but st.svr_allconns.length
        st.svr_allconns.head? st hok (head_mem _)
      rw [h1]
      simp only
      split_ifs
      · exact ⟨_, rfl, hok1⟩
      · exact ⟨_, rfl, hok1⟩
    · simp only [hi, Bool.not_false, if_true]
      exact ⟨st, rfl, hok⟩
  | idlecheck now =>
    simp only [net_step, connection_idlecheck]
    split_ifs
    · exact ⟨st, rfl, hok⟩
    · obtain ⟨st1, h1, hok1⟩ := idle_walk_ok max_idle now st.svr_allconns.length
        st.svr_allconns.head? st hok (head_mem _)
      rw [h1]
      exact ⟨_, rfl, hok1⟩

theorem net_run_ok (max_idle : Int) :
    ∀ (ops : List net_op) (st : net_state), registry_ok st → fresh_adds max_idle ops st = true →
      ∃ st1, net_run max_idle ops st = Except.ok st1 ∧ registry_ok st1 := by
  intro ops
  induction ops with
  | nil => intro st hok _; exact ⟨st, rfl, hok⟩
  | cons op rest ih =>
    intro st hok hf
    unfold fresh_adds at hf
    rw [Bool.and_eq_true] at hf
    obtain ⟨hf1, hf2⟩ := hf
    obtain ⟨st1, h1, hok1⟩ := net_step_ok max_idle st op hok (by
      intro sd type addr port rf f pf now e1 e2 hop
      subst hop
      simpa using hf1)
    rw [h1] at hf2
    unfold net_run
    rw [h1]
    exact ih st1 hok1 hf2

/-- C10, as the claim states it, fails: two `add_conn` calls for socket 5 with no
`close_conn` in between. Both records (addresses 0 and 1) are linked in the list and
both carry socket 5, while `get_conn (5)` returns the second: the first record is live,
is not what `get_conn` returns for its socket, and socket 5 has two records. -/
theorem C10_double_add_leaves_stale_record :
    (net_run 900
        [net_op.add 5 conn_type.FromClientDIS 0 2000 none 1 false 100 true true,
         net_op.add 5 conn_type.FromClientDIS 0 2001 none 1 false 101 true true]
        net_start).map (observe 5)
      = Except.ok ⟨[0, 1], some 1, some 5, some 5,
          [net_event.em_add_fd false 5, net_event.em_add_fd false 5]⟩ := by
  decide

/-- C10, amended: after every finite sequence of `add_conn` / `add_conn_priority`,
`close_conn`, `net_close` and `connection_idlecheck` calls from the start state in which
a socket is only added while it has no registered record, the run completes and, for
every record `p` linked in the list, `get_conn` on its socket returns `p` and `p` is
linked exactly once; every record `get_conn` returns is linked and carries the socket it
is registered under; and no two linked records carry the same socket. -/
theorem C10_registry_consistent (max_idle : Int) (ops : List net_op) (b : Bool)
    (hfresh : fresh_adds max_idle ops { net_start with net_is_initialized := b } = true) :
    ∃ st, net_run max_idle ops { net_start with net_is_initialized := b } = Except.ok st
      ∧ (∀ p ∈ st.svr_allconns, ∃ c, st.heap p = some c ∧ get_conn st c.cn_sock = some p
          ∧ st.svr_allconns.count p = 1)
      ∧ (∀ sd p, get_conn st sd = some p →
          p ∈ st.svr_allconns ∧ ∃ c, st.heap p = some c ∧ c.cn_sock = sd)
      ∧ (∀ p q c d, p ∈ st.svr_allconns → q ∈ st.svr_allconns → st.heap p = some c →
          st.heap q = some d → c.cn_sock = d.cn_sock → p = q) := by
  obtain ⟨st, hrun, h1, h2, h3, _⟩ := net_run_ok max_idle ops _ (registry_ok_start b) hfresh
  refine ⟨st, hrun, ?_, ?_, ?_⟩
  · intro p hp
    obtain ⟨c, hc, hslot⟩ := h3 p hp
    obtain ⟨hb0, hb1, _, _⟩ := h1 _ p hslot
    exact ⟨c, hc, get_conn_of_slot st _ p hslot hb0 hb1, List.count_eq_one_of_mem h2 hp⟩
  · intro sd p hg
    obtain ⟨_, hslot, _, _⟩ := get_conn_some st sd p hg
    obtain ⟨_, _, hm, c, hc, hs⟩ := h1 sd p hslot
    exact ⟨hm, c, hc, hs⟩
  · intro p q c d hp hq hc hd hcd
    obtain ⟨c0, hc0, hsp⟩ := h3 p hp
    obtain ⟨d0, hd0, hsq⟩ := h3 q hq
    rw [hc] at hc0
    rw [hd] at hd0
    cases hc0
    cases hd0
    rw [hcd, hsq] at hsp
    cases hsp
    rfl

/-- C10 at a concrete input: a listener on socket 3, two clients on the sockets 5 and 6
(the second a priority connection), an idle sweep that closes socket 5, the close of socket 6, its re-use for a
new client, and a `net_close` that spares the listener. -/
theorem C10_registry_witness :
    ∃ st, net_run 900
        [net_op.add 3 conn_type.Primary 0 0 none 1 false 100 true true,
         net_op.add 5 conn_type.FromClientDIS 0 2000 (some 2) 3 false 101 true true,
         net_op.add 6 conn_type.FromClientDIS 0 1000 (some 2) 3 true 102 true true,
         net_op.idlecheck 1002,
         net_op.close 6,
         net_op.add 6 conn_type.FromClientDIS 0 2002 (some 2) 3 false 1200 true true,
         net_op.net_close 3]
        { net_start with net_is_initialized := true } = Except.ok st
      ∧ (∀ p ∈ st.svr_allconns, ∃ c, st.heap p = some c ∧ get_conn st c.cn_sock = some p
          ∧ st.svr_allconns.count p = 1)
      ∧ (∀ sd p, get_conn st sd = some p →
          p ∈ st.svr_allconns ∧ ∃ c, st.heap p = some c ∧ c.cn_sock = sd)
      ∧ (∀ p q c d, p ∈ st.svr_allconns → q ∈ st.svr_allconns → st.heap p = some c →
          st.heap q = some d → c.cn_sock = d.cn_sock → p = q) :=
  C10_registry_consistent 900 _ true (by decide)

/-! ## Stability of the resource merge -/

theorem set_value_keys : ∀ (l : List attrl) (i : Nat) (v : String),
    (set_value l i v).map attr_key = l.map attr_key := by
  intro l
  induction l with
  | nil => intro i v; rfl
  | cons x t ih =>
    intro i v
    cases i with
    | zero => simp [set_value, attr_key]
    | succ n => simp [set_value, ih n v]

theorem set_value_append : ∀ (l1 l2 : List attrl) (i : Nat) (v : String), i < l1.length →
    set_value (l1 ++ l2) i v = set_value l1 i v ++ l2 := by
  intro l1
  induction l1 with
  | nil => intro l2 i v h; simp at h
  | cons x t ih =>
    intro l2 i v h
    cases i with
    | zero => simp [set_value]
    | succ n =>
      simp only [List.cons_append, set_value, List.cons.injEq, true_and]
      exact ih l2 n v (by simpa using h)

theorem resc_holder_mem : ∀ (a : List attrl) (k i : Nat),
    i ∈ resc_holder a k ↔ ∃ j x, a.get? j = some x ∧ x.name = ATTR_rescassn ∧ i = k + j := by
  intro a
  induction a with
  | nil => intro k i; simp [resc_holder]
  | cons y t ih =>
    intro k i
    unfold resc_holder
    by_cases hy : y.name = ATTR_rescassn
    · simp only [hy, beq_self_eq_true, if_true, List.mem_cons, ih]
      constructor
      · rintro (h | ⟨j, x, hj, hx, hi⟩)
        · exact ⟨0, y, rfl, hy, by omega⟩
        · exact ⟨j + 1, x, by simpa using hj, hx, by omega⟩
      · rintro ⟨j, x, hj, hx, hi⟩
        cases j with
        | zero => left; omega
        | succ n => right; exact ⟨n, x, by simpa using hj, hx, by omega⟩
    · simp only [beq_iff_eq, hy, if_false, ih]
      constructor
      · rintro ⟨j, x, hj, hx, hi⟩
        exact ⟨j + 1, x, by simpa using hj, hx, by omega⟩
      · rintro ⟨j, x, hj, hx, hi⟩
        cases j with
        | zero =>
          simp at hj
          subst hj
          exact absurd hx hy
        | succ n => exact ⟨n, x, by simpa using hj, hx, by omega⟩

theorem find_holder_some (attrs : List attrl) (r : String) :
    ∀ (holder : List Nat) (i : Nat), find_holder attrs r holder = some i →
      i ∈ holder ∧ ∃ x, attrs.get? i = some x ∧ x.resource = r := by
  intro holder
  induction holder with
  | nil => intro i h; simp [find_holder] at h
  | cons j t ih =>
    intro i h
    unfold find_holder at h
    by_cases hj : (attrs.get? j).any (fun cur => cur.resource == r) = true
    · rw [if_pos hj] at h
      cases h
      refine ⟨List.mem_cons_self _ _, ?_⟩
      cases hx : attrs.get? j with
      | none =>
        rw [hx] at hj
        cases hj
      | some x =>
        rw [hx] at hj
        exact ⟨x, rfl, by simpa using hj⟩
    · rw [if_neg hj] at h
      obtain ⟨hm, hx⟩ := ih i h
      exact ⟨List.mem_cons_of_mem _ hm, hx⟩

theorem find_holder_none (attrs : List attrl) (r : String) :
    ∀ (holder : List Nat), find_holder attrs r holder = none →
      ∀ i ∈ holder, ∀ x, attrs.get? i = some x → x.resource ≠ r := by
  intro holder
  induction holder with
  | nil => intro _ i hi; simp at hi
  | cons j t ih =>
    intro h i hi x hx
    unfold find_holder at h
    by_cases hj : (attrs.get? j).any (fun cur => cur.resource == r) = true
    · rw [if_pos hj] at h
      cases h
    · rw [if_neg hj] at h
      rcases List.mem_cons.mp hi with hij | hit
      · subst hij
        intro hr
        apply hj
        rw [hx]
        simpa using hr
      · exact ih h i hit x hx

theorem set_value_get_ne : ∀ (l : List attrl) (i j : Nat) (v : String), j ≠ i →
    (set_value l i v).get? j = l.get? j := by
  intro l
  induction l with
  | nil => intro i j v _; rfl
  | cons x t ih =>
    intro i j v h
    cases i with
    | zero =>
      cases j with
      | zero => exact absurd rfl h
      | succ m => simp [set_value]
    | succ n =>
      cases j with
      | zero => simp [set_value]
      | succ m =>
        simp only [set_value, List.get?_cons_succ]
        exact ih n m v (by omega)

theorem keys_get (a a1 : List attrl) (h : a1.map attr_key = a.map attr_key) (j : Nat) :
    (a1.get? j).map attr_key = (a.get? j).map attr_key := by
  have := congrArg (fun l => l.get? j) h
  simpa using this

theorem appended_from_false_of_match (P : Platform) (a : List attrl) (e y : attrl)
    (hy : y ∈ a) (hn : y.name = ATTR_rescassn) (hr : y.resource = e.resource) :
    appended_from P a e = false := by
  unfold appended_from
  have : a.any (fun x => x.name == ATTR_rescassn && x.resource == e.resource) = true := by
    rw [List.any_eq_true]
    exact ⟨y, hy, by simp [hn, hr]⟩
  simp [this]

/-- The loop of `aggr_resc_ct` over the second list, started on a first list that is not
empty: it completes; the entries of the first list keep their place, name and resource,
and those that are not `resources_assigned` entries keep their value; the entries
appended are exactly those of `appended_from`, in the order of the second list. -/
theorem resc_loop_stable (P : Platform) (a : List attrl) (ha : a ≠ []) :
    ∀ (b a1 app : List attrl), a1.map attr_key = a.map attr_key →
      ∃ a2, resc_loop P (resc_holder a 0) b (a1 ++ app)
          = Except.ok (a2 ++ (app ++ b.filter (appended_from P a)))
        ∧ a2.map attr_key = a.map attr_key
        ∧ ∀ j, (∀ x, a.get? j = some x → x.name ≠ ATTR_rescassn) → a2.get? j = a1.get? j := by
  intro b
  induction b with
  | nil =>
    intro a1 app h
    exact ⟨a1, by simp [resc_loop], h, fun _ _ => rfl⟩
  | cons e rest ih =>
    intro a1 app h
    have hlen : a1.length = a.length := by
      have := congrArg List.length h
      simpa using this
    have skip : appended_from P a e = false →
        ∃ a2, resc_loop P (resc_holder a 0) rest (a1 ++ app)
            = Except.ok (a2 ++ (app ++ (e :: rest).filter (appended_from P a)))
          ∧ a2.map attr_key = a.map attr_key
          ∧ ∀ j, (∀ x, a.get? j = some x → x.name ≠ ATTR_rescassn) →
              a2.get? j = a1.get? j := by
      intro hf
      rw [List.filter_cons_of_neg (by simp [hf])]
      exact ih a1 app h
    unfold resc_loop
    by_cases hn : e.name = ATTR_rescassn
    · simp only [hn, beq_self_eq_true, if_true]
      unfold accumulate_values
      by_cases hv : (e.resource.isEmpty || e.value.isEmpty) = true
      · simp only [hv, if_true]
        apply skip
        unfold appended_from
        rcases Bool.or_eq_true _ _ |>.mp hv with h1 | h1 <;> simp [h1]
      · simp only [hv, Bool.false_eq_true, if_false]
        by_cases hs : ((assess_type P e.value.toList).1 == vtype.STRING) = true
        · simp only [hs, if_true]
          apply skip
          unfold appended_from
          have : (assess_type P e.value.data).1 = vtype.STRING := by
            simpa [String.toList] using hs
          simp [this]
        · simp only [hs, Bool.false_eq_true, if_false]
          cases hf : find_holder (a1 ++ app) e.resource (resc_holder a 0) with
          | none =>
            have hne : (a1 ++ app).isEmpty = false := by
              cases a1 with
              | nil =>
                simp at hlen
                exact absurd (List.length_eq_zero.mp hlen.symm) ha
              | cons x t => rfl
            simp only [hne, Bool.false_eq_true, if_false]
            have happ : appended_from P a e = true := by
              unfold appended_from
              have hany : a.any (fun x => x.name == ATTR_rescassn && x.resource == e.resource)
                  = false := by
                rw [Bool.eq_false_iff]
                intro hany
                rw [List.any_eq_true] at hany
                obtain ⟨y, hy, hyp⟩ := hany
                simp only [Bool.and_eq_true, beq_iff_eq] at hyp
                obtain ⟨j, hj⟩ := List.get?_of_mem hy
                have hjm : j ∈ resc_holder a 0 :=
                  (resc_holder_mem a 0 j).mpr ⟨j, y, hj, hyp.1, by omega⟩
                have hjlt : j < a1.length := by
                  rw [hlen]
                  exact (List.get?_eq_some.mp hj).1
                obtain ⟨z, hz⟩ : ∃ z, a1.get? j = some z :=
                  ⟨a1.get ⟨j, hjlt⟩, List.get?_eq_get hjlt⟩
                have hk := keys_get a a1 h j
                rw [hz, hj] at hk
                simp only [Option.map_some', Option.some.injEq, attr_key, Prod.mk.injEq] at hk
                have hz2 : (a1 ++ app).get? j = some z := by
                  rw [List.get?_eq_getElem?, List.getElem?_append_left hjlt,
                    ← List.get?_eq_getElem?]
                  exact hz
                exact find_holder_none _ _ _ hf j hjm z hz2 (hk.2.trans hyp.2)
              have hv1 : e.resource.isEmpty = false ∧ e.value.isEmpty = false := by
                simpa using hv
              have hs1 : ¬ (assess_type P e.value.data).1 = vtype.STRING := by
                simpa [String.toList] using hs
              simp [hn, hv1.1, hv1.2, hs1, hany]
            rw [List.filter_cons_of_pos happ]
            obtain ⟨a2, h2, hk2, hu2⟩ := ih a1 (app ++ [e]) h
            refine ⟨a2, ?_, hk2, hu2⟩
            simp only [List.append_assoc] at h2 ⊢
            simpa using h2
          | some i =>
            obtain ⟨him, x, hx, hxr⟩ := find_holder_some _ _ _ i hf
            obtain ⟨j, y, hj, hyn, hij⟩ := (resc_holder_mem a 0 i).mp him
            have hij2 : i = j := by omega
            subst hij2
            have hilt : i < a1.length := by
              rw [hlen]
              exact (List.get?_eq_some.mp hj).1
            rw [List.get?_eq_getElem?, List.getElem?_append_left hilt,
              ← List.get?_eq_getElem?] at hx
            have hk := keys_get a a1 h i
            rw [hx, hj] at hk
            simp only [Option.map_some', Option.some.injEq, attr_key, Prod.mk.injEq] at hk
            have hfalse : appended_from P a e = false :=
              appended_from_false_of_match P a e y (List.get?_mem hj) hyn (hk.2.symm.trans hxr)
            rw [List.filter_cons_of_neg (by simp [hfalse])]
            simp only
            rw [set_value_append a1 app i _ hilt]
            obtain ⟨a2, h2, hk2, hu2⟩ := ih (set_value a1 i _) app
              ((set_value_keys a1 i _).trans h)
            refine ⟨a2, h2, hk2, ?_⟩
            intro j2 hj2
            rw [hu2 j2 hj2]
            apply set_value_get_ne
            intro hji
            subst hji
            exact hj2 y hj hyn
    · simp only [beq_iff_eq, hn, if_false]
      apply skip
      unfold appended_from
      simp [hn]

/-- The resource merge is stable on a first list that is not empty: `aggr_resc_ct (a, b)`
completes with the entries of `a` in their place, under their names and resources (those
that are not `resources_assigned` entries unchanged), followed by one copy of each entry
of `b` that `appended_from` selects, in the order of `b`. -/
theorem aggr_resc_ct_stable (P : Platform) (a b : List attrl) (ha : a ≠ []) :
    ∃ a2, aggr_resc_ct P a b = Except.ok (a2 ++ b.filter (appended_from P a))
      ∧ a2.map attr_key = a.map attr_key
      ∧ ∀ j, (∀ x, a.get? j = some x → x.name ≠ ATTR_rescassn) → a2.get? j = a.get? j := by
  obtain ⟨a2, h2, hk, hu⟩ := resc_loop_stable P a ha b a [] rfl
  refine ⟨a2, ?_, hk, hu⟩
  unfold aggr_resc_ct
  simpa using h2

/-! ## The job-count merge on other attribute orders, and the decoder on unknown names -/

/-- C15: `a` lists `state_count` before `total_jobs` (values "Queued:3 Running:5" and
"8"), `b` carries `total_jobs` "7" and a `state_count`. The first loop stops at
`total_jobs`, so `encode_states` frees that value and stores the encoded counts there,
and the total 15 is then printed through the freed pointer: the merge does not leave
"15" in `total_jobs`. -/
theorem C15_count_before_total_writes_freed_buffer :
    aggr_job_ct
        [⟨ATTR_count, "", "Queued:3 Running:5"⟩, ⟨ATTR_total, "", "8"⟩]
        [⟨ATTR_total, "", "7"⟩, ⟨ATTR_count, "", "Queued:1 Held:2 Running:4"⟩]
      = Except.error Fault.use_after_free
    ∧ (scan_attribs [⟨ATTR_count, "", "Queued:3 Running:5"⟩, ⟨ATTR_total, "", "8"⟩] 0 0
        ⟨zero_counts, 0, none, none⟩).cursor = some 1 := by
  decide

/-- C17: "Foo:3 Queued:4". After the unknown name `Foo` the scan stops on the blank
without stepping over it, the next name is read as " Queued", and the token is dropped:
the decoded vector is all zero, not Queued = 4. The same list without the unknown token
decodes with Queued = 4. -/
theorem C17_known_token_after_unknown_is_dropped :
    decode_states "Foo:3 Queued:4".toList zero_counts = [0, 0, 0, 0, 0, 0, 0]
    ∧ decode_states "Queued:4".toList zero_counts = [0, 4, 0, 0, 0, 0, 0] := by
  decide

/-- C18: an entry without attributes merged with an entry `x` that carries a total, state
counts and `resources_assigned.ncpus=4`: the job-count merge writes nothing into the
empty entry and the resource merge dereferences `NULL` on the append, so the merge does
not complete. -/
theorem C18_merge_into_empty_entry_faults (P : Platform) :
    aggregate_svr P [⟨"svr", [], ""⟩]
        [⟨"svr", [⟨ATTR_total, "", "8"⟩, ⟨ATTR_count, "", "Queued:3 Running:5"⟩,
          ⟨ATTR_rescassn, "ncpus", "4"⟩], ""⟩]
      = Except.error Fault.null_deref
    ∧ aggr_job_ct []
        [⟨ATTR_total, "", "8"⟩, ⟨ATTR_count, "", "Queued:3 Running:5"⟩,
          ⟨ATTR_rescassn, "ncpus", "4"⟩]
      = Except.ok [] := by
  constructor
  · with_unfolding_all rfl
  · decide

/-- C20: with a table of zero endpoints both entry points reach `random_srv_conn`, which
takes `rand_num () % get_num_servers ()` with a server count of 0. -/
theorem C20_empty_table_takes_remainder_by_zero (W : Wire) (P : Platform)
    (cmd : batch_request_type) (parent_object : mgr_obj) :
    PBSD_status_random W (some []) cmd = Except.error Fault.div_by_zero
    ∧ (W.init_thread_context = 0 →
        PBSD_status_aggregate W P (some []) cmd parent_object
          = Except.error Fault.div_by_zero) := by
  constructor
  · rfl
  · intro h
    simp [PBSD_status_aggregate, h, random_srv_conn]

/-! ## The random pick of a server -/

theorem get_available_conn_eq : ∀ (table : List svr_conn_t),
    get_available_conn table
      = match table.find? (fun e => e.state == svr_conn_state.SVR_CONN_STATE_CONNECTED) with
        | some f => f.sd
        | none => -1 := by
  intro table
  induction table with
  | nil => rfl
  | cons e rest ih =>
    unfold get_available_conn
    by_cases hc : (e.state == svr_conn_state.SVR_CONN_STATE_CONNECTED) = true
    · simp [hc, List.find?]
    · simp only [hc, Bool.false_eq_true, if_false, ih, List.find?]

/-- C19: for a table with at least one endpoint, whose Connected endpoints carry a socket
other than -1, and every draw `r`: `random_srv_conn` returns the socket of the endpoint
at position `r mod n` when that endpoint is Connected, otherwise the socket of the first
Connected endpoint of the table, or -1 when there is none; the result is -1 if and only
if no endpoint is Connected, and any other result is the socket of a Connected
endpoint. -/
theorem C19_random_srv_conn (r : Nat) (table : List svr_conn_t) (hne : table ≠ [])
    (hvalid : ∀ e ∈ table, e.state = svr_conn_state.SVR_CONN_STATE_CONNECTED → e.sd ≠ -1) :
    ∃ c, random_srv_conn r table = Except.ok c
      ∧ (∀ e, table.get? (r % table.length) = some e →
          e.state = svr_conn_state.SVR_CONN_STATE_CONNECTED → c = e.sd)
      ∧ (∀ e, table.get? (r % table.length) = some e →
          e.state ≠ svr_conn_state.SVR_CONN_STATE_CONNECTED →
          c = match table.find? (fun e => e.state == svr_conn_state.SVR_CONN_STATE_CONNECTED)
              with
              | some f => f.sd
              | none => -1)
      ∧ (c = -1 ↔ ∀ e ∈ table, e.state ≠ svr_conn_state.SVR_CONN_STATE_CONNECTED)
      ∧ (c ≠ -1 → ∃ e ∈ table, e.state = svr_conn_state.SVR_CONN_STATE_CONNECTED ∧ e.sd = c) := by
  have hlen : table.length ≠ 0 := fun h => hne (List.length_eq_zero.mp h)
  have hlt : r % table.length < table.length := Nat.mod_lt _ (Nat.pos_of_ne_zero hlen)
  obtain ⟨e0, he0⟩ : ∃ e0, table.get? (r % table.length) = some e0 :=
    ⟨table.get ⟨_, hlt⟩, List.get?_eq_get hlt⟩
  have hmem0 : e0 ∈ table := List.get?_mem he0
  have hfind : ∀ c, c = (match table.find?
        (fun e => e.state == svr_conn_state.SVR_CONN_STATE_CONNECTED) with
        | some f => f.sd
        | none => -1) →
      (c = -1 ↔ ∀ e ∈ table, e.state ≠ svr_conn_state.SVR_CONN_STATE_CONNECTED)
      ∧ (c ≠ -1 → ∃ e ∈ table, e.state = svr_conn_state.SVR_CONN_STATE_CONNECTED ∧ e.sd = c) := by
    intro c hc
    cases hf : table.find? (fun e => e.state == svr_conn_state.SVR_CONN_STATE_CONNECTED) with
    | none =>
      rw [hf] at hc
      simp only at hc
      rw [List.find?_eq_none] at hf
      refine ⟨⟨fun _ e he => by simpa using hf e he, fun _ => hc⟩, fun h => absurd hc h⟩
    | some f =>
      rw [hf] at hc
      simp only at hc
      have hfm : f ∈ table := List.mem_of_find?_eq_some hf
      have hfc : f.state = svr_conn_state.SVR_CONN_STATE_CONNECTED := by
        simpa using List.find?_some hf
      subst hc
      refine ⟨⟨fun h => absurd h (hvalid f hfm hfc), fun h => absurd hfc (h f hfm)⟩,
        fun _ => ⟨f, hfm, hfc, rfl⟩⟩
  unfold random_srv_conn
  simp only [hlen, if_false, he0]
  by_cases hc : e0.state = svr_conn_state.SVR_CONN_STATE_CONNECTED
  · simp only [hc, beq_self_eq_true, if_true]
    refine ⟨e0.sd, rfl, ?_, ?_, ?_, ?_⟩
    · intro e he _
      cases he
      rfl
    · intro e he hn
      cases he
      exact absurd hc hn
    · exact ⟨fun h => absurd h (hvalid e0 hmem0 hc), fun h => absurd hc (h e0 hmem0)⟩
    · intro _
      exact ⟨e0, hmem0, hc, rfl⟩
  · simp only [beq_iff_eq, hc, if_false]
    obtain ⟨h1, h2⟩ := hfind _ (get_available_conn_eq table)
    refine ⟨_, rfl, ?_, ?_, h1, h2⟩
    · intro e he hce
      cases he
      exact absurd hce hc
    · intro e _ _
      exact get_available_conn_eq table

/-- C19 at a concrete input: on the table of scenario S3 the draw 4 picks endpoint 1,
which is down, and the socket 10 of endpoint 0 is returned. -/
theorem C19_random_srv_conn_witness :
    ∃ c, random_srv_conn 4 example_table = Except.ok c
      ∧ (∀ e, example_table.get? (4 % example_table.length) = some e →
          e.state = svr_conn_state.SVR_CONN_STATE_CONNECTED → c = e.sd)
      ∧ (∀ e, example_table.get? (4 % example_table.length) = some e →
          e.state ≠ svr_conn_state.SVR_CONN_STATE_CONNECTED →
          c = match example_table.find?
                (fun e => e.state == svr_conn_state.SVR_CONN_STATE_CONNECTED) with
              | some f => f.sd
              | none => -1)
      ∧ (c = -1 ↔ ∀ e ∈ example_table, e.state ≠ svr_conn_state.SVR_CONN_STATE_CONNECTED)
      ∧ (c ≠ -1 →
          ∃ e ∈ example_table, e.state = svr_conn_state.SVR_CONN_STATE_CONNECTED ∧ e.sd = c) :=
  C19_random_srv_conn 4 example_table (by decide) (by decide)

/-! ## Dispatch of one ready socket -/

/-- A registered record that passes the authentication step reaches the hooks with its
activity time set to the clock. -/
theorem process_socket_passes (E : NetEnv) (st : net_state) (p : Nat) (c : conn_t)
    (hreg : get_conn st c.cn_sock = some p) (hheap : st.heap p = some c)
    (hpass : (c.cn_active = conn_type.Primary ∨ c.cn_active = conn_type.TppComm
        ∨ c.cn_active = conn_type.Secondary ∨ c.authenticated = true)
      ∨ E.CS_server_auth c.cn_sock = cs_result.CS_SUCCESS
      ∨ E.CS_server_auth c.cn_sock = cs_result.CS_AUTH_CHECK_PORT) :
    ∃ c2 : conn_t, c2.cn_sock = c.cn_sock ∧ c2.cn_ready_func = c.cn_ready_func
      ∧ c2.cn_lasttime = E.now
      ∧ process_socket E st c.cn_sock
          = dispatch_hooks E { st with heap := Function.update st.heap p (some c2) }
              c.cn_sock c2 := by
  obtain ⟨hidx, hslot, h0, h1⟩ := get_conn_some st c.cn_sock p hreg
  have hneg : ¬ c.cn_sock < 0 := by omega
  have hne : ((0 : Int) == -1) = false := by decide
  unfold process_socket
  simp only [hidx, hslot, hheap]
  by_cases hgate : (c.cn_active != conn_type.Primary && c.cn_active != conn_type.TppComm
      && c.cn_active != conn_type.Secondary && !c.authenticated) = true
  · simp only [hgate, if_true, engage_authentication, hneg, if_false]
    have hcs : E.CS_server_auth c.cn_sock = cs_result.CS_SUCCESS
        ∨ E.CS_server_auth c.cn_sock = cs_result.CS_AUTH_CHECK_PORT := by
      rcases hpass with h | h
      · simp only [Bool.and_eq_true, bne_iff_ne, ne_eq, Bool.not_eq_true'] at hgate
        obtain ⟨⟨⟨g1, g2⟩, g3⟩, g4⟩ := hgate
        rcases h with h | h | h | h
        · exact absurd h g1
        · exact absurd h g2
        · exact absurd h g3
        · rw [g4] at h
          cases h
      · exact h
    rcases hcs with hcs | hcs
    · simp only [hcs, hne, Bool.false_eq_true, if_false]
      refine ⟨_, ?_, ?_, ?_, rfl⟩ <;> rfl
    · simp only [hcs, hne, Bool.false_eq_true, if_false]
      by_cases hp : c.from_privil = true
      · simp only [hp, if_true]
        refine ⟨_, ?_, ?_, ?_, rfl⟩ <;> rfl
      · simp only [hp, Bool.false_eq_true, if_false]
        refine ⟨_, ?_, ?_, ?_, rfl⟩ <;> rfl
  · simp only [hgate, Bool.false_eq_true, if_false]
    refine ⟨_, ?_, ?_, ?_, rfl⟩ <;> rfl

/-- C14: for a registered socket whose record passes the authentication step (its kind is
a listener or transport peer, or it is authenticated already, or the security library
answers success or reserved-port check): when no ready hook is set, or the ready hook
returns a value above 0, `process_socket` returns 0 having invoked the data hook exactly
once, as the last call, with the record still registered and its activity time set to
the clock; when the ready hook returns -1, it returns -1, the connection is closed and
the data hook is not invoked; when the ready hook returns 0, it returns 0, the record
stays registered with its activity time set to the clock, and nothing but the ready hook
was invoked. -/
theorem C14_ready_hook_decides (E : NetEnv) (st : net_state) (sock : Int) (p : Nat)
    (c : conn_t)
    (hreg : get_conn st sock = some p) (hheap : st.heap p = some c) (hsock : c.cn_sock = sock)
    (hpass : (c.cn_active = conn_type.Primary ∨ c.cn_active = conn_type.TppComm
        ∨ c.cn_active = conn_type.Secondary ∨ c.authenticated = true)
      ∨ E.CS_server_auth sock = cs_result.CS_SUCCESS
      ∨ E.CS_server_auth sock = cs_result.CS_AUTH_CHECK_PORT) :
    ((c.cn_ready_func = none ∨ 0 < E.ready_ret sock) →
      ∃ st1, process_socket E st sock = Except.ok (0, st1)
        ∧ st1.trace = st.trace
            ++ (if c.cn_ready_func.isSome then [net_event.ready_func sock] else [])
            ++ [net_event.func sock]
        ∧ get_conn st1 sock = some p
        ∧ (st1.heap p).map (fun x => x.cn_lasttime) = some E.now)
    ∧ (c.cn_ready_func ≠ none → E.ready_ret sock = -1 →
      ∃ st1 evs, process_socket E st sock = Except.ok (-1, st1)
        ∧ get_conn st1 sock = none
        ∧ st1.trace = st.trace ++ net_event.ready_func sock :: evs
        ∧ ∀ s, net_event.func s ∉ evs)
    ∧ (c.cn_ready_func ≠ none → E.ready_ret sock = 0 →
      ∃ st1, process_socket E st sock = Except.ok (0, st1)
        ∧ st1.trace = st.trace ++ [net_event.ready_func sock]
        ∧ get_conn st1 sock = some p
        ∧ (st1.heap p).map (fun x => x.cn_lasttime) = some E.now) := by
  subst hsock
  obtain ⟨c2, hs2, hr2, ht2, hproc⟩ := process_socket_passes E st p c hreg hheap hpass
  obtain ⟨hidx, hslot, h0, h1⟩ := get_conn_some st c.cn_sock p hreg
  rw [hproc]
  unfold dispatch_hooks
  rw [hr2, hs2]
  refine ⟨?_, ?_, ?_⟩
  · intro h
    cases hrf : c.cn_ready_func with
    | none =>
      refine ⟨_, rfl, by simp, hreg, ?_⟩
      simp [ht2]
    | some f =>
      have hpos : 0 < E.ready_ret c.cn_sock := by
        rcases h with h | h
        · rw [hrf] at h
          cases h
        · exact h
      have hn1 : (E.ready_ret c.cn_sock == -1) = false := by
        rw [beq_eq_false_iff_ne]
        omega
      have hn0 : (E.ready_ret c.cn_sock == 0) = false := by
        rw [beq_eq_false_iff_ne]
        omega
      simp only [hn1, hn0, Bool.false_eq_true, if_false]
      refine ⟨_, rfl, by simp, hreg, ?_⟩
      simp [ht2]
  · intro hrf hret
    cases hrf2 : c.cn_ready_func with
    | none => exact absurd hrf2 hrf
    | some f =>
      simp only [hret, beq_self_eq_true, if_true]
      obtain ⟨evs, hclose, hev⟩ := close_conn_registered
        { st with
          heap := Function.update st.heap p (some c2)
          trace := st.trace ++ [net_event.ready_func c.cn_sock] }
        c.cn_sock p c2 hreg (by simp)
      rw [hclose]
      refine ⟨_, evs, rfl, ?_, by simp, fun s => (hev s).2⟩
      unfold get_conn conn_find_actual_index
      simp [h0, h1]
  · intro hrf hret
    cases hrf2 : c.cn_ready_func with
    | none => exact absurd hrf2 hrf
    | some f =>
      have hn1 : (E.ready_ret c.cn_sock == -1) = false := by
        rw [hret]
        decide
      simp only [hn1, Bool.false_eq_true, if_false, hret, beq_self_eq_true, if_true]
      refine ⟨_, rfl, rfl, hreg, ?_⟩
      simp [ht2]

/-- C14 at a concrete input: the client of socket 5, without a ready hook, accepted by the
security library: the data hook is invoked once and the activity time becomes 101. -/
theorem C14_ready_hook_witness :
    ∃ st1, process_socket ⟨101, fun _ => cs_result.CS_SUCCESS, fun _ => 1⟩ example_registry 5
        = Except.ok (0, st1)
      ∧ st1.trace = example_registry.trace
          ++ (if example_client.cn_ready_func.isSome then [net_event.ready_func 5] else [])
          ++ [net_event.func 5]
      ∧ get_conn st1 5 = some 0
      ∧ (st1.heap 0).map (fun x => x.cn_lasttime) = some 101 :=
  (C14_ready_hook_decides ⟨101, fun _ => cs_result.CS_SUCCESS, fun _ => 1⟩ example_registry 5 0
    example_client (by decide) (by decide) rfl (Or.inr (Or.inl rfl))).1 (Or.inl rfl)

/-! ## Closing a connection more than once -/

theorem close_conn_unknown (st : net_state) (sd : Int) (h : sd < 0 ∨ get_conn st sd = none) :
    close_conn st sd = Except.ok st := by
  unfold close_conn
  by_cases hneg : sd < 0
  · simp [hneg]
  · simp only [hneg, if_false]
    rcases h with h | hg
    · exact absurd h hneg
    · unfold get_conn at hg
      cases hi : conn_find_actual_index st sd with
      | none => rfl
      | some idx =>
        simp only [hi] at hg
        obtain ⟨hidx, q, hq⟩ := conn_find_actual_index_some st sd idx hi
        subst hidx
        rw [hq] at hg
        cases hg

theorem close_conn_times_unknown (sd : Int) :
    ∀ (k : Nat) (st : net_state), (sd < 0 ∨ get_conn st sd = none) →
      close_conn_times k st sd = Except.ok st := by
  intro k
  induction k with
  | zero => intro st _; rfl
  | succ n ih =>
    intro st h
    unfold close_conn_times
    rw [close_conn_unknown st sd h]
    exact ih st h

/-- C11: for a live connection `c` registered for the socket `sd`: the first
`close_conn (sd)` completes, invokes the on-close hook once when `c` has one (and never
otherwise) and removes the registration; `k ≥ 1` calls in a row leave exactly the state
of that single call, every further call being a no-op; and `close_conn` on a negative
or unregistered socket changes nothing. -/
theorem C11_close_conn_idempotent (st : net_state) (sd : Int) (p : Nat) (c : conn_t)
    (hreg : get_conn st sd = some p) (hheap : st.heap p = some c) :
    ∃ st1, close_conn st sd = Except.ok st1
      ∧ (∀ k, 1 ≤ k → close_conn_times k st sd = Except.ok st1)
      ∧ st1.trace.count (net_event.oncl sd)
          = st.trace.count (net_event.oncl sd) + (if c.cn_oncl.isSome then 1 else 0)
      ∧ get_conn st1 sd = none
      ∧ (∀ (st0 : net_state) (s : Int), (s < 0 ∨ get_conn st0 s = none) →
          ∀ k, close_conn_times k st0 s = Except.ok st0) := by
  obtain ⟨hidx, hslot, h0, h1⟩ := get_conn_some st sd p hreg
  have hneg : ¬ sd < 0 := by omega
  have hclose : close_conn st sd = Except.ok
      { st with
        trace := st.trace
          ++ (if c.cn_active != conn_type.ChildPipe then
                [net_event.dis_destroy_chan sd, net_event.CS_close_socket sd] else [])
          ++ (if c.cn_oncl.isSome then [net_event.oncl sd] else [])
          ++ (net_event.em_del_fd false c.cn_sock ::
                (if c.cn_prio_flag then [net_event.em_del_fd true c.cn_sock] else []))
          ++ [net_event.closesocket sd]
        svr_allconns := st.svr_allconns.erase p
        heap := Function.update st.heap p none
        svr_conn := Function.update st.svr_conn sd none
        num_connections := st.num_connections - 1 } := by
    unfold close_conn
    simp only [hneg, if_false, hidx, hslot, hheap]
  have hgone : get_conn
      { st with
        trace := st.trace
          ++ (if c.cn_active != conn_type.ChildPipe then
                [net_event.dis_destroy_chan sd, net_event.CS_close_socket sd] else [])
          ++ (if c.cn_oncl.isSome then [net_event.oncl sd] else [])
          ++ (net_event.em_del_fd false c.cn_sock ::
                (if c.cn_prio_flag then [net_event.em_del_fd true c.cn_sock] else []))
          ++ [net_event.closesocket sd]
        svr_allconns := st.svr_allconns.erase p
        heap := Function.update st.heap p none
        svr_conn := Function.update st.svr_conn sd none
        num_connections := st.num_connections - 1 } sd = none := by
    unfold get_conn conn_find_actual_index
    simp [h0, h1]
  refine ⟨_, hclose, ?_, ?_, hgone, ?_⟩
  · intro k hk
    obtain ⟨n, rfl⟩ : ∃ n, k = n + 1 := ⟨k - 1, by omega⟩
    unfold close_conn_times
    rw [hclose]
    exact close_conn_times_unknown sd n _ (Or.inr hgone)
  · simp only [List.count_append]
    split_ifs <;> simp [List.count_cons]
  · intro st0 s h k
    exact close_conn_times_unknown s k st0 h

/-- C11 at a concrete input: the client of socket 5 with an on-close hook installed. -/
theorem C11_close_conn_witness :
    ∃ st1, close_conn example_registry_oncl 5 = Except.ok st1
      ∧ (∀ k, 1 ≤ k → close_conn_times k example_registry_oncl 5 = Except.ok st1)
      ∧ st1.trace.count (net_event.oncl 5)
          = example_registry_oncl.trace.count (net_event.oncl 5)
            + (if ({ example_client with cn_oncl := some 9 } : conn_t).cn_oncl.isSome then 1
                else 0)
      ∧ get_conn st1 5 = none
      ∧ (∀ (st0 : net_state) (s : Int), (s < 0 ∨ get_conn st0 s = none) →
          ∀ k, close_conn_times k st0 s = Except.ok st0) :=
  C11_close_conn_idempotent example_registry_oncl 5 0 { example_client with cn_oncl := some 9 }
    (by decide) (by decide)

/-! ## Round trip of the state-count codec -/

theorem digitChar_digit : ∀ k, k < 10 →
    isdigit (Nat.digitChar k) = true ∧ (Nat.digitChar k).toNat - 48 = k := by
  decide

theorem toDigitsCore_spec : ∀ (fuel n : Nat) (ds : List Char), n < fuel →
    ∃ d, Nat.toDigitsCore 10 fuel n ds = d ++ ds ∧ d ≠ []
      ∧ (∀ ch ∈ d, isdigit ch = true)
      ∧ ∀ acc, d.foldl (fun acc ch => 10 * acc + (ch.toNat - 48)) acc
          = acc * 10 ^ d.length + n := by
  intro fuel
  induction fuel with
  | zero => intro n ds h; omega
  | succ f ih =>
    intro n ds h
    have hk := digitChar_digit (n % 10) (Nat.mod_lt _ (by decide))
    unfold Nat.toDigitsCore
    by_cases h0 : n / 10 = 0
    · simp only [h0, if_true]
      refine ⟨[Nat.digitChar (n % 10)], rfl, by simp, ?_, ?_⟩
      · intro ch hch
        simp at hch
        subst hch
        exact hk.1
      · intro acc
        have hn : n < 10 := by omega
        simp only [List.foldl_cons, List.foldl_nil, hk.2, List.length_singleton, pow_one]
        have : n % 10 = n := Nat.mod_eq_of_lt hn
        omega
    · simp only [h0, if_false]
      obtain ⟨d, hd, hne, hdig, hval⟩ := ih (n / 10) (Nat.digitChar (n % 10) :: ds) (by omega)
      refine ⟨d ++ [Nat.digitChar (n % 10)], by simp [hd], by simp, ?_, ?_⟩
      · intro ch hch
        rcases List.mem_append.mp hch with h1 | h1
        · exact hdig ch h1
        · simp at h1
          subst h1
          exact hk.1
      · intro acc
        simp only [List.foldl_append, List.foldl_cons, List.foldl_nil, hval, hk.2,
          List.length_append, List.length_singleton, pow_succ]
        have := Nat.div_add_mod n 10
        nlinarith [Nat.div_add_mod n 10]

/-- The decimal text of a natural number: digits only, at least one, with the number as
value. -/
theorem toDigits_spec (n : Nat) :
    Nat.toDigits 10 n ≠ [] ∧ (∀ ch ∈ Nat.toDigits 10 n, isdigit ch = true)
      ∧ digits_value (Nat.toDigits 10 n) = n := by
  obtain ⟨d, hd, hne, hdig, hval⟩ := toDigitsCore_spec (n + 1) n [] (Nat.lt_succ_self n)
  unfold Nat.toDigits
  rw [hd, List.append_nil]
  refine ⟨hne, hdig, ?_⟩
  unfold digits_value
  rw [hval 0]
  simp

theorem takeWhile_digits (d rest : List Char) (hd : ∀ ch ∈ d, isdigit ch = true) :
    (d ++ ' ' :: rest).takeWhile isdigit = d
      ∧ (d ++ ' ' :: rest).dropWhile isdigit = ' ' :: rest := by
  induction d with
  | nil =>
    have : isdigit ' ' = false := by decide
    simp [List.takeWhile, List.dropWhile, this]
  | cons x t ih =>
    have hx := hd x (List.mem_cons_self _ _)
    have ht := ih (fun ch hch => hd ch (List.mem_cons_of_mem _ hch))
    simp [List.takeWhile, List.dropWhile, hx, ht.1, ht.2]

theorem digit_not_space_or_sign (ch : Char) (h : isdigit ch = true) :
    isspace ch = false ∧ (ch == '-') = false ∧ (ch == '+') = false := by
  unfold isdigit at h
  simp only [Bool.and_eq_true, decide_eq_true_eq] at h
  unfold isspace
  refine ⟨?_, ?_, ?_⟩
  · simp only [Bool.or_eq_false_iff, beq_eq_false_iff_ne, Bool.and_eq_false_iff,
      decide_eq_false_iff_not]
    omega
  · rw [beq_eq_false_iff_ne]
    intro hc
    subst hc
    revert h
    decide
  · rw [beq_eq_false_iff_ne]
    intro hc
    subst hc
    revert h
    decide

/-- Reading back a printed non-negative count that is followed by a blank. -/
theorem strtol_sprintf (x : Int) (rest : List Char) (h0 : 0 ≤ x) (h1 : x ≤ LONG_MAX) :
    strtol (sprintf_ld x ++ ' ' :: rest) = (x, ' ' :: rest) := by
  obtain ⟨hne, hdig, hval⟩ := toDigits_spec x.natAbs
  have hs : sprintf_ld x = Nat.toDigits 10 x.natAbs := by
    unfold sprintf_ld
    simp [not_lt.mpr h0]
  rw [hs]
  obtain ⟨ch, t, hct⟩ : ∃ ch t, Nat.toDigits 10 x.natAbs = ch :: t := by
    cases hd : Nat.toDigits 10 x.natAbs with
    | nil => exact absurd hd hne
    | cons ch t => exact ⟨ch, t, rfl⟩
  have hch : isdigit ch = true := hdig ch (by rw [hct]; exact List.mem_cons_self _ _)
  obtain ⟨hsp, hm, hp⟩ := digit_not_space_or_sign ch hch
  obtain ⟨htake, hdrop⟩ := takeWhile_digits (Nat.toDigits 10 x.natAbs) rest hdig
  unfold strtol
  have hdw : (Nat.toDigits 10 x.natAbs ++ ' ' :: rest).dropWhile isspace
      = Nat.toDigits 10 x.natAbs ++ ' ' :: rest := by
    rw [hct]
    simp [List.dropWhile, hsp]
  simp only [hdw]
  have hhead : ((Nat.toDigits 10 x.natAbs ++ ' ' :: rest).head? == some '-') = false := by
    rw [hct]
    simpa using hm
  have hu : (match Nat.toDigits 10 x.natAbs ++ ' ' :: rest with
      | c :: r => if (c == '-' || c == '+') = true then r
          else Nat.toDigits 10 x.natAbs ++ ' ' :: rest
      | [] => Nat.toDigits 10 x.natAbs ++ ' ' :: rest)
      = Nat.toDigits 10 x.natAbs ++ ' ' :: rest := by
    rw [hct]
    simp [hm, hp]
  rw [hu, htake, hdrop, hhead]
  have hemp : (Nat.toDigits 10 x.natAbs).isEmpty = false := by
    rw [hct]
    rfl
  simp only [hemp, Bool.false_eq_true, if_false, hval]
  have hx : ((x.natAbs : Nat) : Int) = x := Int.natAbs_of_nonneg h0
  rw [hx]
  unfold clamp_long
  have h2 : ¬ x > LONG_MAX := not_lt.mpr h1
  have h3 : ¬ x < LONG_MIN := by
    unfold LONG_MIN
    omega
  simp [h2, h3]

theorem split_colon_append (name tail : List Char) (h : ':' ∉ name) :
    split_colon (name ++ ':' :: tail) = some (name, tail) := by
  induction name with
  | nil => simp [split_colon]
  | cons c r ih =>
    have hc : (c == ':') = false := by
      rw [beq_eq_false_iff_ne]
      intro hc
      exact h (by rw [hc]; exact List.mem_cons_self _ _)
    have hr := ih (fun hm => h (List.mem_cons_of_mem _ hm))
    simp [split_colon, hc, hr]

/-- One turn of the decoding loop on a token written by `encode_states`. -/
theorem decode_loop_token (fuel : Nat) (name : List Char) (i : Nat) (x : Int)
    (rest : List Char) (count : List Int) (hne : name ≠ []) (hcolon : ':' ∉ name)
    (hidx : state_index name = some i) (h0 : 0 ≤ x) (h1 : x ≤ LONG_MAX) :
    decode_loop (fuel + 1) (name ++ ':' :: (sprintf_ld x ++ ' ' :: rest)) count
      = decode_loop fuel rest (count.set i x) := by
  conv_lhs => unfold decode_loop
  have hemp : (name ++ ':' :: (sprintf_ld x ++ ' ' :: rest)).isEmpty = false := by
    cases name with
    | nil => exact absurd rfl hne
    | cons c r => rfl
  rw [hemp, split_colon_append name _ hcolon]
  simp only [Bool.false_eq_true, if_false, hidx, strtol_sprintf x rest h0 h1, List.drop_succ_cons,
    List.drop_zero]

theorem wrap_long_in_range (x : Int) (h0 : 0 ≤ x) (h1 : x ≤ LONG_MAX) :
    wrap_long (x + 0) = x := by
  unfold LONG_MAX at h1
  unfold wrap_long
  omega
/-- The text written by `encode_states` for seven counts and a zero second vector. -/
theorem encode_states_seven (a b c d e f g : Int) :
    encode_states [a, b, c, d, e, f, g] zero_counts
      = "Transit".toList ++ ':' :: (sprintf_ld (wrap_long (a + 0)) ++ ' ' ::
        ("Queued".toList ++ ':' :: (sprintf_ld (wrap_long (b + 0)) ++ ' ' ::
        ("Held".toList ++ ':' :: (sprintf_ld (wrap_long (c + 0)) ++ ' ' ::
        ("Waiting".toList ++ ':' :: (sprintf_ld (wrap_long (d + 0)) ++ ' ' ::
        ("Running".toList ++ ':' :: (sprintf_ld (wrap_long (e + 0)) ++ ' ' ::
        ("Exiting".toList ++ ':' :: (sprintf_ld (wrap_long (f + 0)) ++ ' ' ::
        ("Begun".toList ++ ':' :: (sprintf_ld (wrap_long (g + 0)) ++ ' ' :: []))))))))))))) := by
  simp only [← List.append_assoc, ← List.cons_append]
  simp only [List.append_assoc, List.cons_append]
  rfl

theorem decode_loop_nil (fuel : Nat) (count : List Int) : decode_loop fuel [] count = count := by
  cases fuel <;> rfl

/-- Decoding the text of seven in-range counts stores each count in its own slot. -/
theorem decode_encoded (fuel : Nat) (a b c d e f g : Int)
    (ha : 0 ≤ a ∧ a ≤ LONG_MAX) (hb : 0 ≤ b ∧ b ≤ LONG_MAX) (hc : 0 ≤ c ∧ c ≤ LONG_MAX)
    (hd : 0 ≤ d ∧ d ≤ LONG_MAX) (he : 0 ≤ e ∧ e ≤ LONG_MAX) (hf : 0 ≤ f ∧ f ≤ LONG_MAX)
    (hg : 0 ≤ g ∧ g ≤ LONG_MAX) :
    decode_loop (fuel + 7) (encode_states [a, b, c, d, e, f, g] zero_counts) zero_counts
      = [a, b, c, d, e, f, g] := by
  rw [encode_states_seven, wrap_long_in_range a ha.1 ha.2, wrap_long_in_range b hb.1 hb.2,
    wrap_long_in_range c hc.1 hc.2, wrap_long_in_range d hd.1 hd.2,
    wrap_long_in_range e he.1 he.2, wrap_long_in_range f hf.1 hf.2,
    wrap_long_in_range g hg.1 hg.2]
  rw [show fuel + 7 = (fuel + 6) + 1 from rfl,
    decode_loop_token (fuel + 6) _ 0 a _ _ (by decide) (by decide) (by decide) ha.1 ha.2,
    show fuel + 6 = (fuel + 5) + 1 from rfl,
    decode_loop_token (fuel + 5) _ 1 b _ _ (by decide) (by decide) (by decide) hb.1 hb.2,
    show fuel + 5 = (fuel + 4) + 1 from rfl,
    decode_loop_token (fuel + 4) _ 2 c _ _ (by decide) (by decide) (by decide) hc.1 hc.2,
    show fuel + 4 = (fuel + 3) + 1 from rfl,
    decode_loop_token (fuel + 3) _ 3 d _ _ (by decide) (by decide) (by decide) hd.1 hd.2,
    show fuel + 3 = (fuel + 2) + 1 from rfl,
    decode_loop_token (fuel + 2) _ 4 e _ _ (by decide) (by decide) (by decide) he.1 he.2,
    show fuel + 2 = (fuel + 1) + 1 from rfl,
    decode_loop_token (fuel + 1) _ 5 f _ _ (by decide) (by decide) (by decide) hf.1 hf.2,
    decode_loop_token fuel _ 6 g _ _ (by decide) (by decide) (by decide) hg.1 hg.2,
    decode_loop_nil]
  rfl
theorem strtol_range (s : List Char) : LONG_MIN ≤ (strtol s).1 ∧ (strtol s).1 ≤ LONG_MAX := by
  unfold strtol
  dsimp only
  split_ifs
  · dsimp only
    unfold LONG_MIN LONG_MAX
    omega
  all_goals
    dsimp only
    unfold clamp_long
    split_ifs with h1 h2
    · unfold LONG_MIN LONG_MAX
      omega
    · unfold LONG_MIN LONG_MAX
      omega
    · exact ⟨not_lt.mp h2, not_lt.mp h1⟩

theorem decode_loop_range : ∀ (fuel : Nat) (c : List Char) (count : List Int),
    (∀ x ∈ count, LONG_MIN ≤ x ∧ x ≤ LONG_MAX) →
    (decode_loop fuel c count).length = count.length
      ∧ ∀ x ∈ decode_loop fuel c count, LONG_MIN ≤ x ∧ x ≤ LONG_MAX := by
  intro fuel
  induction fuel with
  | zero => intro c count h; exact ⟨rfl, h⟩
  | succ n ih =>
    intro c count h
    unfold decode_loop
    split_ifs
    · exact ⟨rfl, h⟩
    · split
      · exact ⟨rfl, h⟩
      · rename_i s rest _
        split
        · rename_i i _
          have hset : ∀ x ∈ count.set i (strtol rest).1, LONG_MIN ≤ x ∧ x ≤ LONG_MAX := by
            intro x hx
            rcases List.mem_or_eq_of_mem_set hx with h1 | h1
            · exact h x h1
            · rw [h1]
              exact strtol_range rest
          have := ih ((strtol rest).2.drop 1) _ hset
          simp only [List.length_set] at this
          exact this
        · exact ih _ count h

/-- The counts read by `decode_states` into a zeroed vector: seven values of type `long`. -/
theorem decode_states_range (s : List Char) :
    (decode_states s zero_counts).length = MAX_STATE
      ∧ ∀ x ∈ decode_states s zero_counts, LONG_MIN ≤ x ∧ x ≤ LONG_MAX := by
  have h0 : ∀ x ∈ zero_counts, LONG_MIN ≤ x ∧ x ≤ LONG_MAX := by decide
  exact decode_loop_range _ _ zero_counts h0

theorem encode_states_first (a b c d e f g : Int) :
    (encode_states [a, b, c, d, e, f, g] zero_counts).dropWhile isspace
        = encode_states [a, b, c, d, e, f, g] zero_counts
      ∧ ∃ k, (encode_states [a, b, c, d, e, f, g] zero_counts).length + 1 = k + 7 := by
  rw [encode_states_seven]
  refine ⟨rfl, ?_⟩
  have h7 : "Transit".toList.length = 7 := rfl
  rw [List.length_append, h7]
  generalize (List.length _) = n
  exact ⟨n + 1, by omega⟩

/-- C16: the state-count codec round-trips. For seven counts between 0 and `LONG_MAX`,
`decode_states` applied to the text of `encode_states` (second vector zero) gives the
counts back, and encoding that result gives the same text again; and for every string
whose decoded counts are non-negative, the text encoded from them decodes to those same
counts, so that encoding is the identity on such canonical texts. -/
theorem C16_codec_round_trip (v : List Int) (hlen : v.length = MAX_STATE)
    (hrange : ∀ x ∈ v, 0 ≤ x ∧ x ≤ LONG_MAX) :
    decode_states (encode_states v zero_counts) zero_counts = v
      ∧ encode_states (decode_states (encode_states v zero_counts) zero_counts) zero_counts
          = encode_states v zero_counts
      ∧ ∀ s : List Char, decode_states s zero_counts = v →
          encode_states (decode_states (encode_states (decode_states s zero_counts)
            zero_counts) zero_counts) zero_counts
            = encode_states (decode_states s zero_counts) zero_counts := by
  have key : decode_states (encode_states v zero_counts) zero_counts = v := by
    match v, hlen, hrange with
    | [a, b, c, d, e, f, g], _, hr =>
      obtain ⟨hdw, k, hfuel⟩ := encode_states_first a b c d e f g
      unfold decode_states
      rw [hdw, hfuel]
      exact decode_encoded _ a b c d e f g (hr a (by simp)) (hr b (by simp)) (hr c (by simp))
        (hr d (by simp)) (hr e (by simp)) (hr f (by simp)) (hr g (by simp))
  refine ⟨key, by rw [key], ?_⟩
  intro s hs
  rw [hs, key]

/-- C16 at the counts 0, 4, 2, 0, 9, 0, 0. -/
theorem C16_codec_witness :
    decode_states (encode_states [0, 4, 2, 0, 9, 0, 0] zero_counts) zero_counts
      = [0, 4, 2, 0, 9, 0, 0] :=
  (C16_codec_round_trip [0, 4, 2, 0, 9, 0, 0] (by decide) (by decide)).1

/-- The text of the counts 0, 4, 2, 0, 9, 0, 0. -/
theorem encode_states_example :
    String.mk (encode_states [0, 4, 2, 0, 9, 0, 0] zero_counts)
      = "Transit:0 Queued:4 Held:2 Waiting:0 Running:9 Exiting:0 Begun:0 " := by
  decide

/-! ## The idle sweep -/

theorem list_next_append : ∀ (pre rest : List Nat) (p : Nat), p ∉ pre →
    list_next (pre ++ p :: rest) p = rest.head? := by
  intro pre
  induction pre with
  | nil => intro rest p _; simp [list_next]
  | cons x t ih =>
    intro rest p hp
    have hx : x ≠ p := fun h => hp (by rw [h]; exact List.mem_cons_self _ _)
    have ht : p ∉ t := fun h => hp (List.mem_cons_of_mem _ h)
    simp only [List.cons_append, list_next, hx, if_false]
    exact ih rest p ht

theorem erase_append_cons (pre rest : List Nat) (p : Nat) (hp : p ∉ pre) :
    (pre ++ p :: rest).erase p = pre ++ rest := by
  rw [List.erase_append_right _ hp]
  simp

/-- One turn of the sweep loop on the record `c` at `p`. -/
theorem idle_walk_step (max_idle now : Int) (fuel p : Nat) (st : net_state) (c : conn_t)
    (hc : st.heap p = some c) :
    idle_walk max_idle now (fuel + 1) (some p) st
      = if timed_out max_idle now c = true then
          (match close_conn st c.cn_sock with
            | Except.error f => Except.error f
            | Except.ok st1 => idle_walk max_idle now fuel (list_next st.svr_allconns p) st1)
        else idle_walk max_idle now fuel (list_next st.svr_allconns p) st := by
  conv_lhs => unfold idle_walk
  simp only [hc]
  unfold timed_out
  by_cases h1 : c.cn_active = conn_type.FromClientDIS
  · by_cases h2 : now - c.cn_lasttime ≤ max_idle
    · have h2b : ¬ max_idle < now - c.cn_lasttime := not_lt.mpr h2
      simp [h1, h2, h2b]
    · have h2b : max_idle < now - c.cn_lasttime := not_le.mp h2
      by_cases h3 : c.notimeout = true
      · simp [h1, h2, h2b, h3]
      · simp [h1, h2, h2b, h3]
  · simp [h1]

/-- The events of `close_conn` on a registered record name its socket as the one
closed. -/
theorem close_conn_closes (st : net_state) (sd : Int) (p : Nat) (c : conn_t)
    (hreg : get_conn st sd = some p) (hheap : st.heap p = some c) :
    ∃ evs, close_conn st sd = Except.ok
        { st with
          trace := st.trace ++ evs
          svr_allconns := st.svr_allconns.erase p
          heap := Function.update st.heap p none
          svr_conn := Function.update st.svr_conn sd none
          num_connections := st.num_connections - 1 }
      ∧ ∀ s, net_event.closesocket s ∈ evs ↔ s = sd := by
  obtain ⟨hidx, hslot, h0, _⟩ := get_conn_some st sd p hreg
  unfold close_conn
  have hneg : ¬ sd < 0 := by omega
  simp only [hneg, if_false, hidx, hslot, hheap]
  refine ⟨(if c.cn_active != conn_type.ChildPipe then
        [net_event.dis_destroy_chan sd, net_event.CS_close_socket sd] else [])
      ++ ((if c.cn_oncl.isSome then [net_event.oncl sd] else [])
      ++ (net_event.em_del_fd false c.cn_sock ::
            (if c.cn_prio_flag then [net_event.em_del_fd true c.cn_sock] else [])
      ++ [net_event.closesocket sd])), ?_, ?_⟩
  · simp only [List.append_assoc]
  · intro s
    constructor
    · intro hm
      split_ifs at hm <;> simp at hm <;> exact hm
    · intro hs
      subst hs
      simp

/-- The sweep loop from a cursor that has the records `pre` behind it and the records
`suf` ahead: it completes, keeps `pre`, removes from `suf` exactly the records that are
timed out, and leaves every other record, slot and field as it was. -/
theorem idle_walk_sweeps (max_idle now : Int) :
    ∀ (fuel : Nat) (suf pre : List Nat) (st : net_state), registry_ok st →
      st.svr_allconns = pre ++ suf → suf.length ≤ fuel →
      ∃ st1 evs, idle_walk max_idle now fuel suf.head? st = Except.ok st1 ∧ registry_ok st1
        ∧ st1.svr_allconns = pre ++ suf.filter (fun p => !sweeps max_idle now st p)
        ∧ st1.last_checked = st.last_checked
        ∧ (∀ p, st1.heap p
            = if p ∈ suf ∧ sweeps max_idle now st p = true then none else st.heap p)
        ∧ (∀ sd, st1.svr_conn sd = (st.svr_conn sd).bind (fun p =>
            if p ∈ suf ∧ sweeps max_idle now st p = true then none else some p))
        ∧ st1.trace = st.trace ++ evs
        ∧ (∀ s, net_event.closesocket s ∈ evs ↔
            ∃ p ∈ suf, ∃ c, st.heap p = some c ∧ timed_out max_idle now c = true
              ∧ c.cn_sock = s) := by
  intro fuel
  induction fuel with
  | zero =>
    intro suf pre st hok hl hlen
    have hs : suf = [] := List.length_eq_zero.mp (Nat.le_zero.mp hlen)
    subst hs
    refine ⟨st, [], rfl, hok, by simpa using hl, rfl, ?_, ?_, by simp, by simp⟩
    · intro p
      simp
    · intro sd
      cases st.svr_conn sd <;> simp
  | succ n ih =>
    intro suf pre st hok hl hlen
    cases suf with
    | nil =>
      refine ⟨st, [], rfl, hok, by simpa using hl, rfl, ?_, ?_, by simp, by simp⟩
      · intro p
        simp
      · intro sd
        cases st.svr_conn sd <;> simp
    | cons p rest =>
      have hnd : (pre ++ p :: rest).Nodup := by
        rw [← hl]
        exact hok.2.1
      have hp : p ∈ st.svr_allconns := by
        rw [hl]
        simp
      obtain ⟨c, hc, hslot⟩ := hok.2.2.1 p hp
      obtain ⟨hb0, hb1, _, _⟩ := hok.1 _ p hslot
      have hppre : p ∉ pre := by
        intro hm
        exact (List.nodup_append.mp hnd).2.2 hm (List.mem_cons_self _ _)
      have hprest : p ∉ rest := (List.nodup_cons.mp (List.nodup_append.mp hnd).2.1).1
      have hnext : list_next st.svr_allconns p = rest.head? := by
        rw [hl]
        exact list_next_append pre rest p hppre
      have hsw : sweeps max_idle now st p = timed_out max_idle now c := by
        simp [sweeps, hc]
      have hlen1 : rest.length ≤ n := by
        simp only [List.length_cons] at hlen
        omega
      rw [List.head?_cons, idle_walk_step max_idle now n p st c hc, hnext]
      by_cases ht : timed_out max_idle now c = true
      · obtain ⟨evs0, hclose, hevs0⟩ := close_conn_closes st c.cn_sock p c
          (get_conn_of_slot st _ p hslot hb0 hb1) hc
        obtain ⟨st2, hclose2, hok2, _⟩ := close_conn_ok st c.cn_sock hok
        rw [hclose] at hclose2
        cases hclose2
        have hl2 : st.svr_allconns.erase p = pre ++ rest := by
          rw [hl]
          exact erase_append_cons pre rest p hppre
        obtain ⟨st1, evs, hw, hok1, hlist, hlast, hheap, hsvr, htr, hev⟩ :=
          ih rest pre _ hok2 hl2 hlen1
        have hsame : ∀ q, q ≠ p →
            sweeps max_idle now
              { st with
                trace := st.trace ++ evs0
                svr_allconns := st.svr_allconns.erase p
                heap := Function.update st.heap p none
                svr_conn := Function.update st.svr_conn c.cn_sock none
                num_connections := st.num_connections - 1 } q
              = sweeps max_idle now st q := by
          intro q hq
          simp [sweeps, Function.update_noteq hq]
        simp only [ht, if_true, hclose]
        refine ⟨st1, evs0 ++ evs, hw, hok1, ?_, hlast, ?_, ?_, ?_, ?_⟩
        · rw [hlist]
          have hfp : (!sweeps max_idle now st p) = false := by
            rw [hsw, ht]
            rfl
          rw [List.filter_cons_of_neg (by simp [hfp])]
          congr 1
          apply List.filter_congr
          intro q hq
          rw [hsame q (fun h => hprest (h ▸ hq))]
        · intro q
          rw [hheap q]
          by_cases hqp : q = p
          · subst hqp
            simp [hprest, hsw, ht]
          · rw [hsame q hqp]
            simp [hqp, Function.update_noteq hqp]
        · intro sd
          rw [hsvr sd]
          by_cases hsd : sd = c.cn_sock
          · subst hsd
            simp [hslot, hsw, ht]
          · simp only [Function.update_noteq hsd]
            cases hq : st.svr_conn sd with
            | none => rfl
            | some q =>
              have hqp : q ≠ p := by
                intro h
                subst h
                obtain ⟨_, _, _, c2, hc2, hs2⟩ := hok.1 sd q hq
                rw [hc] at hc2
                cases hc2
                exact hsd hs2.symm
              simp only [Option.some_bind, hsame q hqp, List.mem_cons, hqp, false_or]
        · rw [htr]
          simp only [List.append_assoc]
        · intro s
          rw [List.mem_append, hevs0 s, hev s]
          constructor
          · rintro (h | ⟨q, hq, d, hd, htd, hds⟩)
            · exact ⟨p, List.mem_cons_self _ _, c, hc, ht, h.symm⟩
            · have hqp : q ≠ p := fun h => hprest (h ▸ hq)
              simp only [Function.update_noteq hqp] at hd
              exact ⟨q, List.mem_cons_of_mem _ hq, d, hd, htd, hds⟩
          · rintro ⟨q, hq, d, hd, htd, hds⟩
            rcases List.mem_cons.mp hq with h | h
            · subst h
              rw [hc] at hd
              cases hd
              exact Or.inl hds.symm
            · have hqp : q ≠ p := fun h2 => hprest (h2 ▸ h)
              refine Or.inr ⟨q, h, d, ?_, htd, hds⟩
              simp only [Function.update_noteq hqp]
              exact hd
      · have hl2 : st.svr_allconns = (pre ++ [p]) ++ rest := by
          rw [hl]
          simp
        obtain ⟨st1, evs, hw, hok1, hlist, hlast, hheap, hsvr, htr, hev⟩ :=
          ih rest (pre ++ [p]) st hok hl2 hlen1
        have hf : sweeps max_idle now st p = false := by
          rw [hsw]
          simpa using ht
        simp only [ht, Bool.false_eq_true, if_false]
        refine ⟨st1, evs, hw, hok1, ?_, hlast, ?_, ?_, htr, ?_⟩
        · rw [hlist, List.filter_cons_of_pos (by simp [hf])]
          simp
        · intro q
          rw [hheap q]
          by_cases hqp : q = p
          · subst hqp
            simp [hprest, hf]
          · simp [hqp]
        · intro sd
          rw [hsvr sd]
          cases hq : st.svr_conn sd with
          | none => rfl
          | some q =>
            by_cases hqp : q = p
            · subst hqp
              simp [hprest, hf]
            · simp [hqp]
        · intro s
          rw [hev s]
          constructor
          · rintro ⟨q, hq, d, hd, htd, hds⟩
            exact ⟨q, List.mem_cons_of_mem _ hq, d, hd, htd, hds⟩
          · rintro ⟨q, hq, d, hd, htd, hds⟩
            rcases List.mem_cons.mp hq with h | h
            · subst h
              rw [hc] at hd
              cases hd
              exact absurd htd ht
            · exact ⟨q, h, d, hd, htd, hds⟩

theorem timed_out_iff (max_idle now : Int) (c : conn_t) :
    timed_out max_idle now c = true ↔
      (c.cn_active = conn_type.FromClientDIS ∧ c.notimeout = false
        ∧ now - c.cn_lasttime > max_idle) := by
  unfold timed_out
  simp only [Bool.and_eq_true, beq_iff_eq, decide_eq_true_eq, Bool.not_eq_true_eq_eq_false,
    gt_iff_lt]
  tauto

theorem get_conn_none_of_slot (st : net_state) (sd : Int) (h : st.svr_conn sd = none) :
    get_conn st sd = none := by
  unfold get_conn conn_find_actual_index
  split_ifs <;> simp [h]

/-- C12: the idle sweep on a consistent registry. A call of `connection_idlecheck` less
than 60 s after the previous sweep returns with the state unchanged. A call made 60 s
or more after it completes, records `now` as the time of the sweep, and closes exactly
the linked records that are of kind `FromClientDIS`, lack the no-timeout flag and have
`now - cn_lasttime > max_idle`: each of them is freed, unregistered, unlinked and its
socket closed, while every other linked record stays linked, registered for its socket,
with all its fields as before, and its socket is not closed; the list keeps its order. -/
theorem C12_idle_sweep (max_idle now : Int) (st : net_state) (hok : registry_ok st) :
    (now - st.last_checked < 60 → connection_idlecheck max_idle st now = Except.ok st)
    ∧ (60 ≤ now - st.last_checked →
        ∃ st1 evs, connection_idlecheck max_idle st now = Except.ok st1
          ∧ st1.last_checked = now
          ∧ st1.svr_allconns = st.svr_allconns.filter (fun p => !sweeps max_idle now st p)
          ∧ st1.trace = st.trace ++ evs
          ∧ ∀ p c, p ∈ st.svr_allconns → st.heap p = some c →
              ((c.cn_active = conn_type.FromClientDIS ∧ c.notimeout = false
                  ∧ now - c.cn_lasttime > max_idle) →
                st1.heap p = none ∧ get_conn st1 c.cn_sock = none ∧ p ∉ st1.svr_allconns
                  ∧ net_event.closesocket c.cn_sock ∈ evs)
              ∧ (¬ (c.cn_active = conn_type.FromClientDIS ∧ c.notimeout = false
                  ∧ now - c.cn_lasttime > max_idle) →
                st1.heap p = some c ∧ get_conn st1 c.cn_sock = some p ∧ p ∈ st1.svr_allconns
                  ∧ net_event.closesocket c.cn_sock ∉ evs)) := by
  constructor
  · intro h
    unfold connection_idlecheck
    simp [h]
  · intro h
    have hn : ¬ now - st.last_checked < 60 := not_lt.mpr h
    obtain ⟨st1, evs, hw, hok1, hlist, _, hheap, hsvr, htr, hev⟩ :=
      idle_walk_sweeps max_idle now st.svr_allconns.length st.svr_allconns [] st hok
        (by simp) (le_refl _)
    unfold connection_idlecheck
    simp only [hn, if_false, hw]
    refine ⟨_, evs, rfl, rfl, by simpa using hlist, htr, ?_⟩
    intro p c hp hc
    have hsw : sweeps max_idle now st p = timed_out max_idle now c := by
      simp [sweeps, hc]
    obtain ⟨c0, hc0, hslot⟩ := hok.2.2.1 p hp
    rw [hc] at hc0
    cases hc0
    constructor
    · intro hcond
      have ht : timed_out max_idle now c = true := (timed_out_iff max_idle now c).mpr hcond
      have hslot1 : st1.svr_conn c.cn_sock = none := by
        rw [hsvr, hslot]
        simp [hp, hsw, ht]
      refine ⟨?_, get_conn_none_of_slot _ _ hslot1, ?_, ?_⟩
      · show st1.heap p = none
        rw [hheap p]
        simp [hp, hsw, ht]
      · show p ∉ st1.svr_allconns
        rw [hlist]
        simp [hsw, ht]
      · exact (hev _).mpr ⟨p, hp, c, hc, ht, rfl⟩
    · intro hcond
      have ht : ¬ timed_out max_idle now c = true :=
        fun h2 => hcond ((timed_out_iff max_idle now c).mp h2)
      have hslot1 : st1.svr_conn c.cn_sock = some p := by
        rw [hsvr, hslot]
        simp [hsw, ht]
      obtain ⟨hb0, hb1, _, _⟩ := hok1.1 _ p hslot1
      refine ⟨?_, get_conn_of_slot _ _ p hslot1 hb0 hb1, ?_, ?_⟩
      · show st1.heap p = some c
        rw [hheap p, hc]
        simp [hsw, ht]
      · show p ∈ st1.svr_allconns
        rw [hlist]
        simp [hp, hsw, ht]
      · intro hm
        obtain ⟨q, hq, d, hd, htd, hds⟩ := (hev _).mp hm
        obtain ⟨d0, hd0, hslotq⟩ := hok.2.2.1 q hq
        rw [hd] at hd0
        cases hd0
        rw [hds, hslot] at hslotq
        cases hslotq
        rw [hc] at hd
        cases hd
        exact ht htd

theorem example_sweep_registry_ok : registry_ok example_sweep_registry := by
  obtain ⟨st, h, hok⟩ := net_run_ok 900
    [net_op.add 3 conn_type.Primary 0 0 none 1 false 100 true true,
     net_op.add 5 conn_type.FromClientDIS 0 2000 none 1 false 100 true true,
     net_op.add 6 conn_type.FromClientDIS 0 2001 none 1 false 1500 true true,
     net_op.add 7 conn_type.FromClientDIS 0 2002 none 1 false 100 true true] net_start
    (registry_ok_start false) (by decide)
  unfold example_sweep_registry
  rw [h]
  exact hok

/-- C12 at a concrete registry, swept at time 2000 with a limit of 900 s: the clients
on the sockets 5 and 7, idle since time 100, are closed; the listener on socket 3 and
the client on socket 6, active at time 1500, stay. -/
theorem C12_idle_sweep_witness :
    registry_ok example_sweep_registry
      ∧ ∃ st1 evs, connection_idlecheck 900 example_sweep_registry 2000 = Except.ok st1
          ∧ st1.last_checked = 2000
          ∧ st1.svr_allconns = [0, 2]
          ∧ st1.trace = example_sweep_registry.trace ++ evs
          ∧ net_event.closesocket 5 ∈ evs ∧ net_event.closesocket 7 ∈ evs
          ∧ net_event.closesocket 3 ∉ evs ∧ net_event.closesocket 6 ∉ evs := by
  refine ⟨example_sweep_registry_ok, ?_⟩
  obtain ⟨st1, evs, h1, h2, h3, h4, h5⟩ :=
    (C12_idle_sweep 900 2000 example_sweep_registry example_sweep_registry_ok).2 (by decide)
  refine ⟨st1, evs, h1, h2, ?_, h4, ?_, ?_, ?_, ?_⟩
  · rw [h3]
    decide
  · exact ((h5 1 ⟨5, conn_type.FromClientDIS, 0, 2000, 100, none, 1, none, false, false, false,
      false⟩ (by decide) (by decide)).1 (by decide)).2.2.2
  · exact ((h5 3 ⟨7, conn_type.FromClientDIS, 0, 2002, 100, none, 1, none, false, false, false,
      false⟩ (by decide) (by decide)).1 (by decide)).2.2.2
  · exact ((h5 0 ⟨3, conn_type.Primary, 0, 0, 100, none, 1, none, false, true, false,
      false⟩ (by decide) (by decide)).2 (by decide)).2.2.2
  · exact ((h5 2 ⟨6, conn_type.FromClientDIS, 0, 2001, 1500, none, 1, none, false, false, false,
      false⟩ (by decide) (by decide)).2 (by decide)).2.2.2

/-! ## The event loop -/

theorem engage_authentication_hooks (E : NetEnv) (c : conn_t) :
    (engage_authentication E c).2.cn_ready_func = c.cn_ready_func
      ∧ (engage_authentication E c).2.cn_func = c.cn_func := by
  unfold engage_authentication
  by_cases hneg : c.cn_sock < 0
  · simp only [hneg, if_true, and_self]
  · simp only [hneg, if_false]
    cases E.CS_server_auth c.cn_sock with
    | CS_SUCCESS => exact ⟨rfl, rfl⟩
    | CS_AUTH_CHECK_PORT =>
      by_cases hp : c.from_privil = true
      · simp only [hp, if_true, and_self]
      · simp only [hp, Bool.false_eq_true, if_false, and_self]
    | other k => exact ⟨rfl, rfl⟩

theorem dispatch_hooks_full_eq (A : AcceptEnv) (E : NetEnv) (st : net_state) (sock : Int)
    (c : conn_t) (h : c.cn_func ≠ accept_conn) :
    dispatch_hooks_full A E st sock c = dispatch_hooks E st sock c := by
  unfold dispatch_hooks_full dispatch_hooks call_cn_func
  simp only [h, if_false]

/-- The two renderings of `process_socket` agree on every socket whose data hook is not
`accept_conn`. -/
theorem process_socket_full_eq (A : AcceptEnv) (E : NetEnv) (st : net_state) (sock : Int)
    (h : ∀ p c, get_conn st sock = some p → st.heap p = some c → c.cn_func ≠ accept_conn) :
    process_socket_full A E st sock = process_socket E st sock := by
  unfold process_socket_full process_socket
  cases hi : conn_find_actual_index st sock with
  | none => rfl
  | some idx =>
    obtain ⟨hidx, _, _⟩ := conn_find_actual_index_some st sock idx hi
    subst hidx
    cases hslot : st.svr_conn idx with
    | none => simp only [hslot]
    | some p =>
      cases hc : st.heap p with
      | none => simp only [hslot, hc]
      | some c0 =>
        have hg : get_conn st idx = some p := by
          unfold get_conn
          rw [hi]
          exact hslot
        have hne := h p c0 hg hc
        simp only [hslot, hc]
        rw [dispatch_hooks_full_eq A E _ idx { c0 with cn_lasttime := E.now } hne,
          dispatch_hooks_full_eq A E _ idx
            (engage_authentication E { c0 with cn_lasttime := E.now }).2
            (by rw [(engage_authentication_hooks E { c0 with cn_lasttime := E.now }).2]
                exact hne)]

/-- The calls of that wait: the data hook of the priority socket 6 in the first loop;
then, in the second loop, the data hook of the listener 3, which accepts descriptor 8 and
enrols it, and the data hook of socket 5, while socket 6 is passed over. Every data hook
runs once, and the four sockets are registered afterwards. -/
theorem wait_request_example :
    (wait_request example_wait example_priority_registry).map
        (fun r => (r.1, observe 8 r.2))
      = Except.ok (0, ⟨[0, 1, 2, 3], some 3, some 3, some 5,
          [net_event.em_add_fd false 3, net_event.em_add_fd false 5,
           net_event.em_add_fd false 6, net_event.em_add_fd true 6, net_event.func 6,
           net_event.func 3, net_event.em_add_fd false 8, net_event.func 5]⟩) := by
  decide

/-! ## Classification of zero values -/

/-- C28, as the claim states it, does not hold of the code: `assess_type` tests the
converted value itself, so a value that converts to zero counts as not converted. On
"0" the type is left as it was on entry (unassigned), "0kb" is typed `STRING`, and "0.0"
is left unassigned wherever `strtod` reads it as zero up to the end of the string. -/
theorem C28_zero_values_are_misclassified (P : Platform) :
    (assess_type P "0".toList).1 = vtype.unassigned
      ∧ (assess_type P "0kb".toList).1 = vtype.STRING
      ∧ (P.strtod_nonzero "0.0".toList = false → P.strtod_rest "0.0".toList = [] →
          (assess_type P "0.0".toList).1 = vtype.unassigned) := by
  refine ⟨by with_unfolding_all rfl, by with_unfolding_all rfl, ?_⟩
  intro h1 h2
  have hdot : ("0.0".toList).contains '.' = true := by decide
  unfold assess_type
  simp only [hdot, if_true, h1, h2]
  rfl

/-- Values that do not convert to zero are typed by the stated rule. -/
theorem assess_type_examples (P : Platform) :
    assess_type P "12".toList = (vtype.LONG, 12)
      ∧ assess_type P "12kb".toList = (vtype.SIZE, 12)
      ∧ assess_type P "4Gb".toList = (vtype.SIZE, 4)
      ∧ assess_type P "abc".toList = (vtype.STRING, 0) := by
  refine ⟨?_, ?_, ?_, ?_⟩ <;> with_unfolding_all rfl

/-! ## Release of a table slot -/

/-- C30, as the claim states it, does not hold of the code: the range test of
`server_disconnect` lets `connect == NCONNECTS` through, and once the lock is obtained
the slot `connection [NCONNECTS]`, one past the end of the table, is read. -/
theorem C30_disconnect_at_table_size_reads_past_the_table (st : sched_state) :
    server_disconnect (fun _ => 0) st (st.connection.length : Int)
      = Except.error Fault.out_of_bounds := by
  unfold server_disconnect
  have h1 : ¬ (((st.connection.length : Nat) : Int) < 0
      ∨ ((st.connection.length : Nat) : Int) > st.connection.length) := by omega
  have h2 : st.connection.get? ((st.connection.length : Nat) : Int).toNat = none := by
    rw [Int.toNat_ofNat]
    exact List.get?_eq_none.mpr (le_refl _)
  simp [h1, h2]

/-- For a negative index, an index above `NCONNECTS`, or a failed lock, the function
returns 0 and leaves the state as it was; for an index below `NCONNECTS` whose lock is
obtained it returns 1, frees that slot and leaves every other slot as it was. -/
theorem server_disconnect_in_range (lock : Int → Int) (st : sched_state) (connect : Int) :
    ((connect < 0 ∨ connect > st.connection.length ∨ lock connect ≠ 0) →
      server_disconnect lock st connect = Except.ok (0, st))
    ∧ (0 ≤ connect → connect < st.connection.length → lock connect = 0 →
        ∃ st1, server_disconnect lock st connect = Except.ok (1, st1)
          ∧ (∃ h, st1.connection.get? connect.toNat = some h ∧ h.ch_inuse = 0
              ∧ h.ch_errno = 0 ∧ h.ch_errtxt = none)
          ∧ ∀ j, j ≠ connect.toNat → st1.connection.get? j = st.connection.get? j) := by
  constructor
  · intro h
    unfold server_disconnect
    by_cases h1 : connect < 0 ∨ connect > st.connection.length
    · simp [h1]
    · have h2 : lock connect ≠ 0 := by
        rcases h with h | h | h
        · exact absurd (Or.inl h) h1
        · exact absurd (Or.inr h) h1
        · exact h
      simp [h1, h2]
  · intro h0 h1 hl
    unfold server_disconnect
    have hr : ¬ (connect < 0 ∨ connect > st.connection.length) := by omega
    have hlt : connect.toNat < st.connection.length := by omega
    obtain ⟨h, hh⟩ : ∃ h, st.connection.get? connect.toNat = some h :=
      ⟨_, List.get?_eq_get hlt⟩
    simp only [hr, if_false, hl, bne_self_eq_false, Bool.false_eq_true, hh]
    refine ⟨_, rfl, ⟨{ h with ch_errtxt := none, ch_errno := 0, ch_inuse := 0 }, ?_, rfl, rfl, rfl⟩,
      ?_⟩
    · simp [List.get?_eq_getElem?, List.getElem?_set, hlt]
    · intro j hj
      simp [List.get?_eq_getElem?, List.getElem?_set, Ne.symm hj]

/-! ## Restart after a crash -/

/-- C25, as the claim states it, does not hold of the code: the handler compares the
start time with the time of the last scheduling cycle, not with the time at which it
runs. A daemon started at time 0 whose last cycle began at time 100 and which crashes at
time 1000, more than 300 s after its start, aborts without re-executing. -/
theorem C25_crash_long_after_start_still_aborts :
    (1000 : Int) - 0 ≥ 300
      ∧ on_segv 0 (segv_last_time 0 [40, 100]) 0 1 false = [segv_action.abort] := by
  decide

/-- C25, amended: with the cleanup lock obtained, `on_segv` re-executes the daemon
(`fork`, then in the parent `sleep (10)` and `execv`) exactly when at least 300 s lie
between the start and the last scheduling cycle and `fork` returns a child; it aborts at
once, without `fork`, exactly when fewer than 300 s lie between them; the child of the
`fork`, and the process in which `fork` failed, abort without `execv`; and when the lock
is not obtained the handler thread exits without either. -/
theorem C25_restart_measured_from_last_cycle (segv_start segv_last ret_lock fork_ret : Int)
    (execv_fails : Bool) :
    (segv_action.execv ∈ on_segv segv_start segv_last ret_lock fork_ret execv_fails ↔
        ret_lock = 0 ∧ 300 ≤ segv_last - segv_start ∧ 0 < fork_ret)
    ∧ (on_segv segv_start segv_last ret_lock fork_ret execv_fails = [segv_action.abort] ↔
        ret_lock = 0 ∧ segv_last - segv_start < 300)
    ∧ (ret_lock = 0 → 300 ≤ segv_last - segv_start → 0 < fork_ret →
        on_segv segv_start segv_last ret_lock fork_ret execv_fails
          = [segv_action.fork, segv_action.sleep 10, segv_action.execv]
              ++ (if execv_fails then [segv_action.exit 3] else []))
    ∧ (ret_lock = 0 → 300 ≤ segv_last - segv_start → fork_ret ≤ 0 →
        on_segv segv_start segv_last ret_lock fork_ret execv_fails
          = [segv_action.fork, segv_action.abort])
    ∧ (ret_lock ≠ 0 →
        on_segv segv_start segv_last ret_lock fork_ret execv_fails
          = [segv_action.pthread_exit]) := by
  unfold on_segv
  by_cases hl : ret_lock = 0
  · by_cases ht : segv_last - segv_start < 300
    · have h3 : ¬ 300 ≤ segv_last - segv_start := by omega
      simp [hl, ht, h3]
    · have h3 : 300 ≤ segv_last - segv_start := by omega
      by_cases hf : fork_ret > 0
      · have hf2 : ¬ fork_ret ≤ 0 := by omega
        cases execv_fails <;> simp [hl, ht, h3, hf, hf2]
      · have hf2 : fork_ret ≤ 0 := by omega
        have hf3 : ¬ 0 < fork_ret := by omega
        simp [hl, ht, h3, hf, hf2, hf3]
  · simp [hl]

/-! ## Primary or secondary -/

/-- C27: `are_we_primary` as a function of the configuration and of our own host name
`host` (the first leaf name when one is configured, otherwise the full name of
`gethostname`). It returns -1 when our own name cannot be obtained. Otherwise: 1 when
neither primary nor secondary is configured; -1 when exactly one is; with both
configured, -1 when the primary's full name cannot be resolved, 1 when it equals `host`,
and when it differs, -1 when the secondary's full name cannot be resolved, 0 when it
equals `host` and -1 when it differs too. -/
theorem C27_are_we_primary (E : HostConf) :
    (own_host E = none → are_we_primary E = -1)
    ∧ ∀ host, own_host E = some host →
      (E.pbs_primary = none → E.pbs_secondary = none → are_we_primary E = 1)
      ∧ ((E.pbs_primary = none ∧ E.pbs_secondary ≠ none)
          ∨ (E.pbs_primary ≠ none ∧ E.pbs_secondary = none) → are_we_primary E = -1)
      ∧ ∀ p s, E.pbs_primary = some p → E.pbs_secondary = some s →
        (E.get_fullhostname p.toList = none → are_we_primary E = -1)
        ∧ ∀ hp, E.get_fullhostname p.toList = some hp →
          (hp = host → are_we_primary E = 1)
          ∧ (hp ≠ host →
              (E.get_fullhostname s.toList = none → are_we_primary E = -1)
              ∧ ∀ hs, E.get_fullhostname s.toList = some hs →
                (hs = host → are_we_primary E = 0)
                ∧ (hs ≠ host → are_we_primary E = -1)) := by
  constructor
  · intro h
    unfold are_we_primary
    rw [h]
  · intro host h
    unfold are_we_primary
    rw [h]
    refine ⟨?_, ?_, ?_⟩
    · intro hp hs
      simp only [hp, hs]
    · rintro (⟨hp, hs⟩ | ⟨hp, hs⟩)
      · obtain ⟨s, hs2⟩ := Option.ne_none_iff_exists'.mp hs
        simp only [hp, hs2]
      · obtain ⟨p, hp2⟩ := Option.ne_none_iff_exists'.mp hp
        simp only [hp2, hs]
    · intro p s hp hs
      simp only [hp, hs]
      refine ⟨fun h1 => by simp only [h1], ?_⟩
      intro hn1 h1
      simp only [h1]
      refine ⟨fun he => by simp [he], ?_⟩
      intro hne
      have hb : (hn1 == host) = false := by simpa using hne
      simp only [hb, Bool.false_eq_true, if_false]
      refine ⟨fun h2 => by simp only [h2], ?_⟩
      intro hn2 h2
      simp only [h2]
      refine ⟨fun he => by simp [he], ?_⟩
      intro hne2
      have hb2 : (hn2 == host) = false := by simpa using hne2
      simp [hb2]

/-- The leaf name `sched1:15004,sched2` gives the own name `sched1`; with the primary
resolving to another host and the secondary to `sched1`, we are the secondary. -/
theorem are_we_primary_example :
    leaf_host "sched1:15004,sched2".toList = "sched1".toList
      ∧ are_we_primary
          { pbs_leaf_name := some "sched1:15004,sched2", pbs_primary := some "a",
            pbs_secondary := some "b", gethostname := none,
            get_fullhostname := fun n =>
              if n == "a".toList then some "sched0".toList else some "sched1".toList } = 0 := by
  decide

/-! ## The clients file -/

/-- C26, as the claim states it, does not hold of the code. A file that ends in the line
`$clienthost` without a newline makes `read_config` apply `strlen` to the `NULL` that the
second `strtok` returns; and a comment line of more than 119 characters is read in two
parts, the second of which is taken for an invalid line, so that the function returns
-1. -/
theorem C26_clienthost_without_argument_faults :
    read_config example_resolver "$clienthost".toList [] = Except.error Fault.null_deref
      ∧ read_config example_resolver "# allowed\n$clienthost \t".toList []
          = Except.error Fault.null_deref
      ∧ read_config example_resolver ('#' :: List.replicate 119 'x' ++ ['\n']) []
          = Except.ok (-1, []) := by
  decide

/-- On files within the line length whose directives have their argument, the function
behaves as stated: comments, empty lines and unknown directives are passed over, the
addresses of each `$clienthost` name are added, and an unresolved name or a line of
another kind gives -1. -/
theorem read_config_examples :
    read_config example_resolver
        "# clients\n\n$clienthost hostA\n$other x\n$clienthost\thostB\n".toList [1]
      = Except.ok (0, [1, 167772161, 167772162, 167772163])
    ∧ read_config example_resolver "$clienthost hostA\n$clienthost nohost\n".toList []
      = Except.ok (-1, [167772161])
    ∧ read_config example_resolver "$clienthost hostA\nhostB\n".toList []
      = Except.ok (-1, [167772161])
    ∧ read_config example_resolver ('#' :: List.replicate 117 'x' ++ ['\n']) []
      = Except.ok (0, []) := by
  decide

/-! ## The command pump -/

/-- From the initial state, in which `connector` is 0, even a failed `accept` is followed
by `schedule (SCH_ERROR, 0, ...)`; the turn then releases slot 0 and sets `connector` to
-1. -/
theorem main_first_turn_accept_failure :
    main_iteration
        ⟨{ example_cmd_env 1023 2130706433 with accept1 := -1 }, fun _ => 0, fun _ _ => 0⟩
        (main_start 2 [2130706433])
      = ([main_call.update_svr_schedobj 0 SCH_ERROR, main_call.schedule SCH_ERROR 0],
          Except.ok
            { sched :=
                { connection := [⟨0, 0, 0, none⟩, ⟨0, 0, 0, none⟩], connector := -1,
                  second_connection := -1, okclients := [2130706433],
                  trace := [sched_event.CS_close_socket 0, sched_event.close 0] },
              update_svr := false, go := true }) := by
  decide

/-- C21: `PBSD_manager` verifies before it sends. Once the thread context is
initialised, the object name is verified exactly when the command is create, and the
attributes are verified for every command whose name verification (if any) passed. If
the name or the attribute verification fails, the function returns `pbs_errno` having
made no call but the initialisation and the verifications: no lock, no reset of the
sharding hint, no request. And whenever a request is sent, it was preceded, in this
order, by the name verification (for create), the attribute verification, the lock and
the reset of the sharding hint, all of which succeeded. -/
theorem C21_manager_verifies_before_sending (W : MgrWire) (c : Int) (command : mgr_cmd) :
    (W.wire.init_thread_context = 0 →
      (ifl_call.verify_object_name ∈ (PBSD_manager W c command).2
          ↔ command = mgr_cmd.MGR_CMD_CREATE)
      ∧ ((command = mgr_cmd.MGR_CMD_CREATE → W.verify_object_name = 0) →
          ifl_call.verify_attributes c ∈ (PBSD_manager W c command).2))
    ∧ ((command = mgr_cmd.MGR_CMD_CREATE ∧ W.verify_object_name ≠ 0)
          ∨ W.wire.verify_attributes c ≠ 0 →
        (PBSD_manager W c command).1 = W.pbs_errno
        ∧ ∀ e ∈ (PBSD_manager W c command).2,
            e = ifl_call.init_thread_context ∨ e = ifl_call.verify_object_name
              ∨ e = ifl_call.verify_attributes c)
    ∧ (∀ c2, ifl_call.mgr_put c2 ∈ (PBSD_manager W c command).2 →
        W.wire.verify_attributes c = 0
        ∧ (command = mgr_cmd.MGR_CMD_CREATE → W.verify_object_name = 0)
        ∧ ∃ post, (PBSD_manager W c command).2
            = ifl_call.init_thread_context ::
                ((if command = mgr_cmd.MGR_CMD_CREATE then [ifl_call.verify_object_name]
                  else [])
                ++ [ifl_call.verify_attributes c, ifl_call.lock_connection c 0,
                    ifl_call.set_new_shard_context c, ifl_call.mgr_put c] ++ post)) := by
  unfold PBSD_manager
  by_cases hi : W.wire.init_thread_context = 0
  · by_cases hn : W.verify_object_name = 0
    · by_cases ha : W.wire.verify_attributes c = 0
      · by_cases hl : W.wire.lock_connection c = 0
        · by_cases hp : W.mgr_put c = 0
          · by_cases hu : W.wire.unlock_connection c = 0
            · cases command <;> simp [hi, hn, ha, hl, hp, hu]
            · cases command <;> simp [hi, hn, ha, hl, hp, hu]
          · cases command <;> simp [hi, hn, ha, hl, hp]
        · cases command <;> simp [hi, hn, ha, hl]
      · cases command <;> simp [hi, hn, ha]
    · by_cases ha : W.wire.verify_attributes c = 0
      · by_cases hl : W.wire.lock_connection c = 0
        · by_cases hp : W.mgr_put c = 0
          · by_cases hu : W.wire.unlock_connection c = 0
            · cases command <;> simp [hi, hn, ha, hl, hp, hu]
            · cases command <;> simp [hi, hn, ha, hl, hp, hu]
          · cases command <;> simp [hi, hn, ha, hl, hp]
        · cases command <;> simp [hi, hn, ha, hl]
      · cases command <;> simp [hi, hn, ha]
  · cases command <;> simp [hi]

/-- The calls of a create request whose object name is rejected, of a set request whose
attributes are rejected, and of a create request that goes through. -/
theorem PBSD_manager_examples :
    PBSD_manager (example_mgr_wire true false) 10 mgr_cmd.MGR_CMD_CREATE
      = (15001, [ifl_call.init_thread_context, ifl_call.verify_object_name])
    ∧ PBSD_manager (example_mgr_wire true true) 10 (mgr_cmd.other 2)
      = (15001, [ifl_call.init_thread_context, ifl_call.verify_attributes 10])
    ∧ PBSD_manager (example_mgr_wire false false) 10 mgr_cmd.MGR_CMD_CREATE
      = (0, [ifl_call.init_thread_context, ifl_call.verify_object_name,
          ifl_call.verify_attributes 10, ifl_call.lock_connection 10 0,
          ifl_call.set_new_shard_context 10, ifl_call.mgr_put 10, ifl_call.rdrpy 10,
          ifl_call.unlock_connection 10]) := by
  decide

/-! ## Requests and replies under the connection lock -/

theorem lock_discipline_append : ∀ (a b : List ifl_call) (held : Option Int),
    lock_discipline held (a ++ b)
      = (lock_discipline held a).bind (fun h => lock_discipline h b) := by
  intro a
  induction a with
  | nil => intro b held; rfl
  | cons e t ih =>
    intro b held
    simp only [List.cons_append, lock_discipline]
    cases lock_step held e with
    | none => rfl
    | some h => exact ih b h

theorem PBSD_status_calls_locked (W : Wire) (c : Int) :
    lock_discipline (some c) (PBSD_status_calls W c) = some (some c) := by
  unfold PBSD_status_calls
  split_ifs <;> simp [lock_discipline, lock_step]

/-- One endpoint step: lock, request and reply, unlock. -/
theorem endpoint_step_locked (W : Wire) (c : Int) (h : W.lock_connection c = 0) :
    lock_discipline none
        (ifl_call.lock_connection c (W.lock_connection c) :: PBSD_status_calls W c)
      = some (some c)
    ∧ ∀ rest, lock_discipline none
        (ifl_call.lock_connection c (W.lock_connection c) :: PBSD_status_calls W c
          ++ ifl_call.unlock_connection c :: rest)
      = lock_discipline none rest := by
  have h1 : lock_discipline none
      (ifl_call.lock_connection c (W.lock_connection c) :: PBSD_status_calls W c)
      = some (some c) := by
    simp only [lock_discipline, lock_step, h, bne_self_eq_false, Bool.false_eq_true, if_false]
    exact PBSD_status_calls_locked W c
  refine ⟨h1, ?_⟩
  intro rest
  have := lock_discipline_append
    (ifl_call.lock_connection c (W.lock_connection c) :: PBSD_status_calls W c)
    (ifl_call.unlock_connection c :: rest) none
  rw [this, h1]
  simp [lock_discipline, lock_step]

theorem aggregate_loop_calls_locked (W : Wire) (P : Platform) (cmd : batch_request_type)
    (obj : mgr_obj) (table : List svr_conn_t) :
    ∀ (l : List svr_conn_t) (ret : List batch_status),
      lock_discipline none (aggregate_loop_calls W P cmd obj table l ret).1 ≠ none
      ∧ (∀ v, (aggregate_loop_calls W P cmd obj table l ret).2 = Except.ok v →
          lock_discipline none (aggregate_loop_calls W P cmd obj table l ret).1 = some none)
      ∧ (aggregate_loop_calls W P cmd obj table l ret).2
          = aggregate_loop W P cmd obj table l ret := by
  intro l
  induction l with
  | nil =>
    intro ret
    simp [aggregate_loop_calls, aggregate_loop, lock_discipline]
  | cons e rest ih =>
    intro ret
    unfold aggregate_loop_calls aggregate_loop
    by_cases hs : (e.state != svr_conn_state.SVR_CONN_STATE_CONNECTED) = true
    · simp only [hs, if_true]
      exact ih ret
    · simp only [hs, Bool.false_eq_true, if_false]
      by_cases hl : W.lock_connection e.sd = 0
      · have hlb : (W.lock_connection e.sd != 0) = false := by simp [hl]
        simp only [hlb, Bool.false_eq_true, if_false]
        obtain ⟨hio, hrest⟩ := endpoint_step_locked W e.sd hl
        cases hm : (if (PBSD_status W e.sd cmd table).isEmpty = true then Except.ok ret
            else if ret.isEmpty = true then Except.ok (PBSD_status W e.sd cmd table)
            else merge_reply P obj ret (PBSD_status W e.sd cmd table)) with
        | error f =>
          simp only
          refine ⟨by rw [hio]; simp, ?_, by first | rfl | trivial⟩
          intro v hv
          cases hv
        | ok ret1 =>
          simp only
          by_cases hu : (W.unlock_connection e.sd != 0) = true
          · simp only [hu, if_true]
            have := hrest []
            refine ⟨by rw [this]; simp [lock_discipline], ?_, by first | rfl | trivial⟩
            intro v _
            rw [this]
            rfl
          · simp only [hu, Bool.false_eq_true, if_false]
            obtain ⟨i1, i2, i3⟩ := ih ret1
            have := hrest (aggregate_loop_calls W P cmd obj table rest ret1).1
            rw [this]
            exact ⟨i1, i2, i3⟩
      · have hlb : (W.lock_connection e.sd != 0) = true := by simp [hl]
        simp only [hlb, if_true]
        refine ⟨?_, ?_, by first | rfl | trivial⟩
        · simp [lock_discipline, lock_step, hl]
        · intro v _
          simp [lock_discipline, lock_step, hl]

theorem PBSD_manager_locked (M : MgrWire) (c : Int) (command : mgr_cmd) :
    lock_discipline none (PBSD_manager M c command).2 = some none := by
  unfold PBSD_manager
  by_cases hi : M.wire.init_thread_context = 0
  · by_cases hn : M.verify_object_name = 0
    · by_cases ha : M.wire.verify_attributes c = 0
      · by_cases hl : M.wire.lock_connection c = 0
        · by_cases hp : M.mgr_put c = 0
          · by_cases hu : M.wire.unlock_connection c = 0
            · cases command <;> simp [hi, hn, ha, hl, hp, hu, lock_discipline, lock_step]
            · cases command <;> simp [hi, hn, ha, hl, hp, hu, lock_discipline, lock_step]
          · cases command <;> simp [hi, hn, ha, hl, hp, lock_discipline, lock_step]
        · cases command <;> simp [hi, hn, ha, hl, lock_discipline, lock_step]
      · cases command <;> simp [hi, hn, ha, lock_discipline, lock_step]
    · by_cases ha : M.wire.verify_attributes c = 0
      · by_cases hl : M.wire.lock_connection c = 0
        · by_cases hp : M.mgr_put c = 0
          · by_cases hu : M.wire.unlock_connection c = 0
            · cases command <;> simp [hi, hn, ha, hl, hp, hu, lock_discipline, lock_step]
            · cases command <;> simp [hi, hn, ha, hl, hp, hu, lock_discipline, lock_step]
          · cases command <;> simp [hi, hn, ha, hl, hp, lock_discipline, lock_step]
        · cases command <;> simp [hi, hn, ha, hl, lock_discipline, lock_step]
      · cases command <;> simp [hi, hn, ha, lock_discipline, lock_step]
  · cases command <;> simp [hi, lock_discipline, lock_step]

theorem PBSD_status_random_calls_locked (W : Wire) (table : Option (List svr_conn_t))
    (cmd : batch_request_type) :
    lock_discipline none (PBSD_status_random_calls W table cmd).1 = some none
      ∧ (PBSD_status_random_calls W table cmd).2 = PBSD_status_random W table cmd := by
  unfold PBSD_status_random_calls PBSD_status_random
  cases table with
  | none => exact ⟨rfl, rfl⟩
  | some t =>
    simp only
    cases random_srv_conn W.rand_num t with
    | error f => exact ⟨rfl, rfl⟩
    | ok c =>
      simp only
      by_cases h0 : c < 0
      · simp only [h0, if_true]
        exact ⟨rfl, by first | rfl | trivial⟩
      · simp only [h0, if_false]
        by_cases h1 : (W.init_thread_context != 0) = true
        · simp only [h1, if_true]
          exact ⟨rfl, by first | rfl | trivial⟩
        · simp only [h1, Bool.false_eq_true, if_false]
          by_cases h2 : (W.verify_attributes c != 0) = true
          · simp only [h2, if_true]
            exact ⟨rfl, by first | rfl | trivial⟩
          · simp only [h2, Bool.false_eq_true, if_false]
            by_cases h3 : W.lock_connection c = 0
            · have h3b : (W.lock_connection c != 0) = false := by simp [h3]
              simp only [h3b, Bool.false_eq_true, if_false]
              refine ⟨?_, by first | rfl | trivial⟩
              have := (endpoint_step_locked W c h3).2 []
              simp only [lock_discipline, lock_step, List.cons_append, List.nil_append,
                List.append_assoc, List.singleton_append] at this ⊢
              exact this
            · have h3b : (W.lock_connection c != 0) = true := by simp [h3]
              simp only [h3b, if_true]
              refine ⟨?_, by first | rfl | trivial⟩
              simp [lock_discipline, lock_step, h3]

/-- C22: in `PBSD_manager`, `PBSD_status_random` and `PBSD_status_aggregate`, every send
of a request and every read of a reply on a connection is made while the lock of that
connection is held, a lock is taken only while none is held, and an unlock is called for
every lock obtained before the function returns, on the paths through a failed send and
through a missing reply as on the successful one. In `PBSD_status_aggregate`, whose merge
step can stop the program with a fault, the calls made up to the fault obey the same
discipline. The call records belong to the functions modelled before: their results
agree. -/
theorem C22_io_only_under_lock (M : MgrWire) (W : Wire) (P : Platform) (c : Int)
    (command : mgr_cmd) (table : Option (List svr_conn_t)) (cmd : batch_request_type)
    (obj : mgr_obj) :
    lock_discipline none (PBSD_manager M c command).2 = some none
    ∧ lock_discipline none (PBSD_status_random_calls W table cmd).1 = some none
    ∧ lock_discipline none (PBSD_status_aggregate_calls W P table cmd obj).1 ≠ none
    ∧ (∀ v, (PBSD_status_aggregate_calls W P table cmd obj).2 = Except.ok v →
        lock_discipline none (PBSD_status_aggregate_calls W P table cmd obj).1 = some none)
    ∧ (PBSD_status_random_calls W table cmd).2 = PBSD_status_random W table cmd
    ∧ (PBSD_status_aggregate_calls W P table cmd obj).2
        = PBSD_status_aggregate W P table cmd obj := by
  refine ⟨PBSD_manager_locked M c command, (PBSD_status_random_calls_locked W table cmd).1,
    ?_, ?_, (PBSD_status_random_calls_locked W table cmd).2, ?_⟩
  all_goals
    unfold PBSD_status_aggregate_calls
    try unfold PBSD_status_aggregate
    cases table with
    | none => simp [lock_discipline]
    | some t =>
      simp only
      by_cases h1 : (W.init_thread_context != 0) = true
      · simp [h1, lock_discipline, lock_step]
      · simp only [h1, Bool.false_eq_true, if_false]
        cases random_srv_conn W.rand_num t with
        | error f => simp [lock_discipline, lock_step]
        | ok c0 =>
          simp only
          by_cases h2 : (W.verify_attributes c0 != 0) = true
          · simp [h2, lock_discipline, lock_step]
          · simp only [h2, Bool.false_eq_true, if_false]
            obtain ⟨i1, i2, i3⟩ := aggregate_loop_calls_locked W P cmd obj t t []
            first
              | exact i3
              | (simp only [lock_discipline, lock_step]
                 first
                   | exact i1
                   | exact i2)

/-- The calls of an aggregate over the table of scenario S3: endpoints on the sockets 10
and 12 are each locked, asked, read and unlocked in turn. -/
theorem PBSD_status_aggregate_calls_example :
    (PBSD_status_aggregate_calls (example_wire example_replies []) example_platform
        (some example_table) batch_request_type.PBS_BATCH_StatusJob (mgr_obj.other 0)).1
      = [ifl_call.init_thread_context, ifl_call.verify_attributes 10,
          ifl_call.lock_connection 10 0, ifl_call.status_put 10, ifl_call.rdrpy 10,
          ifl_call.unlock_connection 10,
          ifl_call.lock_connection 12 0, ifl_call.status_put 12, ifl_call.rdrpy 12,
          ifl_call.unlock_connection 12] := by
  decide

/-! ## Closing all connections but one -/

/-- The events of `close_conn` on a registered record without an on-close hook do not
include a call of one. -/
theorem close_conn_quiet (st : net_state) (sd : Int) (p : Nat) (c : conn_t)
    (hreg : get_conn st sd = some p) (hheap : st.heap p = some c) (hq : c.cn_oncl = none) :
    ∃ evs, close_conn st sd = Except.ok
        { st with
          trace := st.trace ++ evs
          svr_allconns := st.svr_allconns.erase p
          heap := Function.update st.heap p none
          svr_conn := Function.update st.svr_conn sd none
          num_connections := st.num_connections - 1 }
      ∧ ∀ s, net_event.oncl s ∉ evs := by
  obtain ⟨hidx, hslot, h0, _⟩ := get_conn_some st sd p hreg
  unfold close_conn
  have hneg : ¬ sd < 0 := by omega
  simp only [hneg, if_false, hidx, hslot, hheap, hq]
  refine ⟨(if c.cn_active != conn_type.ChildPipe then
        [net_event.dis_destroy_chan sd, net_event.CS_close_socket sd] else [])
      ++ (net_event.em_del_fd false c.cn_sock ::
            (if c.cn_prio_flag then [net_event.em_del_fd true c.cn_sock] else [])
      ++ [net_event.closesocket sd]), ?_, ?_⟩
  · simp [List.append_assoc]
  · intro s hm
    split_ifs at hm <;> simp at hm

/-- One turn of the loop of `net_close` on the record `c` at `p` of a consistent
registry. -/
theorem net_close_walk_step (but : Int) (fuel p : Nat) (st : net_state) (c : conn_t)
    (hok : registry_ok st) (hp : p ∈ st.svr_allconns) (hc : st.heap p = some c) :
    net_close_walk (fuel + 1) (some p) but st
      = if (c.cn_sock != but) = true then
          (match close_conn
              { st with heap := Function.update st.heap p (some { c with cn_oncl := none }) }
              c.cn_sock with
            | Except.error f => Except.error f
            | Except.ok st2 =>
              net_close_walk fuel (list_next st.svr_allconns p) but
                { st2 with trace := st2.trace ++ [net_event.destroy_connection c.cn_sock] })
        else net_close_walk fuel (list_next st.svr_allconns p) but st := by
  obtain ⟨c0, hc0, hslot⟩ := hok.2.2.1 p hp
  rw [hc] at hc0
  cases hc0
  obtain ⟨hb0, hb1, _, _⟩ := hok.1 _ p hslot
  conv_lhs => unfold net_close_walk
  simp only [hc]
  by_cases hbut : (c.cn_sock != but) = true
  · have hrange : ¬ (c.cn_sock < 0 ∨ c.cn_sock ≥ st.conns_array_size) := by omega
    simp only [hbut, if_true, hrange, if_false, hslot, hc]
  · simp only [hbut, Bool.false_eq_true, if_false]

/-- The loop of `net_close` from a cursor that has the records `pre` behind it and the
records `suf` ahead: it completes, keeps `pre`, removes from `suf` exactly the records
whose socket is not `but`, leaves every other record and slot as it was, and invokes no
on-close hook. -/
theorem net_close_walk_spec (but : Int) :
    ∀ (fuel : Nat) (suf pre : List Nat) (st : net_state), registry_ok st →
      st.svr_allconns = pre ++ suf → suf.length ≤ fuel →
      ∃ st1 evs, net_close_walk fuel suf.head? but st = Except.ok st1 ∧ registry_ok st1
        ∧ st1.svr_allconns = pre ++ suf.filter (fun p => !not_spared but st p)
        ∧ st1.net_is_initialized = st.net_is_initialized
        ∧ (∀ p, st1.heap p
            = if p ∈ suf ∧ not_spared but st p = true then none else st.heap p)
        ∧ (∀ sd, st1.svr_conn sd = (st.svr_conn sd).bind (fun p =>
            if p ∈ suf ∧ not_spared but st p = true then none else some p))
        ∧ st1.trace = st.trace ++ evs
        ∧ (∀ s, net_event.oncl s ∉ evs) := by
  intro fuel
  induction fuel with
  | zero =>
    intro suf pre st hok hl hlen
    have hs : suf = [] := List.length_eq_zero.mp (Nat.le_zero.mp hlen)
    subst hs
    refine ⟨st, [], rfl, hok, by simpa using hl, rfl, ?_, ?_, by simp, by simp⟩
    · intro p
      simp
    · intro sd
      cases st.svr_conn sd <;> simp
  | succ n ih =>
    intro suf pre st hok hl hlen
    cases suf with
    | nil =>
      refine ⟨st, [], rfl, hok, by simpa using hl, rfl, ?_, ?_, by simp, by simp⟩
      · intro p
        simp
      · intro sd
        cases st.svr_conn sd <;> simp
    | cons p rest =>
      have hnd : (pre ++ p :: rest).Nodup := by
        rw [← hl]
        exact hok.2.1
      have hp : p ∈ st.svr_allconns := by
        rw [hl]
        simp
      obtain ⟨c, hc, hslot⟩ := hok.2.2.1 p hp
      obtain ⟨hb0, hb1, _, _⟩ := hok.1 _ p hslot
      have hppre : p ∉ pre := by
        intro hm
        exact (List.nodup_append.mp hnd).2.2 hm (List.mem_cons_self _ _)
      have hprest : p ∉ rest := (List.nodup_cons.mp (List.nodup_append.mp hnd).2.1).1
      have hnext : list_next st.svr_allconns p = rest.head? := by
        rw [hl]
        exact list_next_append pre rest p hppre
      have hsw : not_spared but st p = (c.cn_sock != but) := by
        simp [not_spared, hc]
      have hlen1 : rest.length ≤ n := by
        simp only [List.length_cons] at hlen
        omega
      rw [List.head?_cons, net_close_walk_step but n p st c hok hp hc, hnext]
      by_cases ht : (c.cn_sock != but) = true
      · have hoka := registry_ok_heap_update st p c { c with cn_oncl := none } hok hc rfl
        obtain ⟨evs0, hclose, hevs0⟩ := close_conn_quiet
          { st with heap := Function.update st.heap p (some { c with cn_oncl := none }) }
          c.cn_sock p { c with cn_oncl := none }
          (get_conn_of_slot st _ p hslot hb0 hb1) (by simp) rfl
        obtain ⟨st2, hclose2, hok2, _⟩ := close_conn_ok _ c.cn_sock hoka
        rw [hclose] at hclose2
        cases hclose2
        have hl2 : st.svr_allconns.erase p = pre ++ rest := by
          rw [hl]
          exact erase_append_cons pre rest p hppre
        obtain ⟨st1, evs, hw, hok1, hlist, hinit, hheap, hsvr, htr, hev⟩ :=
          ih rest pre _ (registry_ok_trace _
            (st.trace ++ evs0 ++ [net_event.destroy_connection c.cn_sock]) hok2) hl2 hlen1
        have hsame : ∀ q, q ≠ p →
            not_spared but
              { st with
                trace := st.trace ++ evs0 ++ [net_event.destroy_connection c.cn_sock]
                svr_allconns := st.svr_allconns.erase p
                heap := Function.update
                  (Function.update st.heap p (some { c with cn_oncl := none })) p none
                svr_conn := Function.update st.svr_conn c.cn_sock none
                num_connections := st.num_connections - 1 } q
              = not_spared but st q := by
          intro q hq
          simp [not_spared, Function.update_noteq hq]
        simp only [ht, if_true, hclose]
        refine ⟨st1, evs0 ++ net_event.destroy_connection c.cn_sock :: evs, hw, hok1, ?_, hinit,
          ?_, ?_, ?_, ?_⟩
        · rw [hlist]
          have hfp : (!not_spared but st p) = false := by
            rw [hsw, ht]
            rfl
          rw [List.filter_cons_of_neg (by simp [hfp])]
          congr 1
          apply List.filter_congr
          intro q hq
          rw [hsame q (fun h => hprest (h ▸ hq))]
        · intro q
          rw [hheap q]
          by_cases hqp : q = p
          · subst hqp
            simp [hprest, hsw, ht]
          · rw [hsame q hqp]
            simp [hqp, Function.update_noteq hqp]
        · intro sd
          rw [hsvr sd]
          by_cases hsd : sd = c.cn_sock
          · subst hsd
            simp [hslot, hsw, ht]
          · simp only [Function.update_noteq hsd]
            cases hq : st.svr_conn sd with
            | none => rfl
            | some q =>
              have hqp : q ≠ p := by
                intro h
                subst h
                obtain ⟨_, _, _, c2, hc2, hs2⟩ := hok.1 sd q hq
                rw [hc] at hc2
                cases hc2
                exact hsd hs2.symm
              simp only [Option.some_bind, hsame q hqp, List.mem_cons, hqp, false_or]
        · rw [htr]
          simp only [List.append_assoc, List.singleton_append]
        · intro s hm
          rcases List.mem_append.mp hm with h | h
          · exact hevs0 s h
          · rcases List.mem_cons.mp h with h2 | h2
            · cases h2
            · exact hev s h2
      · have hl2 : st.svr_allconns = (pre ++ [p]) ++ rest := by
          rw [hl]
          simp
        obtain ⟨st1, evs, hw, hok1, hlist, hinit, hheap, hsvr, htr, hev⟩ :=
          ih rest (pre ++ [p]) st hok hl2 hlen1
        have hf : not_spared but st p = false := by
          rw [hsw]
          simpa using ht
        simp only [ht, Bool.false_eq_true, if_false]
        refine ⟨st1, evs, hw, hok1, ?_, hinit, ?_, ?_, htr, hev⟩
        · rw [hlist, List.filter_cons_of_pos (by simp [hf])]
          simp
        · intro q
          rw [hheap q]
          by_cases hqp : q = p
          · subst hqp
            simp [hprest, hf]
          · simp [hqp]
        · intro sd
          rw [hsvr sd]
          cases hq : st.svr_conn sd with
          | none => rfl
          | some q =>
            by_cases hqp : q = p
            · subst hqp
              simp [hprest, hf]
            · simp [hqp]

/-- C23: `net_close (but)` on a consistent registry. With the network not initialised it
changes nothing. With the network initialised it completes; no socket other than `but`
has a registered record afterwards and every record still linked is the one registered
for `but`; the registration of `but` and the fields of its record are as before; and no
on-close hook has been invoked. -/
theorem C23_net_close_spares_one (st : net_state) (but : Int) (hok : registry_ok st) :
    (st.net_is_initialized = false → net_close st but = Except.ok st)
    ∧ (st.net_is_initialized = true →
        ∃ st1 evs, net_close st but = Except.ok st1
          ∧ st1.trace = st.trace ++ evs
          ∧ (∀ s, net_event.oncl s ∉ evs)
          ∧ (∀ sd, sd ≠ but → get_conn st1 sd = none)
          ∧ (∀ q ∈ st1.svr_allconns, get_conn st but = some q)
          ∧ get_conn st1 but = get_conn st but
          ∧ (∀ p, get_conn st but = some p → p ∈ st1.svr_allconns ∧ st1.heap p = st.heap p)) := by
  constructor
  · intro h
    unfold net_close
    simp [h]
  · intro h
    obtain ⟨st1, evs, hw, hok1, hlist, hinit, hheap, hsvr, htr, hev⟩ :=
      net_close_walk_spec but st.svr_allconns.length st.svr_allconns [] st hok (by simp)
        (le_refl _)
    have hslots : ∀ sd, sd ≠ but → st1.svr_conn sd = none := by
      intro sd hsd
      rw [hsvr sd]
      cases hq : st.svr_conn sd with
      | none => rfl
      | some q =>
        obtain ⟨_, _, hm, c, hc, hs⟩ := hok.1 sd q hq
        have : not_spared but st q = true := by
          simp only [not_spared, hc, bne_iff_ne, ne_eq]
          rw [hs]
          exact hsd
        simp [hm, this]
    have hlinked : ∀ q ∈ st1.svr_allconns, get_conn st but = some q := by
      intro q hq
      rw [hlist] at hq
      simp only [List.nil_append, List.mem_filter] at hq
      obtain ⟨hm, hns⟩ := hq
      obtain ⟨c, hc, hslot⟩ := hok.2.2.1 q hm
      obtain ⟨hb0, hb1, _, _⟩ := hok.1 _ q hslot
      have hs : c.cn_sock = but := by
        simpa [not_spared, hc] using hns
      rw [← hs]
      exact get_conn_of_slot st _ q hslot hb0 hb1
    have hbut : ∀ p, get_conn st but = some p →
        st1.svr_conn but = some p ∧ p ∈ st1.svr_allconns ∧ st1.heap p = st.heap p := by
      intro p hg
      obtain ⟨_, hslot, _, _⟩ := get_conn_some st but p hg
      obtain ⟨_, _, hm, c, hc, hs⟩ := hok.1 but p hslot
      have hns : not_spared but st p = false := by
        simp [not_spared, hc, hs]
      refine ⟨?_, ?_, ?_⟩
      · rw [hsvr but, hslot]
        simp [hns]
      · rw [hlist]
        simp [hm, hns]
      · rw [hheap p]
        simp [hns]
    have hsame : get_conn st1 but = get_conn st but := by
      cases hg : get_conn st but with
      | some p =>
        obtain ⟨hs1, _, _⟩ := hbut p hg
        obtain ⟨hb0, hb1, _, _⟩ := hok1.1 _ p hs1
        exact get_conn_of_slot st1 but p hs1 hb0 hb1
      | none =>
        apply get_conn_none_of_slot
        rw [hsvr but]
        cases hq : st.svr_conn but with
        | none => rfl
        | some q =>
          obtain ⟨hb0, hb1, _, _⟩ := hok.1 but q hq
          rw [get_conn_of_slot st but q hq hb0 hb1] at hg
          cases hg
    unfold net_close
    simp only [h, Bool.not_true, Bool.false_eq_true, if_false, hw]
    by_cases hb : (but == -1) = true
    · simp only [hb, if_true]
      refine ⟨_, evs ++ [net_event.em_destroy false, net_event.em_destroy true], rfl, ?_, ?_,
        ?_, hlinked, hsame, fun p hg => (hbut p hg).2⟩
      · show st1.trace ++ _ = _
        rw [htr, List.append_assoc]
      · intro s hm
        rcases List.mem_append.mp hm with h1 | h1
        · exact hev s h1
        · simp at h1
      · intro sd hsd
        exact get_conn_none_of_slot _ sd (hslots sd hsd)
    · simp only [hb, Bool.false_eq_true, if_false]
      exact ⟨st1, evs, rfl, htr, hev,
        fun sd hsd => get_conn_none_of_slot _ sd (hslots sd hsd), hlinked, hsame,
        fun p hg => (hbut p hg).2⟩

theorem example_close_registry_ok : registry_ok example_close_registry :=
  registry_ok_heap_update { example_sweep_registry with net_is_initialized := true } 1
    ⟨5, conn_type.FromClientDIS, 0, 2000, 100, none, 1, none, false, false, false, false⟩
    ⟨5, conn_type.FromClientDIS, 0, 2000, 100, none, 1, some 9, false, false, false, false⟩
    example_sweep_registry_ok (by decide) rfl

/-- C23 at a concrete registry: `net_close (3)` spares the listener on socket 3, closes
the clients on the sockets 5, 6 and 7, and does not invoke the on-close hook installed
for socket 5. -/
theorem C23_net_close_witness :
    registry_ok example_close_registry
      ∧ ∃ st1 evs, net_close example_close_registry 3 = Except.ok st1
          ∧ st1.trace = example_close_registry.trace ++ evs
          ∧ (∀ s, net_event.oncl s ∉ evs)
          ∧ (∀ sd, sd ≠ 3 → get_conn st1 sd = none)
          ∧ (∀ q ∈ st1.svr_allconns, get_conn example_close_registry 3 = some q)
          ∧ get_conn st1 3 = get_conn example_close_registry 3
          ∧ (∀ p, get_conn example_close_registry 3 = some p →
              p ∈ st1.svr_allconns ∧ st1.heap p = example_close_registry.heap p) :=
  ⟨example_close_registry_ok,
    (C23_net_close_spares_one example_close_registry 3 example_close_registry_ok).2
      (by decide)⟩

/-- The calls of that `net_close (3)`, and of a plain `close_conn (5)` on the same
registry, which does invoke the on-close hook. -/
theorem net_close_example :
    (net_close example_close_registry 3).map (fun s => (s.svr_allconns, s.trace.drop 4))
      = Except.ok ([0],
          [net_event.dis_destroy_chan 5, net_event.CS_close_socket 5,
           net_event.em_del_fd false 5, net_event.closesocket 5,
           net_event.destroy_connection 5,
           net_event.dis_destroy_chan 6, net_event.CS_close_socket 6,
           net_event.em_del_fd false 6, net_event.closesocket 6,
           net_event.destroy_connection 6,
           net_event.dis_destroy_chan 7, net_event.CS_close_socket 7,
           net_event.em_del_fd false 7, net_event.closesocket 7,
           net_event.destroy_connection 7])
    ∧ (close_conn example_close_registry 5).map (fun s => s.trace.drop 4)
      = Except.ok [net_event.dis_destroy_chan 5, net_event.CS_close_socket 5,
          net_event.oncl 5, net_event.em_del_fd false 5, net_event.closesocket 5] := by
  decide

/-! ## The listeners -/

/-- C24, as the claim states it, does not hold of the code: a call that fails on the
socket -1 is not counted. After such a first call, the second call registers its socket
as the `Primary` listener and the third as a `Secondary` one; and a first call whose
`listen` fails returns -1 with its socket registered as `Primary` and counted. -/
theorem C24_failed_first_call_is_not_counted :
    (init_network_add_seq
        [⟨-1, true, true, true⟩, ⟨4, true, true, true⟩, ⟨5, true, true, true⟩] init_start).map
        (fun r => (r.1, listener_kind r.2 4, listener_kind r.2 5, r.2.initialized))
      = Except.ok ([-1, 0, 0], some conn_type.Primary, some conn_type.Secondary, 2)
    ∧ (init_network_add_seq [⟨4, true, true, false⟩] init_start).map
        (fun r => (r.1, listener_kind r.2 4, r.2.initialized))
      = Except.ok ([-1], some conn_type.Primary, 1) := by
  decide

/-- Three calls that all succeed as far as they can: `Primary`, `Secondary`, and -1
without a record. -/
theorem init_network_add_example :
    (init_network_add_seq
        [⟨4, true, true, true⟩, ⟨5, true, true, true⟩, ⟨6, true, true, true⟩,
         ⟨7, true, true, true⟩] init_start).map
        (fun r => (r.1, [listener_kind r.2 4, listener_kind r.2 5, listener_kind r.2 6,
          listener_kind r.2 7], r.2.net.svr_allconns))
      = Except.ok ([0, 0, -1, -1], [some conn_type.Primary, some conn_type.Secondary, none,
          none], [0, 1]) := by
  decide

theorem add_conn_registers (st : net_state) (sd : Int) (type : conn_type) (addr port : Nat)
    (rf : Option Nat) (f : Nat) (now : Int) (h0 : 0 ≤ sd) :
    ∃ st1 p c, add_conn st sd type addr port rf f now true = Except.ok (some p, st1)
      ∧ get_conn st1 sd = some p ∧ st1.heap p = some c ∧ c.cn_active = type
      ∧ st1.trace = st.trace ++ [net_event.em_add_fd false sd] := by
  have hneg : ¬ sd < 0 := by omega
  unfold add_conn add_conn_priority
  simp only [hneg, if_false, Bool.not_true, Bool.false_eq_true]
  refine ⟨_, _, ⟨sd, type, addr, port % 65536, now, rf, f, none, false,
    decide (port < IPPORT_RESERVED), false, false⟩, rfl, ?_, ?_, rfl, rfl⟩
  · unfold get_conn conn_find_actual_index
    dsimp only
    have hsize : sd < (if sd ≥ st.conns_array_size then sd + CONNS_ARRAY_INCREMENT
        else st.conns_array_size) := by
      unfold CONNS_ARRAY_INCREMENT
      split_ifs <;> omega
    simp [h0, hsize]
  · simp

theorem connection_init_empty (st : net_state) (h : st.svr_allconns = []) :
    connection_init st = Except.ok st := by
  unfold connection_init
  rw [h]
  simp only [List.length_nil, List.head?_nil, connection_init_walk]
  cases st
  simp_all

/-- C24, amended: the listener kind follows the static counter `initialized`, which
counts the calls that were given a socket other than -1 once the poll context was
initialised. A call made with the counter at 2 or more returns -1 and changes nothing. A
call with the counter at 1, a non-negative socket, and the enrolment and `listen`
succeeding returns 0, registers the socket as `Secondary` and sets the counter to 2. A
call with the counter at 0 and no record linked, with the poll context initialised, a
non-negative socket, and the enrolment and `listen` succeeding returns 0, registers the
socket as `Primary` and sets the counter to 1. A call with the socket -1, or with the
counter at 0 and the poll context not initialised, returns -1, registers nothing and
leaves the counter as it was. -/
theorem C24_listener_kind_follows_counter (ls : init_state) (sd : Int)
    (readyreadfunc : Option Nat) (readfunc : Nat) (poll_ok em_ok listen_ok : Bool)
    (now : Int) :
    (2 ≤ ls.initialized →
      init_network_add ls sd readyreadfunc readfunc poll_ok em_ok listen_ok now
        = Except.ok (-1, ls))
    ∧ (ls.initialized = 1 → 0 ≤ sd → em_ok = true → listen_ok = true →
        ∃ ls1, init_network_add ls sd readyreadfunc readfunc poll_ok em_ok listen_ok now
            = Except.ok (0, ls1)
          ∧ ls1.initialized = 2 ∧ listener_kind ls1 sd = some conn_type.Secondary)
    ∧ (ls.initialized = 0 → ls.net.svr_allconns = [] → poll_ok = true → 0 ≤ sd →
        em_ok = true → listen_ok = true →
        ∃ ls1, init_network_add ls sd readyreadfunc readfunc poll_ok em_ok listen_ok now
            = Except.ok (0, ls1)
          ∧ ls1.initialized = 1 ∧ listener_kind ls1 sd = some conn_type.Primary)
    ∧ ((ls.initialized = 1 ∨ (ls.initialized = 0 ∧ ls.net.svr_allconns = [])) →
        (sd = -1 ∨ (ls.initialized = 0 ∧ poll_ok = false)) →
        ∃ ls1, init_network_add ls sd readyreadfunc readfunc poll_ok em_ok listen_ok now
            = Except.ok (-1, ls1)
          ∧ ls1.initialized = ls.initialized ∧ ls1.net.svr_conn = ls.net.svr_conn
          ∧ ls1.net.heap = ls.net.heap ∧ ls1.net.svr_allconns = ls.net.svr_allconns
          ∧ ls1.net.trace = ls.net.trace) := by
  refine ⟨?_, ?_, ?_, ?_⟩
  · intro h
    unfold init_network_add
    have h0 : ¬ ls.initialized = 0 := by omega
    have h1 : ¬ ls.initialized = 1 := by omega
    simp only [h0, h1, if_false]
  · intro h hsd hem hl
    subst hem hl
    have hsd1 : (sd == -1) = false := by
      rw [beq_eq_false_iff_ne]
      omega
    obtain ⟨st1, p, c, hadd, hg, hh, hc, _⟩ := add_conn_registers
      { ls.net with net_is_initialized := true } sd conn_type.Secondary 0 0 none accept_conn
      now hsd
    unfold init_network_add
    have h0 : ¬ ls.initialized = 0 := by omega
    simp only [h0, h, if_false, if_true, hsd1, Bool.false_eq_true, hadd, Bool.not_true]
    refine ⟨_, rfl, rfl, ?_⟩
    unfold listener_kind
    simp only [hg, hh, Option.map_some', hc]
  · intro h hempty hpoll hsd hem hl
    subst hpoll hem hl
    have hsd1 : (sd == -1) = false := by
      rw [beq_eq_false_iff_ne]
      omega
    obtain ⟨st1, p, c, hadd, hg, hh, hc, _⟩ := add_conn_registers
      { ls.net with net_is_initialized := true } sd conn_type.Primary 0 0 none accept_conn
      now hsd
    unfold init_network_add
    simp only [h, if_true, connection_init_empty ls.net hempty, Bool.not_true,
      Bool.false_eq_true, if_false, hsd1, hadd]
    refine ⟨_, rfl, rfl, ?_⟩
    unfold listener_kind
    simp only [hg, hh, Option.map_some', hc]
  · intro hstate hfail
    unfold init_network_add
    rcases hstate with h1 | ⟨h0, hempty⟩
    · have h0 : ¬ ls.initialized = 0 := by omega
      have hsd : sd = -1 := by
        rcases hfail with h | ⟨h, _⟩
        · exact h
        · exact absurd h h0
      subst hsd
      simp only [h0, h1, if_false, if_true, beq_self_eq_true]
      exact ⟨_, rfl, rfl, rfl, rfl, rfl, rfl⟩
    · simp only [h0, if_true, connection_init_empty ls.net hempty]
      by_cases hp : poll_ok = true
      · have hsd : sd = -1 := by
          rcases hfail with h | ⟨_, h⟩
          · exact h
          · rw [hp] at h
            cases h
        subst hsd hp
        simp only [Bool.not_true, Bool.false_eq_true, if_false, beq_self_eq_true, if_true]
        exact ⟨_, rfl, rfl, rfl, rfl, rfl, rfl⟩
      · have hp2 : poll_ok = false := by simpa using hp
        subst hp2
        simp only [Bool.not_false, if_true]
        exact ⟨_, rfl, rfl, rfl, rfl, rfl, rfl⟩

end PbsPro
